import Mathlib

/-! CiniSuggest: the recommendation resolution pipeline.

A shallow embedding of the server side of the repository
(`api/_utils/tmdbClient.js`, `api/_utils/geminiClient.js`,
`api/recommend/genre.js`, `api/recommend/similar.js`) and of the similarity
ranker of the client (`src/services/apiClient.js`), and theorems about them.

Conventions of the embedding

* A JavaScript string is a Lean `String`; an absent (`undefined` / `null`)
  property is `none`.
* `String.prototype.toLowerCase` is a builtin of the host language, not code of
  the repository: every function that calls it takes it as the parameter
  `toLowerCase`, so the theorems hold for whatever the builtin computes.
* A JavaScript number is a `JsNumber`: a finite IEEE-754 double, given by the
  rational it denotes, an infinity or `NaN`. An arithmetic operation rounds its
  exact result to the nearest double, ties to even (`roundToDouble`); the sign
  of a zero is not kept. The numeric fields of a parsed response hold the
  rationals denoted by the doubles the parser produced. A date that does not
  parse (whose year is `NaN`) is `none`.
* The module-level `cache`, the clock read by `Date.now()` and the outbound
  requests are an explicit `State`; the remote services are a `World` that
  answers the n-th outbound request.
-/

namespace CiniSuggest

/-! ## JavaScript string helpers -/

/-- The characters matched by the regular-expression class `\s` (the same set
that `String.prototype.trim` removes): WhiteSpace and LineTerminator of
ECMAScript. -/
def isJsWhitespace (c : Char) : Bool :=
  let n := c.toNat
  n == 0x09 || n == 0x0A || n == 0x0B || n == 0x0C || n == 0x0D || n == 0x20 ||
  n == 0xA0 || n == 0x1680 || (0x2000 ≤ n && n ≤ 0x200A) || n == 0x2028 ||
  n == 0x2029 || n == 0x202F || n == 0x205F || n == 0x3000 || n == 0xFEFF

/-- Worker of `.replace(/\s+/g, '_')`: `inRun` says that the previous character
was whitespace, so that a maximal run yields one underscore. -/
def replaceWhitespaceRuns : Bool → List Char → List Char
  | _, [] => []
  | inRun, c :: cs =>
    if isJsWhitespace c then
      (if inRun then replaceWhitespaceRuns true cs else '_' :: replaceWhitespaceRuns true cs)
    else c :: replaceWhitespaceRuns false cs

/-- `haystack.includes(needle)` on character lists. -/
def includesChars : List Char → List Char → Bool
  | [], needle => needle.isEmpty
  | c :: cs, needle => needle.isPrefixOf (c :: cs) || includesChars cs needle

/-- `haystack.includes(needle)`. -/
def includes (haystack needle : String) : Bool :=
  includesChars haystack.data needle.data

/-- JavaScript `a || b` on optional strings: `a` when it is truthy (present and
non-empty), otherwise `b`. -/
def orElseStr (a b : Option String) : Option String :=
  match a with
  | some s => if s = "" then b else some s
  | none => b

/-! ## Data model -/

/-- A media object as the server handles it: the `simplifiedResult` built by
`searchMedia` (which carries `genre_ids`) and the `details` built by
`getMediaDetails` (which carries `genres`). A property the object literal does
not set is `none`. -/
structure Media where
  id : Int
  title : Option String
  media_type : String
  poster_path : Option String
  overview : Option String
  genre_ids : Option (List Int)
  genres : Option (List String)
  vote_average : Option Rat
  release_date : Option String
deriving DecidableEq, Repr

/-- An entry of `data.results` in the multi-search response. -/
structure RawResult where
  id : Int
  media_type : String
  title : Option String
  name : Option String
  poster_path : Option String
  overview : Option String
  genre_ids : Option (List Int)
  vote_average : Option Rat
  release_date : Option String
  first_air_date : Option String
deriving DecidableEq, Repr

/-- The parsed body of a multi-search response; `results` may be absent. -/
structure SearchData where
  results : Option (List RawResult)
deriving DecidableEq, Repr

/-- The parsed body of a details response; `genres` is a list of objects of
which only `name` is read. -/
structure DetailsData where
  id : Int
  title : Option String
  name : Option String
  overview : Option String
  genres : Option (List String)
  poster_path : Option String
  vote_average : Option Rat
  release_date : Option String
  first_air_date : Option String
deriving DecidableEq, Repr

/-- What `await fetch(url)` followed by `await response.json()` does:
`fetch` rejects, the response is not `ok`, reading the body throws, or the
body is parsed. -/
inductive FetchOutcome (α : Type) where
  | rejected (message : String)
  | notOk (status : Nat) (statusText : String)
  | bodyThrows (message : String)
  | ok (data : α)
deriving DecidableEq, Repr

/-- An outbound request to the metadata service. -/
inductive Request where
  | search (query : String)
  | details (media_type : String) (id : Int)
deriving DecidableEq, Repr

/-- The remote metadata service: the outcome of the n-th outbound request (n
counts the requests issued before it) and the milliseconds it takes. -/
structure World where
  search : Nat → String → FetchOutcome SearchData
  details : Nat → String → Int → FetchOutcome DetailsData
  latency : Nat → Nat

/-- A value of the module-level `cache` map: `{ value, expiry }`. -/
structure CacheEntry where
  value : Option Media
  expiry : Nat
deriving DecidableEq, Repr

/-- The mutable state of `tmdbClient.js`: the `cache` map (entries in insertion
order), the clock `Date.now()` in milliseconds, and the outbound requests
issued so far. -/
structure State where
  cache : List (String × CacheEntry)
  now : Nat
  requests : List Request
deriving DecidableEq, Repr

/-! ## The JavaScript `Map` -/

/-- `map.get(key)`. -/
def mapGet {K V : Type} [DecidableEq K] : List (K × V) → K → Option V
  | [], _ => none
  | (k, v) :: m, key => if k = key then some v else mapGet m key

/-- `map.set(key, value)`: an existing key keeps its position and gets the new
value; a new key is appended. -/
def mapSet {K V : Type} [DecidableEq K] : List (K × V) → K → V → List (K × V)
  | [], key, value => [(key, value)]
  | (k, v) :: m, key, value =>
    if k = key then (k, value) :: m else (k, v) :: mapSet m key value

/-- `map.delete(key)`. -/
def mapDelete {K V : Type} [DecidableEq K] : List (K × V) → K → List (K × V)
  | [], _ => []
  | (k, v) :: m, key => if k = key then m else (k, v) :: mapDelete m key

/-- `new Map(entries)`: the entries are set one after the other. -/
def mapOfEntries {K V : Type} [DecidableEq K] (entries : List (K × V)) : List (K × V) :=
  entries.foldl (fun m e => mapSet m e.1 e.2) []

/-- `Array.from(map.values())`. -/
def mapValues {K V : Type} (m : List (K × V)) : List V :=
  m.map Prod.snd

/-! ## `tmdbClient.js` -/

/-- `const CACHE_TTL = 10 * 60 * 1000`. -/
def CACHE_TTL : Nat := 10 * 60 * 1000

/-- `const POSTER_BASE_URL`. -/
def POSTER_BASE_URL : String := "https://image.tmdb.org/t/p/"

/-- `getCacheKey(prefix, key)`. -/
def getCacheKey (toLowerCase : String → String) (pre key : String) : String :=
  pre ++ "_" ++ String.mk (replaceWhitespaceRuns false (toLowerCase key).data)

/-- `getFromCache(key)`: the value of an unexpired entry; otherwise the key is
deleted and the result is `null`. A stored `null` value is returned as `null`
too. -/
def getFromCache (s : State) (key : String) : Option Media × State :=
  match mapGet s.cache key with
  | some entry =>
    if s.now < entry.expiry then (entry.value, s)
    else (none, { s with cache := mapDelete s.cache key })
  | none => (none, { s with cache := mapDelete s.cache key })

/-- `setInCache(key, value)`. -/
def setInCache (s : State) (key : String) (value : Option Media) : State :=
  { s with cache := mapSet s.cache key { value := value, expiry := s.now + CACHE_TTL } }

/-- The predicate of `data.results?.find(...)` in `searchMedia`. -/
def isMovieOrTv (r : RawResult) : Bool :=
  r.media_type == "movie" || r.media_type == "tv"

/-- The object literal `simplifiedResult` of `searchMedia`. -/
def simplifiedResult (result : RawResult) : Media :=
  { id := result.id
    title := orElseStr result.title result.name
    media_type := result.media_type
    poster_path := result.poster_path
    overview := result.overview
    genre_ids := result.genre_ids
    genres := none
    vote_average := result.vote_average
    release_date := orElseStr result.release_date result.first_air_date }

/-- `searchMedia(query)`. The cached value is returned only when it is truthy
(`if (cached) return cached;`); otherwise one request is issued. A failure of the
request is caught and gives `null` without touching the cache. -/
def searchMedia (toLowerCase : String → String) (w : World) (s : State) (query : String) :
    Option Media × State :=
  let cacheKey := getCacheKey toLowerCase "search" query
  match getFromCache s cacheKey with
  | (some cached, s1) => (some cached, s1)
  | (none, s1) =>
    let n := s1.requests.length
    let s2 : State :=
      { s1 with requests := s1.requests ++ [Request.search query], now := s1.now + w.latency n }
    match w.search n query with
    | .rejected _ => (none, s2)
    | .notOk _ _ => (none, s2)
    | .bodyThrows _ => (none, s2)
    | .ok data =>
      match data.results.bind (fun rs => rs.find? isMovieOrTv) with
      | some result =>
        (some (simplifiedResult result), setInCache s2 cacheKey (some (simplifiedResult result)))
      | none => (none, setInCache s2 cacheKey none)

/-- `getMediaDetails(id, media_type)`. -/
def getMediaDetails (toLowerCase : String → String) (w : World) (s : State)
    (id : Option Int) (media_type : Option String) : Option Media × State :=
  match id, media_type with
  | some i, some mt =>
    if i = 0 ∨ mt = "" ∨ (mt ≠ "movie" ∧ mt ≠ "tv") then (none, s)
    else
      let cacheKey := getCacheKey toLowerCase ("details_" ++ mt) (toString i)
      match getFromCache s cacheKey with
      | (some cached, s1) => (some cached, s1)
      | (none, s1) =>
        let n := s1.requests.length
        let s2 : State :=
          { s1 with requests := s1.requests ++ [Request.details mt i], now := s1.now + w.latency n }
        match w.details n mt i with
        | .rejected _ => (none, s2)
        | .notOk _ _ => (none, s2)
        | .bodyThrows _ => (none, s2)
        | .ok data =>
          let details : Media :=
            { id := data.id
              title := orElseStr data.title data.name
              overview := data.overview
              genres := some (data.genres.getD [])
              genre_ids := none
              poster_path := data.poster_path
              vote_average := data.vote_average
              release_date := orElseStr data.release_date data.first_air_date
              media_type := mt }
          (some details, setInCache s2 cacheKey (some details))
  | _, _ => (none, s)

/-- `getPosterUrl(posterPath, size = 'w500')`. -/
def getPosterUrl (posterPath : Option String) (size : String := "w500") : Option String :=
  match posterPath with
  | some p => if p = "" then none else some (POSTER_BASE_URL ++ size ++ p)
  | none => none

/-- The display record pushed by `getRecommendationsDetails`. -/
structure DisplayRecord where
  id : Int
  title : Option String
  posterUrl : Option String
  year : Option String
  rating : Option Rat
  overview : Option String
  media_type : String
deriving DecidableEq, Repr

/-- An element of the array `Promise.allSettled` resolves to. -/
inductive Settled where
  | fulfilled (value : Option Media)
  | rejected (reason : String)
deriving DecidableEq, Repr

/-- The object literal pushed onto `results` for a fulfilled, truthy lookup. -/
def displayRecord (media : Media) : DisplayRecord :=
  { id := media.id
    title := media.title
    posterUrl := getPosterUrl media.poster_path
    year := media.release_date
    rating := media.vote_average
    overview := media.overview
    media_type := media.media_type }

/-- The `for (const result of searchResults)` loop: the array `results`. -/
def collectResults (searchResults : List Settled) : List DisplayRecord :=
  searchResults.filterMap fun result =>
    match result with
    | .fulfilled (some media) => some (displayRecord media)
    | .fulfilled none => none
    | .rejected _ => none

/-- The array `searchResults`: `searchMedia i title` is how the lookup started
for the title at index `i` settles. -/
def settleAll (searchMedia : Nat → String → Settled) (titles : List String) : List Settled :=
  titles.enum.map fun p => searchMedia p.1 p.2

/-- `getRecommendationsDetails(titles)`; `titles = none` is an argument that is
not an array. -/
def getRecommendationsDetails (searchMedia : Nat → String → Settled)
    (titles : Option (List String)) : List DisplayRecord :=
  match titles with
  | none => []
  | some ts =>
    if ts.length = 0 then []
    else
      let results := collectResults (settleAll searchMedia ts)
      mapValues (mapOfEntries (results.map fun item => (item.id, item)))

/-! ## `geminiClient.js` -/

/-- A thrown JavaScript error, as far as the handlers read it. -/
structure JsError where
  message : Option String
  stack : Option String
deriving DecidableEq, Repr

/-- The quote characters `"`, apostrophe and backtick of the cleaning regex. -/
def isQuoteChar (c : Char) : Bool :=
  c.toNat == 34 || c.toNat == 39 || c.toNat == 96

/-- The class `[\d\*\-\.\s"'‵]` (with the ASCII backtick) of the cleaning
regex. -/
def isLeadingStripChar (c : Char) : Bool :=
  (48 ≤ c.toNat && c.toNat ≤ 57) || c == '*' || c == '-' || c == '.' ||
  isJsWhitespace c || isQuoteChar c

/-- `text.split('\n')` on character lists. -/
def splitLines : List Char → List (List Char)
  | [] => [[]]
  | c :: cs =>
    if c = '\n' then [] :: splitLines cs
    else
      match splitLines cs with
      | [] => [[c]]
      | l :: ls => (c :: l) :: ls

/-- The alternative `["'‵]+$` of the cleaning regex tried at the current
position: it matches when the rest of the line is a non-empty run of quotes
(the greedy run has to reach the end of the line). -/
def matchesTrailingQuotes (rest : List Char) : Bool :=
  !rest.isEmpty && rest.all isQuoteChar

/-- The scan of the global replace past position 0, where `^` cannot match: at
each position the alternative anchored at the end is tried; a match is replaced
by the empty string and ends the line, otherwise the character is kept and the
scan moves on. -/
def replaceAfterStart : List Char → List Char
  | [] => []
  | c :: cs => if matchesTrailingQuotes (c :: cs) then [] else c :: replaceAfterStart cs

/-- The call `title.replace(/^[\d\*\-\.\s"'‵]+|["'‵]+$/g, '')`: at position 0
the alternative anchored at the start is tried first and, being greedy, consumes
the whole leading run of the class; the scan then goes on behind the match. -/
def replaceCleaningRegex (title : List Char) : List Char :=
  match title with
  | [] => []
  | c :: cs =>
    if isLeadingStripChar c then
      replaceAfterStart ((c :: cs).dropWhile isLeadingStripChar)
    else replaceAfterStart (c :: cs)

/-- `String.prototype.trim` on character lists. -/
def trimChars (cs : List Char) : List Char :=
  ((cs.dropWhile isJsWhitespace).reverse.dropWhile isJsWhitespace).reverse

/-- `cleanTitles(text)`. -/
def cleanTitles (text : Option String) : List String :=
  match text with
  | none => []
  | some t =>
    if t = "" then []
    else
      (((splitLines t.data).map fun title => trimChars (replaceCleaningRegex title)).filter
        fun title => !title.isEmpty).map String.mk

/-- `const MOCK_TITLES`, its keys in insertion order. -/
def MOCK_TITLES : List (String × List String) :=
  [ ("action", ["Die Hard", "The Dark Knight", "Mad Max: Fury Road", "John Wick", "Mission Impossible"]),
    ("comedy", ["Superbad", "Bridesmaids", "The Hangover", "Dumb and Dumber", "Anchorman"]),
    ("drama", ["The Shawshank Redemption", "The Godfather", "Schindler\x27s List", "Forrest Gump", "Casablanca"]),
    ("horror", ["The Shining", "Hereditary", "A Quiet Place", "Get Out", "The Exorcist"]),
    ("romance", ["The Notebook", "Titanic", "Pride and Prejudice", "Before Sunrise", "La La Land"]),
    ("sci-fi", ["Blade Runner", "The Matrix", "Inception", "Interstellar", "Alien"]),
    ("thriller", ["Se7en", "Silence of the Lambs", "Parasite", "Gone Girl", "No Country for Old Men"]),
    ("default", ["The Shawshank Redemption", "The Dark Knight", "Pulp Fiction", "Forrest Gump", "Inception"]) ]

/-- `Object.keys(MOCK_TITLES)`. -/
def mockKeys : List String :=
  MOCK_TITLES.map Prod.fst

/-- The generative model `model`, when one was initialised: what
`generateContent(prompt)` followed by `response.text()` yields, or the error
thrown on the way. -/
abbrev GenModel := String → Except JsError String

/-- The prompt of `getGenreRecommendations`. -/
def genrePrompt (genre : String) (count : Nat) (mediaType : String) : String :=
  "Recommend " ++ toString count ++ " highly regarded " ++ mediaType ++ " in the \x27" ++ genre ++
  "\x27 genre. \n\nFocus on works that:\n" ++
  "1. Are critically acclaimed or have cultural significance\n" ++
  "2. Represent diverse perspectives and storytelling approaches\n" ++
  "3. Include both classics and contemporary examples\n" ++
  "4. Have distinctive narrative techniques, themes, or visual styles\n" ++
  "5. Showcase strong character development and engaging plots\n\n" ++
  "DO prioritize quality and thematic depth over popularity.\n" ++
  "DO include some lesser-known gems alongside well-known examples.\n" ++
  "DO consider works from different countries and time periods.\n\n" ++
  "List only the exact titles, each on a new line. Do not add any introductory text, " ++
  "numbering, or formatting like asterisks or quotes."

/-- The mock lookup of `getGenreRecommendations`, used when there is no model
and in its `catch` block. -/
def genreFallback (toLowerCase : String → String) (genre : String) : Option (List String) :=
  let normalizedGenre := toLowerCase genre
  let mockGenre :=
    (mockKeys.find? fun g => includes normalizedGenre g || includes g normalizedGenre).getD "default"
  mapGet MOCK_TITLES mockGenre

/-- `getGenreRecommendations(genre, count = 20, mediaType = 'movies and TV shows')`;
`model = none` is the module without an initialised model. The result is `none`
when the table has no bucket under the chosen key (`undefined`). -/
def getGenreRecommendations (toLowerCase : String → String) (model : Option GenModel)
    (genre : String) (count : Nat := 20) (mediaType : String := "movies and TV shows") :
    Option (List String) :=
  match model with
  | none => genreFallback toLowerCase genre
  | some generate =>
    match generate (genrePrompt genre count mediaType) with
    | .ok text => some (cleanTitles (some text))
    | .error _ => genreFallback toLowerCase genre

/-- The prompt of `getSimilarityRecommendations`. -/
def similarityPrompt (title : Option String) (genres : Option (List String))
    (synopsis : Option String) (count : Nat) : String :=
  "Based on the following movie/show:\nTitle: " ++ title.getD "undefined" ++
  "\nGenres: " ++ (match genres with
    | some gs => String.intercalate ", " gs
    | none => "N/A") ++
  "\nSynopsis: " ++ ((orElseStr synopsis none).getD "No synopsis available.") ++
  "\n\nRecommend " ++ toString count ++ " similar movies or TV shows that share similar:\n" ++
  "1. Narrative structure, story arcs, and character development\n" ++
  "2. Themes, messages, and underlying philosophy\n" ++
  "3. Atmosphere, tone, and emotional impact\n" ++
  "4. Visual style and cinematographic elements\n" ++
  "5. Cultural or historical context, if relevant\n\n" ++
  "DO NOT recommend movies that are simply in the same franchise or by the same director.\n" ++
  "DO NOT recommend based solely on similar titles or naming conventions.\n" ++
  "DO NOT prioritize sequels or prequels.\n" ++
  "DO prioritize thematic and story similarity over genre matching.\n\n" ++
  "List only the exact titles of the recommendations, each on a new line. Do not add any " ++
  "introductory text, numbering, or formatting like asterisks or quotes."

/-- The mock lookup of `getSimilarityRecommendations`, used when there is no
model and in its `catch` block; `genres = none` is an argument that is not an
array. -/
def similarityFallback (toLowerCase : String → String) (genres : Option (List String)) :
    Option (List String) :=
  let normalizedGenres :=
    match genres with
    | some gs => String.intercalate " " (gs.map toLowerCase)
    | none => ""
  let mockGenre := (mockKeys.find? fun g => includes normalizedGenres g).getD "default"
  mapGet MOCK_TITLES mockGenre

/-- `getSimilarityRecommendations(title, genres, synopsis, count = 20)`. -/
def getSimilarityRecommendations (toLowerCase : String → String) (model : Option GenModel)
    (title : Option String) (genres : Option (List String)) (synopsis : Option String)
    (count : Nat := 20) : Option (List String) :=
  match model with
  | none => similarityFallback toLowerCase genres
  | some generate =>
    match generate (similarityPrompt title genres synopsis count) with
    | .ok text => some (cleanTitles (some text))
    | .error _ => similarityFallback toLowerCase genres

/-! ## The request handlers `recommend/genre.js` and `recommend/similar.js` -/

/-- A value of `req.query`: the parameter is absent, a string, or a value the
query parser built that is not a string (an array or a nested object; both are
truthy). -/
inductive QueryValue where
  | absent
  | str (s : String)
  | structured
deriving DecidableEq, Repr

/-- The JSON body passed to `res.json`. -/
inductive Body where
  | message (message : String)
  | failure (message : String) (details : Option String)
  | records (records : List DisplayRecord)
deriving DecidableEq, Repr

/-- What the handler sends: `res.status(status).json(body)`. -/
structure Response where
  status : Nat
  body : Body
deriving DecidableEq, Repr

/-- A call a handler makes into `tmdbClient.js` or `geminiClient.js`. -/
inductive Call where
  | searchMedia (query : String)
  | getMediaDetails (id : Int) (media_type : String)
  | getSimilarityRecommendations (title : Option String) (genres : Option (List String))
      (synopsis : Option String) (count : Nat)
  | getGenreRecommendations (genre : String) (count : Nat)
  | getRecommendationsDetails (titles : List String)
deriving DecidableEq, Repr

/-- The functions the handlers import, over a state `σ` that the calls thread:
each call ends by returning a value or throwing, and leaves a state. -/
structure Backends (σ : Type) where
  searchMedia : String → σ → Except JsError (Option Media) × σ
  getMediaDetails : Int → String → σ → Except JsError (Option Media) × σ
  getSimilarityRecommendations :
    Option String → Option (List String) → Option String → Nat → σ →
      Except JsError (Option (List String)) × σ
  getGenreRecommendations : String → Nat → σ → Except JsError (Option (List String)) × σ
  getRecommendationsDetails : List String → σ → Except JsError (List DisplayRecord) × σ

/-- The outcome of running a handler: the response sent, the imported functions
called (in order), and the state left. -/
structure Handled (σ : Type) where
  response : Response
  calls : List Call
  state : σ

/-- The response of a handler's `catch` block; `production` is
`process.env.NODE_ENV === 'production'`. -/
def serverError (production : Bool) (error : JsError) : Response :=
  { status := 500
    body := .failure ((orElseStr error.message none).getD "An unexpected error occurred.")
      (if production then none else error.stack) }

namespace Genre

/-- The default export of `recommend/genre.js`. -/
def handler {σ : Type} (b : Backends σ) (production : Bool) (genre : QueryValue) (s : σ) :
    Handled σ :=
  let invalid : Handled σ :=
    { response := ⟨400, .message "Genre query parameter is required and must be a string."⟩
      calls := []
      state := s }
  match genre with
  | .absent => invalid
  | .structured => invalid
  | .str g =>
    if g = "" then invalid
    else
      match b.getGenreRecommendations g 20 s with
      | (.error e, s1) => ⟨serverError production e, [.getGenreRecommendations g 20], s1⟩
      | (.ok none, s1) => ⟨⟨200, .records []⟩, [.getGenreRecommendations g 20], s1⟩
      | (.ok (some recommendedTitles), s1) =>
        if recommendedTitles.length = 0 then
          ⟨⟨200, .records []⟩, [.getGenreRecommendations g 20], s1⟩
        else
          match b.getRecommendationsDetails recommendedTitles s1 with
          | (.error e, s2) =>
            ⟨serverError production e,
              [.getGenreRecommendations g 20, .getRecommendationsDetails recommendedTitles], s2⟩
          | (.ok detailedRecommendations, s2) =>
            ⟨⟨200, .records detailedRecommendations⟩,
              [.getGenreRecommendations g 20, .getRecommendationsDetails recommendedTitles], s2⟩

end Genre

namespace Similar

/-- The default export of `recommend/similar.js`. -/
def handler {σ : Type} (b : Backends σ) (production : Bool) (title : QueryValue) (s : σ) :
    Handled σ :=
  let invalid : Handled σ :=
    { response := ⟨400, .message "Title query parameter is required and must be a string."⟩
      calls := []
      state := s }
  match title with
  | .absent => invalid
  | .structured => invalid
  | .str t =>
    if t = "" then invalid
    else
      match b.searchMedia t s with
      | (.error e, s1) => ⟨serverError production e, [.searchMedia t], s1⟩
      | (.ok none, s1) =>
        ⟨⟨404, .message ("Could not find movie/show titled \"" ++ t ++ "\" on TMDB.")⟩,
          [.searchMedia t], s1⟩
      | (.ok (some initialMedia), s1) =>
        let c1 : List Call :=
          [.searchMedia t, .getMediaDetails initialMedia.id initialMedia.media_type]
        match b.getMediaDetails initialMedia.id initialMedia.media_type s1 with
        | (.error e, s2) => ⟨serverError production e, c1, s2⟩
        | (.ok none, s2) =>
          ⟨⟨500, .message "Error fetching details for the input title."⟩, c1, s2⟩
        | (.ok (some mediaDetails), s2) =>
          let c2 : List Call :=
            c1 ++ [.getSimilarityRecommendations mediaDetails.title mediaDetails.genres
              mediaDetails.overview 20]
          match b.getSimilarityRecommendations mediaDetails.title mediaDetails.genres
              mediaDetails.overview 20 s2 with
          | (.error e, s3) => ⟨serverError production e, c2, s3⟩
          | (.ok none, s3) => ⟨⟨200, .records []⟩, c2, s3⟩
          | (.ok (some similarTitles), s3) =>
            if similarTitles.length = 0 then ⟨⟨200, .records []⟩, c2, s3⟩
            else
              match b.getRecommendationsDetails similarTitles s3 with
              | (.error e, s4) =>
                ⟨serverError production e, c2 ++ [.getRecommendationsDetails similarTitles], s4⟩
              | (.ok detailedRecommendations, s4) =>
                ⟨⟨200, .records (detailedRecommendations.filter fun rec =>
                    decide (rec.id ≠ mediaDetails.id))⟩,
                  c2 ++ [.getRecommendationsDetails similarTitles], s4⟩

end Similar

/-! ## Concrete inputs used by the examples -/

/-- ASCII lower-casing: what `toLowerCase` computes on ASCII strings. -/
def asciiLower (s : String) : String :=
  String.mk (s.data.map Char.toLower)

/-- A media object with the given id, title and type and no other property. -/
def mediaOf (id : Int) (title media_type : String) : Media :=
  { id := id, title := some title, media_type := media_type, poster_path := none,
    overview := none, genre_ids := none, genres := none, vote_average := none,
    release_date := none }

/-- Two lookups that both survive and share the id 1: a movie, then a show. -/
def sameIdLookups : Nat → String → Settled :=
  fun i _ =>
    if i = 0 then .fulfilled (some (mediaOf 1 "Alpha" "movie"))
    else .fulfilled (some (mediaOf 1 "Beta" "tv"))

/-- A search result that is neither a movie nor a show. -/
def personResult : RawResult :=
  { id := 7, media_type := "person", title := none, name := some "Nobody Here",
    poster_path := none, overview := none, genre_ids := none, vote_average := none,
    release_date := none, first_air_date := none }

/-- A metadata service whose every search succeeds with a single person entry;
every request takes 50 ms. -/
def personOnlyWorld : World :=
  { search := fun _ _ => .ok { results := some [personResult] }
    details := fun _ _ _ => .notOk 404 "Not Found"
    latency := fun _ => 50 }

/-- The state of a freshly started server: empty cache, clock at 0, no request
issued. -/
def freshState : State :=
  { cache := [], now := 0, requests := [] }

/-- Backends over a trivial state: the search finds the film of id 10, whose
details carry the genre Horror; the candidate generator is the one of
`geminiClient.js` without a model; the batch fetcher is
`getRecommendationsDetails`, whose lookups resolve a title to a film with the
length of the title as id. -/
def sampleBackends : Backends Unit :=
  { searchMedia := fun q s =>
      (if q = "zzz" then .ok none else .ok (some (mediaOf 10 q "movie")), s)
    getMediaDetails := fun id mt s =>
      (if id = 10 then
          .ok (some { mediaOf 10 "Get Out" mt with genres := some ["Horror"] })
        else .ok none, s)
    getSimilarityRecommendations := fun t gs syn n s =>
      (.ok (getSimilarityRecommendations asciiLower none t gs syn n), s)
    getGenreRecommendations := fun g n s =>
      (.ok (getGenreRecommendations asciiLower none g n), s)
    getRecommendationsDetails := fun titles s =>
      (.ok (getRecommendationsDetails
        (fun _ t => .fulfilled (some (mediaOf t.length t "movie"))) (some titles)), s) }

/-- Backends whose candidate generators return no title. -/
def emptyGeneratorBackends : Backends Unit :=
  { sampleBackends with
    getSimilarityRecommendations := fun _ _ _ _ s => (.ok (some []), s)
    getGenreRecommendations := fun _ _ s => (.ok (some []), s) }

/-- The query parameter is missing, empty or not a string. -/
def QueryValue.Invalid (q : QueryValue) : Prop :=
  q = .absent ∨ q = .structured ∨ q = .str ""

/-! ## Specification-side notions -/

/-- A list with every repeat after the first occurrence removed. -/
def firstOccurrences {α : Type} [DecidableEq α] : List α → List α
  | [] => []
  | x :: xs => x :: (firstOccurrences xs).filter fun y => decide (y ≠ x)

/-- The ids of the surviving lookups (fulfilled with a non-null value), in input
order. -/
def survivingIds (searchResults : List Settled) : List Int :=
  searchResults.filterMap fun result =>
    match result with
    | .fulfilled (some media) => some media.id
    | _ => none

/-- The ids of the titles whose lookup survives, read off the titles themselves:
the title at index `i` contributes the id of the value its lookup is fulfilled
with, and nothing when the lookup is fulfilled with null or rejected. -/
def survivingIdsFrom (searchMedia : Nat → String → Settled) : Nat → List String → List Int
  | _, [] => []
  | i, title :: rest =>
    match searchMedia i title with
    | .fulfilled (some media) => media.id :: survivingIdsFrom searchMedia (i + 1) rest
    | _ => survivingIdsFrom searchMedia (i + 1) rest

/-- Lookups by title: "Heat" and "Heat II" both resolve to the id 5, "Alien" to
the id 2, "Up" to the id 9, "Gone" has no usable result (null), and every other
title fails. -/
def orderLookups : Nat → String → Settled :=
  fun _ title =>
    if title = "Heat" then .fulfilled (some (mediaOf 5 "Heat" "movie"))
    else if title = "Heat II" then .fulfilled (some (mediaOf 5 "Heat II" "tv"))
    else if title = "Alien" then .fulfilled (some (mediaOf 2 "Alien" "movie"))
    else if title = "Up" then .fulfilled (some (mediaOf 9 "Up" "movie"))
    else if title = "Gone" then .fulfilled none
    else .rejected "Request failed"


/-- The string `needle` occurs in the string `hay` as a contiguous substring. -/
def IsSubstring (needle hay : String) : Prop :=
  needle.data <:+: hay.data

/-- The bucket stored under the name `default`. -/
def defaultBucket : List String :=
  ["The Shawshank Redemption", "The Dark Knight", "Pulp Fiction", "Forrest Gump", "Inception"]

/-- The fallback rule: `result` is the bucket of the first entry of the table, in
table order, whose name qualifies, and the default bucket when no name
qualifies. -/
def BucketRule (qualifies : String → Prop) (result : Option (List String)) : Prop :=
  (∃ (i : Nat) (name : String) (bucket : List String),
      MOCK_TITLES[i]? = some (name, bucket) ∧ qualifies name ∧
      (∀ (j : Nat) (e : String × List String),
        j < i → MOCK_TITLES[j]? = some e → ¬ qualifies e.1) ∧
      result = some bucket) ∨
  ((∀ e ∈ MOCK_TITLES, ¬ qualifies e.1) ∧ result = some defaultBucket)

/-- The reference for one line of the cleaner, in the words of the
specification: remove the maximal leading run of characters drawn from digits,
`*`, `-`, `.`, whitespace and the quote characters, and the maximal trailing
run of quote characters; then trim whitespace. -/
def referenceCleanLine (line : List Char) : List Char :=
  (((line.dropWhile isLeadingStripChar).rdropWhile isQuoteChar).dropWhile
    isJsWhitespace).rdropWhile isJsWhitespace

/-- The reference for the cleaner, in the words of the specification: split the
text on line breaks, clean each line, drop the lines that became empty; an
absent text has no line. -/
def referenceCleanTitles (text : Option String) : List String :=
  match text with
  | none => []
  | some t =>
    (((splitLines t.data).map referenceCleanLine).filter fun l => decide (l ≠ [])).map String.mk

/-- The cleaned titles joined one per line. -/
def joinLines (titles : List String) : String :=
  String.intercalate "\n" titles

/-- A generation backend whose every call fails. -/
def failingModel : GenModel :=
  fun _ => .error { message := some "fetch failed", stack := none }

/-! ## Inputs and notions for the cache and the search -/

/-- A search response with a person first, then a film, then a show. -/
def matrixResult : RawResult :=
  { id := 603, media_type := "movie", title := some "The Matrix", name := none,
    poster_path := some "/matrix.jpg", overview := some "A hacker learns the truth.",
    genre_ids := some [28, 878], vote_average := some (41 / 5),
    release_date := some "1999-03-30", first_air_date := none }

/-- A show entry, with `name` and `first_air_date` in place of `title` and
`release_date`. -/
def showResult : RawResult :=
  { id := 1399, media_type := "tv", title := none, name := some "The Matrix Show",
    poster_path := none, overview := none, genre_ids := none, vote_average := none,
    release_date := none, first_air_date := some "2011-04-17" }

/-- A metadata service whose search answers with a person, a film and a show, in
this order. -/
def matrixWorld : World :=
  { search := fun _ _ => .ok { results := some [personResult, matrixResult, showResult] }
    details := fun _ _ _ => .notOk 404 "Not Found"
    latency := fun _ => 50 }

/-- A metadata service whose every request is answered 503. -/
def unavailableWorld : World :=
  { search := fun _ _ => .notOk 503 "Service Unavailable"
    details := fun _ _ _ => .notOk 503 "Service Unavailable"
    latency := fun _ => 50 }

/-- The arguments on which `getMediaDetails` is specified to short-circuit: the
id is absent or zero, or the media type is not exactly movie or tv. -/
def InvalidDetailsArgs (id : Option Int) (media_type : Option String) : Prop :=
  id = none ∨ id = some 0 ∨ (media_type ≠ some "movie" ∧ media_type ≠ some "tv")

/-- The keys of the cache are pairwise distinct, as the keys of a `Map` are. -/
def State.WellFormed (s : State) : Prop :=
  (s.cache.map Prod.fst).Nodup

instance State.decidableWellFormed (s : State) : Decidable s.WellFormed :=
  inferInstanceAs (Decidable (s.cache.map Prod.fst).Nodup)

/-! ## JavaScript numbers

The numbers of the language are IEEE-754 doubles. A finite double is given by
the rational it denotes; an arithmetic operation computes the exact result and
rounds it to the nearest double, ties to the even significand. -/

/-- The integer nearest to `x`, the even one of the two when `x` lies halfway
between two integers. -/
def roundHalfEven (x : Rat) : Int :=
  if x - ⌊x⌋ < 1 / 2 then ⌊x⌋
  else if 1 / 2 < x - ⌊x⌋ then ⌊x⌋ + 1
  else if ⌊x⌋ % 2 = 0 then ⌊x⌋ else ⌊x⌋ + 1

/-- The exponent of the unit in the last place of the doubles next to `x`: a
significand of 53 bits below the leading power of two of `x`, and never below
the least exponent -1074 (the subnormal numbers). -/
def ulpExponent (x : Rat) : Int :=
  max (Int.log 2 |x| - 52) (-1074)

/-- The rounding of the exact value `x` to a double of unbounded range: the
nearest multiple of the unit in the last place, ties to even. -/
def roundToDouble (x : Rat) : Rat :=
  roundHalfEven (x / 2 ^ ulpExponent x) * 2 ^ ulpExponent x

/-- A JavaScript number: a finite double, given by the rational it denotes (the
sign of a zero is not kept), an infinity, or `NaN`. -/
inductive JsNumber where
  | finite (value : Rat)
  | posInfinity
  | negInfinity
  | nan
deriving DecidableEq, Repr

/-- The double an exact result `x` is delivered as: the rounding of `x`, or an
infinity when the rounding leaves the range of the finite doubles (its magnitude
reaches 2^1024). -/
def toNumber (x : Rat) : JsNumber :=
  if 2 ^ 1024 ≤ roundToDouble x then .posInfinity
  else if roundToDouble x ≤ -2 ^ 1024 then .negInfinity
  else .finite (roundToDouble x)

/-- Unary minus. -/
def JsNumber.neg : JsNumber → JsNumber
  | .finite x => .finite (-x)
  | .posInfinity => .negInfinity
  | .negInfinity => .posInfinity
  | .nan => .nan

/-- The operator `+` on numbers. -/
def JsNumber.add : JsNumber → JsNumber → JsNumber
  | .finite x, .finite y => toNumber (x + y)
  | .nan, _ => .nan
  | _, .nan => .nan
  | .posInfinity, .negInfinity => .nan
  | .negInfinity, .posInfinity => .nan
  | .posInfinity, _ => .posInfinity
  | _, .posInfinity => .posInfinity
  | .negInfinity, _ => .negInfinity
  | _, .negInfinity => .negInfinity

/-- The operator `-` on numbers: the sum with the negated operand. -/
def JsNumber.sub (x y : JsNumber) : JsNumber :=
  x.add y.neg

/-- The operator `*` on numbers. -/
def JsNumber.mul : JsNumber → JsNumber → JsNumber
  | .finite x, .finite y => toNumber (x * y)
  | .nan, _ => .nan
  | _, .nan => .nan
  | .finite x, .posInfinity =>
    if x = 0 then .nan else if 0 < x then .posInfinity else .negInfinity
  | .finite x, .negInfinity =>
    if x = 0 then .nan else if 0 < x then .negInfinity else .posInfinity
  | .posInfinity, .finite y =>
    if y = 0 then .nan else if 0 < y then .posInfinity else .negInfinity
  | .negInfinity, .finite y =>
    if y = 0 then .nan else if 0 < y then .negInfinity else .posInfinity
  | .posInfinity, .posInfinity => .posInfinity
  | .posInfinity, .negInfinity => .negInfinity
  | .negInfinity, .posInfinity => .negInfinity
  | .negInfinity, .negInfinity => .posInfinity

/-- The quotient `x / y` of two finite doubles, for a divisor other than zero. -/
def divide (x y : Rat) : JsNumber :=
  toNumber (x / y)

/-- The number `Array.prototype.sort` reads from the result of a comparator:
`NaN` is read as 0, and of an infinity only the sign matters. -/
def comparatorValue : JsNumber → Rat
  | .finite x => x
  | .posInfinity => 1
  | .negInfinity => -1
  | .nan => 0

/-! ## `services/apiClient.js`: the similarity ranker -/

/-- An entry of `results` in the response of the `similar` and the
`recommendations` endpoints, as far as `fetchSimilarMedia` reads it. -/
structure RelatedItem where
  id : Int
  title : Option String
  name : Option String
  poster_path : Option String
  overview : Option String
  release_date : Option String
  first_air_date : Option String
  vote_average : Option Rat
  popularity : Option Rat
  vote_count : Option Rat
deriving DecidableEq, Repr

/-- The parsed body of a related-content response; `results` may be absent. -/
structure RelatedData where
  results : Option (List RelatedItem)
deriving DecidableEq, Repr

/-- The argument `media` of `fetchSimilarMedia`. -/
structure MediaRef where
  id : Int
  title : Option String
  media_type : Option String
deriving DecidableEq, Repr

/-- The record `fetchSimilarMedia` maps an item to; `year = none` is the empty
string the source puts for a year that is `NaN` or 0. -/
structure SimilarRecord where
  id : Int
  title : Option String
  posterUrl : Option String
  year : Option Int
  rating : Option Rat
  overview : Option String
  media_type : String
deriving DecidableEq, Repr

/-- The dates of the host: `currentYear` is `new Date().getFullYear()`, and
`yearOf d` is `new Date(d).getFullYear()` for a date string `d`, `none` when
the string does not parse (the year is `NaN`). -/
structure DateEnv where
  currentYear : Int
  yearOf : String → Option Int

/-- `const TMDB_IMG_BASE_URL`. -/
def TMDB_IMG_BASE_URL : String := "https://image.tmdb.org/t/p/w500"

/-- JavaScript `x || 0` on an optional number. -/
def orZero (x : Option Rat) : Rat :=
  x.getD 0

/-- `new Date(a.release_date || a.first_air_date || new Date()).getFullYear()`:
the year of the first date that is present, the current year when there is
none. -/
def releaseYear (env : DateEnv) (a : RelatedItem) : Option Int :=
  match orElseStr (orElseStr a.release_date a.first_air_date) none with
  | some d => env.yearOf d
  | none => some env.currentYear

/-- `scoreA` of the comparator, in the double arithmetic of the language: the
products, the quotient, the sums and the difference are evaluated from left to
right, each rounded to the nearest double, and the literals `0.3` and `0.05` are
the doubles nearest to 3/10 and 1/20. The year of a date that does not parse is
`NaN`, and so is the score then. -/
def score (env : DateEnv) (a : RelatedItem) : JsNumber :=
  let yearsFromCurrentA : JsNumber :=
    match releaseYear env a with
    | some yearA => toNumber ((max 0 (env.currentYear - yearA) : Int) : Rat)
    | none => .nan
  let voteCountFactorA := divide (min (orZero a.vote_count) 1000) 1000
  ((((JsNumber.finite (orZero a.vote_average)).mul (.finite 5)).add
      ((JsNumber.finite (orZero a.popularity)).mul (toNumber (3 / 10)))).add
      (voteCountFactorA.mul (.finite (3 / 2)))).sub
    (yearsFromCurrentA.mul (toNumber (1 / 20)))

/-- The comparator passed to `allResults.sort`: `scoreB - scoreA`, as the sort
reads it. -/
def compareFn (env : DateEnv) (a b : RelatedItem) : Rat :=
  comparatorValue ((score env b).sub (score env a))

/-- Insertion of `x` in front of the first element it does not sort after. -/
def insertSorted {α : Type} (cmp : α → α → Rat) (x : α) : List α → List α
  | [] => [x]
  | y :: ys => if cmp x y ≤ 0 then x :: y :: ys else y :: insertSorted cmp x ys

/-- `Array.prototype.sort(cmp)`, which the language specifies as a stable sort
for a consistent comparator: here a stable insertion sort. For a comparator that
is not consistent (one that yields `NaN` for some pairs only) the language
leaves the order to the implementation; the theorems on the order of the output
assume finite scores, for which the comparator is consistent. -/
def jsSort {α : Type} (cmp : α → α → Rat) : List α → List α
  | [] => []
  | x :: xs => insertSorted cmp x (jsSort cmp xs)

/-- The merge of `fetchSimilarMedia`: the recommendations, then each similar item
whose id is not among the items collected so far; `similar = none` is an absent
`results`. -/
def mergeResults (recommendations : List RelatedItem) (similar : Option (List RelatedItem)) :
    List RelatedItem :=
  match similar with
  | none => recommendations
  | some items =>
    items.foldl
      (fun allResults item =>
        if allResults.any (fun rec => decide (rec.id = item.id)) then allResults
        else allResults ++ [item])
      recommendations

/-- The body read from a response: `response.ok ? response.json() : {results: []}`;
`none` when reading it throws. -/
def relatedBody : FetchOutcome RelatedData → Option RelatedData
  | .rejected _ => none
  | .notOk _ _ => some { results := some [] }
  | .bodyThrows _ => none
  | .ok data => some data

/-- The array `allResults` of `fetchSimilarMedia` before it is sorted, `none`
when the function has left through its `catch` block before: one of the two
requests rejected (`Promise.all`), both responses not OK, or a body that cannot
be read. -/
def mergedResults (similar recommendations : FetchOutcome RelatedData) :
    Option (List RelatedItem) :=
  match similar, recommendations with
  | .rejected _, _ => none
  | _, .rejected _ => none
  | .notOk _ _, .notOk _ _ => none
  | similarResponse, recommendationsResponse =>
    match relatedBody similarResponse, relatedBody recommendationsResponse with
    | some similarData, some recommendationsData =>
      some (mergeResults (recommendationsData.results.getD []) similarData.results)
    | _, _ => none

/-- The items `allResults.sort(...).slice(0, 30)`. -/
def rankedItems (env : DateEnv) (allResults : List RelatedItem) : List RelatedItem :=
  (jsSort (compareFn env) allResults).take 30

/-- The object literal each ranked item is mapped to. -/
def toSimilarRecord (env : DateEnv) (mediaType : String) (item : RelatedItem) : SimilarRecord :=
  { id := item.id
    title := orElseStr item.title item.name
    posterUrl :=
      match item.poster_path with
      | some p => if p = "" then none else some (TMDB_IMG_BASE_URL ++ p)
      | none => none
    year :=
      (env.yearOf ((orElseStr item.release_date item.first_air_date).getD "")).bind
        fun y => if y = 0 then none else some y
    rating := item.vote_average
    overview := item.overview
    media_type := mediaType }

/-- `fetchSimilarMedia(media)`, given how the two requests end. -/
def fetchSimilarMedia (env : DateEnv) (media : MediaRef)
    (similar recommendations : FetchOutcome RelatedData) : List SimilarRecord :=
  let mediaType := (orElseStr media.media_type none).getD "movie"
  match mergedResults similar recommendations with
  | none => []
  | some allResults =>
    if allResults.length = 0 then []
    else (rankedItems env allResults).map (toSimilarRecord env mediaType)

/-! ## Inputs and notions for the ranker -/

/-- A host in the year 2025 that reads the year off the first four characters of
a date string. -/
def env2025 : DateEnv :=
  { currentYear := 2025
    yearOf := fun d =>
      if (d.data.take 4).length = 4 ∧ (d.data.take 4).all Char.isDigit then
        some ((d.data.take 4).foldl (fun n c => 10 * n + ((c.toNat : Int) - 48)) 0)
      else none }

/-- A candidate with the given id, rating, popularity and vote count, released
in 2020. -/
def candidate (id : Int) (voteAverage popularity voteCount : Rat) : RelatedItem :=
  { id := id, title := some "T", name := none, poster_path := none, overview := none,
    release_date := some "2020-05-01", first_air_date := none,
    vote_average := some voteAverage, popularity := some popularity,
    vote_count := some voteCount }

/-- The computed score of an item as a rational, 0 when it is not finite. -/
def scoreOf (env : DateEnv) (a : RelatedItem) : Rat :=
  match score env a with
  | .finite s => s
  | _ => 0

/-- The score in the words of the specification, as an exact value, for an item
of release year `year`: missing numbers count as 0. -/
def referenceScore (currentYear year : Int) (a : RelatedItem) : Rat :=
  (a.vote_average.getD 0) * 5 + (a.popularity.getD 0) * (3 / 10) +
    min (a.vote_count.getD 0) 1000 / 1000 * (3 / 2) -
    ((max 0 (currentYear - year) : Int) : Rat) * (1 / 20)

/-! ## Further embedded code and notions: sweep, lookups, merge, cache key -/

/-- The callback of `setInterval` in `tmdbClient.js`: with `now` read once, every
entry of the cache is visited and deleted when `now >= entry.expiry`. -/
def sweepExpired (s : State) : State :=
  { s with
    cache := s.cache.foldl
      (fun cache e => if s.now ≥ e.2.expiry then mapDelete cache e.1 else cache) s.cache }

/-- The titles for which `getRecommendationsDetails` starts a `searchMedia`
lookup: none when the guard returns early, otherwise every title
(`titles.map(title => searchMedia(title))`). -/
def lookupsStarted (titles : Option (List String)) : List String :=
  match titles with
  | none => []
  | some ts => if ts.length = 0 then [] else ts

/-- The functions of `tmdbClient.js` that the similarity handler imports, run on
the state of that module against the service `w`; neither throws. The other
backends are those of `b`. -/
def tmdbBackends (toLowerCase : String → String) (w : World) (b : Backends State) :
    Backends State :=
  { b with
    searchMedia := fun query s =>
      (.ok (searchMedia toLowerCase w s query).1, (searchMedia toLowerCase w s query).2)
    getMediaDetails := fun id media_type s =>
      (.ok (getMediaDetails toLowerCase w s (some id) (some media_type)).1,
        (getMediaDetails toLowerCase w s (some id) (some media_type)).2) }

/-- The reference for the items appended by the merge, in the words of the
specification: the items of the similar list, in order, whose id is not among
`seen`, the ids of the recommendations and of the items appended earlier. -/
def appendUnseen (seen : List Int) : List RelatedItem → List RelatedItem
  | [] => []
  | item :: rest =>
    if item.id ∈ seen then appendUnseen seen rest
    else item :: appendUnseen (seen ++ [item.id]) rest

/-- The reference for the merged list: the recommendations in their order,
followed by the similar items not seen before. -/
def referenceMerge (recommendations similar : List RelatedItem) : List RelatedItem :=
  recommendations ++ appendUnseen (recommendations.map fun r => r.id) similar

/-- The reference for the whitespace normalisation of the cache key: every
maximal run of whitespace becomes one underscore. A whitespace character that
is followed by another one is dropped; the last one of its run is written as
the underscore. -/
def collapseRuns : List Char → List Char
  | [] => []
  | [c] => if isJsWhitespace c then ['_'] else [c]
  | c :: d :: rest =>
    if isJsWhitespace c then
      (if isJsWhitespace d then collapseRuns (d :: rest) else '_' :: collapseRuns (d :: rest))
    else c :: collapseRuns (d :: rest)

/-- Two character lists that differ only in the lengths (and the characters) of
their whitespace runs: equal characters outside whitespace, and a non-empty run
of whitespace wherever the other has one. -/
inductive SameUpToWhitespaceRuns : List Char → List Char → Prop where
  | nil : SameUpToWhitespaceRuns [] []
  | char (c : Char) (l1 l2 : List Char) (hc : isJsWhitespace c = false)
      (h : SameUpToWhitespaceRuns l1 l2) : SameUpToWhitespaceRuns (c :: l1) (c :: l2)
  | run (r1 r2 l1 l2 : List Char) (h1 : r1 ≠ []) (h2 : r2 ≠ [])
      (hr1 : ∀ c ∈ r1, isJsWhitespace c = true) (hr2 : ∀ c ∈ r2, isJsWhitespace c = true)
      (h : SameUpToWhitespaceRuns l1 l2) : SameUpToWhitespaceRuns (r1 ++ l1) (r2 ++ l2)

/-- A metadata service whose search answers with one show. -/
def showWorld : World :=
  { search := fun _ _ => .ok { results := some [showResult] }
    details := fun _ _ _ => .notOk 404 "Not Found"
    latency := fun _ => 50 }

/-- A cache with one expired and one live entry at time 1000. -/
def mixedCacheState : State :=
  { cache := [("search_old", { value := none, expiry := 1000 }),
              ("search_new", { value := some (mediaOf 348 "Alien" "movie"), expiry := 1001 })]
    now := 1000
    requests := [] }

/-! ## Lemmas on the `Map` model -/

theorem mem_firstOccurrences {α : Type} [DecidableEq α] (l : List α) (a : α) :
    a ∈ firstOccurrences l ↔ a ∈ l := by
  induction l with
  | nil => simp [firstOccurrences]
  | cons x xs ih =>
    simp only [firstOccurrences, List.mem_cons, List.mem_filter, ih]
    by_cases h : a = x <;> simp [h]

theorem nodup_firstOccurrences {α : Type} [DecidableEq α] (l : List α) :
    (firstOccurrences l).Nodup := by
  induction l with
  | nil => simp [firstOccurrences]
  | cons x xs ih =>
    simp only [firstOccurrences, List.nodup_cons]
    exact ⟨by simp [List.mem_filter], ih.filter _⟩

theorem keys_mapSet {K V : Type} [DecidableEq K] (m : List (K × V)) (k : K) (v : V) :
    (mapSet m k v).map Prod.fst =
      if k ∈ m.map Prod.fst then m.map Prod.fst else m.map Prod.fst ++ [k] := by
  induction m with
  | nil => simp [mapSet]
  | cons e m ih =>
    obtain ⟨k0, v0⟩ := e
    by_cases h : k0 = k
    · simp [mapSet, h]
    · have h2 : ¬ k = k0 := fun h3 => h h3.symm
      by_cases hm : k ∈ m.map Prod.fst
      · simp only [mapSet, h, if_false, List.map_cons, ih, hm, if_true, List.mem_cons, or_true]
      · simp only [mapSet, h, if_false, List.map_cons, ih, hm, List.mem_cons, h2, or_self,
          List.cons_append]

theorem keys_foldl_mapSet {K V : Type} [DecidableEq K] (es m : List (K × V)) :
    (es.foldl (fun m e => mapSet m e.1 e.2) m).map Prod.fst =
      m.map Prod.fst ++
        (firstOccurrences (es.map Prod.fst)).filter fun k => decide (k ∉ m.map Prod.fst) := by
  induction es generalizing m with
  | nil => simp [firstOccurrences]
  | cons e es ih =>
    simp only [List.foldl_cons, ih, keys_mapSet, List.map_cons, firstOccurrences]
    by_cases hm : e.1 ∈ m.map Prod.fst
    · simp only [hm, if_true, List.filter_cons, decide_not, decide_True, Bool.not_true,
        List.filter_filter]
      congr 1
      apply List.filter_congr
      intro k _
      by_cases hk : k ∈ m.map Prod.fst
      · simp [hk]
      · have : k ≠ e.1 := fun h => hk (h ▸ hm)
        simp [hk, this]
    · simp only [hm, if_false, List.filter_cons, decide_not, decide_False, Bool.not_false,
        if_true, List.append_assoc, List.singleton_append, List.filter_filter]
      congr 2
      apply List.filter_congr
      intro k _
      by_cases hk : k = e.1
      · simp [hk]
      · simp [hk]

theorem keys_mapOfEntries {K V : Type} [DecidableEq K] (es : List (K × V)) :
    (mapOfEntries es).map Prod.fst = firstOccurrences (es.map Prod.fst) := by
  simp [mapOfEntries, keys_foldl_mapSet]

theorem mem_mapSet {K V : Type} [DecidableEq K] (m : List (K × V)) (k : K) (v : V)
    (e : K × V) (h : e ∈ mapSet m k v) : e ∈ m ∨ e = (k, v) := by
  induction m with
  | nil => simpa [mapSet] using h
  | cons e0 m ih =>
    obtain ⟨k0, v0⟩ := e0
    by_cases hk : k0 = k
    · simp only [mapSet, hk, if_true, List.mem_cons] at h
      rcases h with h | h
      · exact Or.inr h
      · exact Or.inl (List.mem_cons_of_mem _ h)
    · simp only [mapSet, hk, if_false, List.mem_cons] at h
      rcases h with h | h
      · exact Or.inl (h ▸ List.mem_cons_self _ _)
      · rcases ih h with h2 | h2
        · exact Or.inl (List.mem_cons_of_mem _ h2)
        · exact Or.inr h2

theorem mem_foldl_mapSet {K V : Type} [DecidableEq K] (es m : List (K × V)) (e : K × V)
    (h : e ∈ es.foldl (fun m e => mapSet m e.1 e.2) m) : e ∈ m ∨ e ∈ es := by
  induction es generalizing m with
  | nil => exact Or.inl h
  | cons e0 es ih =>
    rcases ih _ h with h2 | h2
    · rcases mem_mapSet _ _ _ _ h2 with h3 | h3
      · exact Or.inl h3
      · exact Or.inr (h3 ▸ List.mem_cons_self _ _)
    · exact Or.inr (List.mem_cons_of_mem _ h2)

theorem mapGet_mapSet {K V : Type} [DecidableEq K] (m : List (K × V)) (k key : K) (v : V) :
    mapGet (mapSet m k v) key = if k = key then some v else mapGet m key := by
  induction m with
  | nil => simp [mapSet, mapGet]
  | cons e0 m ih =>
    obtain ⟨k0, v0⟩ := e0
    by_cases hk : k0 = k
    · subst hk
      by_cases hkey : k0 = key <;> simp [mapSet, mapGet, hkey]
    · by_cases hkey : k0 = key
      · subst hkey
        have : ¬ k = k0 := fun h => hk h.symm
        simp [mapSet, mapGet, hk, this]
      · simp [mapSet, mapGet, hk, hkey, ih]

theorem mapGet_foldl_mapSet {K V : Type} [DecidableEq K] (es m : List (K × V)) (key : K) :
    mapGet (es.foldl (fun m e => mapSet m e.1 e.2) m) key =
      match es.reverse.find? (fun e => decide (e.1 = key)) with
      | some e => some e.2
      | none => mapGet m key := by
  induction es generalizing m with
  | nil => simp
  | cons e0 es ih =>
    rw [List.foldl_cons, ih, List.reverse_cons, List.find?_append]
    cases hfind : es.reverse.find? (fun e => decide (e.1 = key)) with
    | some e => simp
    | none =>
      by_cases hk : e0.1 = key
      · simp [mapGet_mapSet, hk]
      · simp [mapGet_mapSet, hk]

theorem mapGet_of_mem {K V : Type} [DecidableEq K] (m : List (K × V)) (k : K) (v : V)
    (hnd : (m.map Prod.fst).Nodup) (h : (k, v) ∈ m) : mapGet m k = some v := by
  induction m with
  | nil => simp at h
  | cons e0 m ih =>
    obtain ⟨k0, v0⟩ := e0
    simp only [List.map_cons, List.nodup_cons] at hnd
    simp only [List.mem_cons, Prod.mk.injEq] at h
    rcases h with ⟨h1, h2⟩ | h
    · simp [mapGet, h1, h2]
    · have hne : k0 ≠ k := by
        intro hk
        apply hnd.1
        rw [hk]
        exact List.mem_map_of_mem Prod.fst h
      simp [mapGet, hne, ih hnd.2 h]

theorem ids_collectResults (searchResults : List Settled) :
    (collectResults searchResults).map (fun r => r.id) = survivingIds searchResults := by
  induction searchResults with
  | nil => rfl
  | cons r rs ih =>
    cases r with
    | fulfilled value =>
      cases value with
      | none => simpa [collectResults, survivingIds] using ih
      | some media => simpa [collectResults, survivingIds, displayRecord] using ih
    | rejected reason => simpa [collectResults, survivingIds] using ih

/-- The ids of the deduplicated array are the first occurrences of the ids of
`results`. -/
theorem ids_dedup (results : List DisplayRecord) :
    (mapValues (mapOfEntries (results.map fun item => (item.id, item)))).map (fun r => r.id) =
      firstOccurrences (results.map fun r => r.id) := by
  have hinv : ∀ e ∈ mapOfEntries (results.map fun item => (item.id, item)), e.2.id = e.1 := by
    intro e he
    rcases mem_foldl_mapSet _ _ _ he with h | h
    · simp at h
    · obtain ⟨item, _, rfl⟩ := List.mem_map.1 h
      rfl
  have hkeys := keys_mapOfEntries (results.map fun item => (item.id, item))
  rw [List.map_map] at hkeys
  rw [mapValues, List.map_map]
  have : List.map ((fun r => r.id) ∘ Prod.snd) (mapOfEntries (results.map fun item => (item.id, item)))
      = List.map Prod.fst (mapOfEntries (results.map fun item => (item.id, item))) :=
    List.map_congr_left fun e he => hinv e he
  rw [this, hkeys]
  rfl

/-- Every record of the deduplicated array is the last record of `results` with
its id. -/
theorem dedup_keeps_last (results : List DisplayRecord) (r : DisplayRecord)
    (h : r ∈ mapValues (mapOfEntries (results.map fun item => (item.id, item)))) :
    results.reverse.find? (fun x => decide (x.id = r.id)) = some r := by
  obtain ⟨e, he, rfl⟩ := List.mem_map.1 h
  obtain ⟨k, v⟩ := e
  have hk : v.id = k := by
    rcases mem_foldl_mapSet _ _ _ he with h2 | h2
    · simp at h2
    · obtain ⟨item, _, hitem⟩ := List.mem_map.1 h2
      cases hitem
      rfl
  have hnd : ((mapOfEntries (results.map fun item => (item.id, item))).map Prod.fst).Nodup := by
    rw [keys_mapOfEntries]
    exact nodup_firstOccurrences _
  have hget := mapGet_of_mem _ k v hnd he
  rw [mapOfEntries, mapGet_foldl_mapSet, ← List.map_reverse, List.find?_map] at hget
  simp only [mapGet] at hget
  subst hk
  cases hf : List.find? ((fun e : Int × DisplayRecord => decide (e.1 = v.id)) ∘ fun item => (item.id, item))
      results.reverse with
  | none => rw [hf] at hget; simp at hget
  | some x =>
    rw [hf] at hget
    simp only [Option.map_some', Option.some.injEq] at hget
    have : (fun x : DisplayRecord => decide (x.id = v.id)) =
        ((fun e : Int × DisplayRecord => decide (e.1 = v.id)) ∘ fun item => (item.id, item)) := rfl
    rw [this, hf, hget]

theorem includesChars_iff (hay needle : List Char) :
    includesChars hay needle = true ↔ needle <:+: hay := by
  induction hay with
  | nil => simp [includesChars, List.isEmpty_iff]
  | cons c cs ih => simp [includesChars, List.infix_cons_iff, ih]

theorem includes_iff (hay needle : String) :
    includes hay needle = true ↔ IsSubstring needle hay :=
  includesChars_iff _ _

theorem bucketRule_unique (qualifies : String → Prop) (r1 r2 : Option (List String))
    (h1 : BucketRule qualifies r1) (h2 : BucketRule qualifies r2) : r1 = r2 := by
  rcases h1 with ⟨i, n, b, hi, hq, hmin, rfl⟩ | ⟨hnone, rfl⟩
  · rcases h2 with ⟨i2, n2, b2, hi2, hq2, hmin2, rfl⟩ | ⟨hnone2, rfl⟩
    · rcases Nat.lt_trichotomy i i2 with hlt | heq | hgt
      · exact absurd hq (hmin2 i (n, b) hlt hi)
      · subst heq
        rw [hi] at hi2
        cases hi2
        rfl
      · exact absurd hq2 (hmin i2 (n2, b2) hgt hi2)
    · exact absurd hq (hnone2 (n, b) (List.getElem?_mem hi))
  · rcases h2 with ⟨i2, n2, b2, hi2, hq2, _, rfl⟩ | ⟨_, rfl⟩
    · exact absurd hq2 (hnone (n2, b2) (List.getElem?_mem hi2))
    · rfl

/-- The lookup shared by the two fallbacks: `find` over the keys with a
predicate `p`, then `|| "default"`, then the table access. -/
theorem bucketRule_of_find (p : String → Bool) (qualifies : String → Prop)
    (hp : ∀ k, p k = true ↔ qualifies k) :
    BucketRule qualifies (mapGet MOCK_TITLES ((mockKeys.find? p).getD "default")) := by
  cases h : mockKeys.find? p with
  | none =>
    right
    rw [List.find?_eq_none] at h
    refine ⟨?_, by decide⟩
    intro e he hq
    exact h e.1 (List.mem_map_of_mem Prod.fst he) ((hp _).2 hq)
  | some k =>
    left
    obtain ⟨hpk, i, hi, hik, hmin⟩ := List.find?_eq_some_iff_getElem.1 h
    have hi2 : i < MOCK_TITLES.length := by simpa [mockKeys] using hi
    have hk : (MOCK_TITLES[i]).1 = k := by
      rw [← hik]
      simp [mockKeys]
    refine ⟨i, k, (MOCK_TITLES[i]).2, ?_, (hp k).1 hpk, ?_, ?_⟩
    · rw [List.getElem?_eq_getElem hi2, ← hk]
    · intro j e hj hje hq
      have hj2 : j < mockKeys.length := lt_trans hj hi
      have hj3 : j < MOCK_TITLES.length := lt_trans hj hi2
      have := hmin j hj
      rw [List.getElem?_eq_getElem hj3] at hje
      cases hje
      have hkey : mockKeys[j] = (MOCK_TITLES[j]).1 := by simp [mockKeys]
      rw [hkey] at this
      have hq2 := (hp _).2 hq
      simp [hq2] at this
    · simp only [Option.getD_some]
      apply mapGet_of_mem
      · decide
      · rw [← hk]
        exact List.getElem_mem hi2

theorem genreFallback_bucketRule (toLowerCase : String → String) (genre : String) :
    BucketRule
      (fun name => IsSubstring name (toLowerCase genre) ∨ IsSubstring (toLowerCase genre) name)
      (genreFallback toLowerCase genre) := by
  unfold genreFallback
  apply bucketRule_of_find
  intro k
  simp [includes_iff]

theorem similarityFallback_bucketRule (toLowerCase : String → String)
    (genres : Option (List String)) :
    BucketRule
      (fun name => IsSubstring name
        (match genres with
          | some gs => String.intercalate " " (gs.map toLowerCase)
          | none => ""))
      (similarityFallback toLowerCase genres) := by
  unfold similarityFallback
  apply bucketRule_of_find
  intro k
  simp [includes_iff]




/-! ## Lemmas on `tmdbClient.js` -/

/-- Whatever the cache holds for the key, a lookup that yields `null` (no entry,
an expired entry, or a stored `null`) makes `searchMedia` issue a request. -/
theorem searchMedia_requests_of_null_lookup (toLowerCase : String → String) (w : World)
    (s : State) (query : String)
    (h : (getFromCache s (getCacheKey toLowerCase "search" query)).1 = none) :
    (searchMedia toLowerCase w s query).2.requests = s.requests ++ [Request.search query] := by
  have hreq : (getFromCache s (getCacheKey toLowerCase "search" query)).2.requests =
      s.requests := by
    unfold getFromCache
    split
    · split <;> rfl
    · rfl
  rcases hg : getFromCache s (getCacheKey toLowerCase "search" query) with ⟨c, s1⟩
  rw [hg] at h hreq
  simp only at h hreq
  subst h
  simp only [searchMedia, hg]
  split
  · simp [hreq]
  · simp [hreq]
  · simp [hreq]
  · split <;> simp [setInCache, hreq]

theorem firstOccurrences_sublist {α : Type} [DecidableEq α] (l : List α) :
    List.Sublist (firstOccurrences l) l := by
  induction l with
  | nil => simp [firstOccurrences]
  | cons x xs ih =>
    simp only [firstOccurrences]
    exact ((List.filter_sublist _).trans ih).cons₂ x

theorem getRecommendationsDetails_eq (searchMedia : Nat → String → Settled)
    (titles : List String) :
    getRecommendationsDetails searchMedia (some titles) =
      mapValues (mapOfEntries ((collectResults (settleAll searchMedia titles)).map
        fun item => (item.id, item))) := by
  cases titles with
  | nil => rfl
  | cons t ts => simp [getRecommendationsDetails]

/-- The ids returned are the first occurrences of the surviving ids. -/
theorem ids_getRecommendationsDetails (searchMedia : Nat → String → Settled)
    (titles : List String) :
    (getRecommendationsDetails searchMedia (some titles)).map (fun r => r.id) =
      firstOccurrences (survivingIds (settleAll searchMedia titles)) := by
  rw [getRecommendationsDetails_eq, ids_dedup, ids_collectResults]

theorem survivingIds_enumFrom (searchMedia : Nat → String → Settled) (titles : List String)
    (i : Nat) :
    survivingIds ((titles.enumFrom i).map fun p => searchMedia p.1 p.2) =
      survivingIdsFrom searchMedia i titles := by
  induction titles generalizing i with
  | nil => rfl
  | cons t ts ih =>
    have h := ih (i + 1)
    simp only [List.enumFrom_cons, List.map_cons, survivingIdsFrom]
    unfold survivingIds at h ⊢
    rw [List.filterMap_cons]
    cases hs : searchMedia i t with
    | fulfilled value =>
      cases value with
      | none => simpa using h
      | some media => simpa using h
    | rejected reason => simpa using h

theorem survivingIds_settleAll (searchMedia : Nat → String → Settled) (titles : List String) :
    survivingIds (settleAll searchMedia titles) = survivingIdsFrom searchMedia 0 titles :=
  survivingIds_enumFrom searchMedia titles 0

theorem mem_survivingIds (searchResults : List Settled) (id : Int) :
    id ∈ survivingIds searchResults ↔
      ∃ v, Settled.fulfilled (some v) ∈ searchResults ∧ v.id = id := by
  induction searchResults with
  | nil => simp [survivingIds]
  | cons r rs ih =>
    have hcons : survivingIds (r :: rs) =
        (match r with
          | .fulfilled (some media) => [media.id]
          | _ => []) ++ survivingIds rs := by
      cases r with
      | fulfilled value => cases value <;> simp [survivingIds]
      | rejected reason => simp [survivingIds]
    rw [hcons, List.mem_append, ih]
    constructor
    · rintro (h | ⟨v, hv, hid⟩)
      · cases r with
        | fulfilled value =>
          cases value with
          | none => simp at h
          | some media =>
            simp only [List.mem_singleton] at h
            exact ⟨media, List.mem_cons_self _ _, h.symm⟩
        | rejected reason => simp at h
      · exact ⟨v, List.mem_cons_of_mem _ hv, hid⟩
    · rintro ⟨v, hv, hid⟩
      rcases List.mem_cons.1 hv with h | h
      · left
        rw [← h]
        simp [hid]
      · exact Or.inr ⟨v, h, hid⟩

/-! ## The claims -/

/-- C1 (the code at the failing input): the first `searchMedia` for a title whose
search succeeds with no movie or tv entry returns `null` and stores `null` under
the title's key with expiry 600050; the second call, made 50 ms after the first
began and so within the TTL, returns `null` again but issues a second outbound
request: the stored `null` is not served from the cache. -/
theorem searchMedia_negative_cache_refetches :
    (searchMedia asciiLower personOnlyWorld freshState "Nobody Here").1 = none ∧
    (searchMedia asciiLower personOnlyWorld freshState "Nobody Here").2.cache =
      [("search_nobody_here", { value := none, expiry := 600050 })] ∧
    (searchMedia asciiLower personOnlyWorld freshState "Nobody Here").2.now = 50 ∧
    (searchMedia asciiLower personOnlyWorld freshState "Nobody Here").2.requests =
      [Request.search "Nobody Here"] ∧
    (searchMedia asciiLower personOnlyWorld
      (searchMedia asciiLower personOnlyWorld freshState "Nobody Here").2 "Nobody Here").1 = none ∧
    (searchMedia asciiLower personOnlyWorld
      (searchMedia asciiLower personOnlyWorld freshState "Nobody Here").2
        "Nobody Here").2.requests =
      [Request.search "Nobody Here", Request.search "Nobody Here"] := by
  decide

/-- C2 (as stated, refuted): with a movie and a show that share the id 1, in
this order, the one record returned is the show, the later of the two, so it is
not the first-occurring surviving record with its id. -/
theorem getRecommendationsDetails_keeps_first_refuted :
    getRecommendationsDetails sameIdLookups (some ["Alpha", "Beta"]) =
        [displayRecord (mediaOf 1 "Beta" "tv")] ∧
      ¬ ∀ r ∈ getRecommendationsDetails sameIdLookups (some ["Alpha", "Beta"]),
        (collectResults (settleAll sameIdLookups ["Alpha", "Beta"])).find?
          (fun x => decide (x.id = r.id)) = some r := by
  decide

/-- C2 (amended): every record returned by `getRecommendationsDetails` is the
last-occurring surviving record with that id: when several surviving lookups
yield records with the same id, the record kept is the one that comes latest in
input order. -/
theorem getRecommendationsDetails_keeps_last (searchMedia : Nat → String → Settled)
    (titles : List String) :
    ∀ r ∈ getRecommendationsDetails searchMedia (some titles),
      (collectResults (settleAll searchMedia titles)).reverse.find?
        (fun x => decide (x.id = r.id)) = some r := by
  intro r hr
  rw [getRecommendationsDetails_eq] at hr
  exact dedup_keeps_last _ r hr

/-- C2 (amended) at the movie and the show that share the id 1: the record
returned is the show, the last surviving record with that id. -/
theorem getRecommendationsDetails_keeps_last_witness :
    displayRecord (mediaOf 1 "Beta" "tv") ∈
        getRecommendationsDetails sameIdLookups (some ["Alpha", "Beta"]) ∧
      (collectResults (settleAll sameIdLookups ["Alpha", "Beta"])).reverse.find?
          (fun x => decide (x.id = (displayRecord (mediaOf 1 "Beta" "tv")).id)) =
        some (displayRecord (mediaOf 1 "Beta" "tv")) :=
  ⟨by decide,
    getRecommendationsDetails_keeps_last sameIdLookups ["Alpha", "Beta"]
      (displayRecord (mediaOf 1 "Beta" "tv")) (by decide)⟩

/-- C3: for every list of titles and every assignment of lookup outcomes, the
ids returned by `getRecommendationsDetails` are the ids of the surviving lookups,
taken title by title in the order of the titles (`survivingIdsFrom` walks the
titles from index 0), with every repeat after the first removed; they are
pairwise distinct and form a sublist of the surviving ids. For the titles
"Heat", "Alien", "Gone", "Heat II", "Lost", "Up", "Alien", whose surviving ids
are 5, 2, 5, 9, 2 in this order, the returned ids are 5, 2, 9. -/
theorem getRecommendationsDetails_ids (searchMedia : Nat → String → Settled)
    (titles : List String) :
    (getRecommendationsDetails searchMedia (some titles)).map (fun r => r.id) =
        firstOccurrences (survivingIdsFrom searchMedia 0 titles) ∧
      ((getRecommendationsDetails searchMedia (some titles)).map (fun r => r.id)).Nodup ∧
      List.Sublist ((getRecommendationsDetails searchMedia (some titles)).map (fun r => r.id))
        (survivingIdsFrom searchMedia 0 titles) ∧
      survivingIdsFrom orderLookups 0
          ["Heat", "Alien", "Gone", "Heat II", "Lost", "Up", "Alien"] = [5, 2, 5, 9, 2] ∧
      (getRecommendationsDetails orderLookups
          (some ["Heat", "Alien", "Gone", "Heat II", "Lost", "Up", "Alien"])).map
        (fun r => r.id) = [5, 2, 9] := by
  rw [ids_getRecommendationsDetails, survivingIds_settleAll]
  exact ⟨rfl, nodup_firstOccurrences _, firstOccurrences_sublist _, by decide, by decide⟩

/-- C4: for every list of titles and every assignment of lookup outcomes
(fulfilled with a value, fulfilled with null, or rejected),
`getRecommendationsDetails` returns a list (the embedding is a total function:
no path of the source throws), and a record with a given id is in it if and only
if the lookup of some title was fulfilled with a non-null value of that id.
Outcomes value, null, value for three titles give exactly one record. -/
theorem getRecommendationsDetails_tolerates_failures :
    (∀ (searchMedia : Nat → String → Settled) (titles : List String),
      ∃ out, getRecommendationsDetails searchMedia (some titles) = out ∧
        ∀ id : Int, (∃ r ∈ out, r.id = id) ↔
          ∃ (i : Nat) (t : String) (v : Media),
            titles[i]? = some t ∧ searchMedia i t = .fulfilled (some v) ∧ v.id = id) ∧
    (∀ v : Media,
      getRecommendationsDetails
          (fun i _ => if i = 1 then .fulfilled none else .fulfilled (some v))
          (some ["RealMovie", "ThisWillNotResolve123xyz", "RealMovie"]) =
        [displayRecord v]) := by
  refine ⟨?_, ?_⟩
  · intro searchMedia titles
    refine ⟨_, rfl, ?_⟩
    intro id
    have hids := ids_getRecommendationsDetails searchMedia titles
    have h1 : (∃ r ∈ getRecommendationsDetails searchMedia (some titles), r.id = id) ↔
        id ∈ (getRecommendationsDetails searchMedia (some titles)).map (fun r => r.id) := by
      simp [List.mem_map]
    rw [h1, hids, mem_firstOccurrences, mem_survivingIds]
    constructor
    · rintro ⟨v, hv, hid⟩
      obtain ⟨p, hp, hpv⟩ := List.mem_map.1 hv
      exact ⟨p.1, p.2, v, List.mem_enum_iff_getElem?.1 hp, hpv, hid⟩
    · rintro ⟨i, t, v, hget, hv, hid⟩
      refine ⟨v, List.mem_map.2 ⟨(i, t), List.mem_enum_iff_getElem?.2 hget, hv⟩, hid⟩
  · intro v
    simp [getRecommendationsDetails, settleAll, collectResults, mapOfEntries, mapSet, mapValues,
      List.enum, List.enumFrom, displayRecord]

/-- C5: whenever the similarity handler reaches the batch-resolution step (valid
title, search and details resolved, a non-empty list of candidates) and the
batch fetcher returns `detailed`, the response is 200 with `detailed` minus
exactly the records whose id is the id of the resolved reference item, in the
same order; no returned record has that id. -/
theorem similar_handler_excludes_reference {σ : Type} (b : Backends σ) (production : Bool)
    (t : String) (s s1 s2 s3 s4 : σ) (initialMedia mediaDetails : Media)
    (similarTitles : List String) (detailed : List DisplayRecord)
    (ht : t ≠ "")
    (h1 : b.searchMedia t s = (.ok (some initialMedia), s1))
    (h2 : b.getMediaDetails initialMedia.id initialMedia.media_type s1 =
      (.ok (some mediaDetails), s2))
    (h3 : b.getSimilarityRecommendations mediaDetails.title mediaDetails.genres
      mediaDetails.overview 20 s2 = (.ok (some similarTitles), s3))
    (hne : similarTitles ≠ [])
    (h4 : b.getRecommendationsDetails similarTitles s3 = (.ok detailed, s4)) :
    (Similar.handler b production (.str t) s).response =
        ⟨200, .records (detailed.filter fun r => decide (r.id ≠ mediaDetails.id))⟩ ∧
      (∀ r ∈ detailed.filter (fun r => decide (r.id ≠ mediaDetails.id)),
        r.id ≠ mediaDetails.id) ∧
      (∀ r ∈ detailed, r.id ≠ mediaDetails.id →
        r ∈ detailed.filter fun r => decide (r.id ≠ mediaDetails.id)) ∧
      List.Sublist (detailed.filter fun r => decide (r.id ≠ mediaDetails.id)) detailed := by
  have hlen : similarTitles.length ≠ 0 := fun h => hne (List.length_eq_zero.1 h)
  refine ⟨?_, ?_, ?_, List.filter_sublist _⟩
  · simp only [Similar.handler, ht, if_false, h1, h2, h3, hlen, h4]
  · intro r hr
    simpa using (List.mem_filter.1 hr).2
  · intro r hr hid
    exact List.mem_filter.2 ⟨hr, by simpa using hid⟩

/-- C5 at a concrete request: the candidates for "Get Out" contain the title
resolved to the reference id 10, which is removed from the response. -/
theorem similar_handler_excludes_reference_witness :
    (Similar.handler sampleBackends false (.str "Get Out") ()).response =
      ⟨200, .records ((getRecommendationsDetails
        (fun _ t => .fulfilled (some (mediaOf t.length t "movie")))
        (some ["The Shining", "Hereditary", "A Quiet Place", "Get Out", "The Exorcist"])).filter
          fun r => decide (r.id ≠ 10))⟩ :=
  (similar_handler_excludes_reference sampleBackends false "Get Out" () () () () ()
    (mediaOf 10 "Get Out" "movie")
    { mediaOf 10 "Get Out" "movie" with genres := some ["Horror"] }
    ["The Shining", "Hereditary", "A Quiet Place", "Get Out", "The Exorcist"]
    (getRecommendationsDetails (fun _ t => .fulfilled (some (mediaOf t.length t "movie")))
      (some ["The Shining", "Hereditary", "A Quiet Place", "Get Out", "The Exorcist"]))
    (by decide) rfl rfl rfl (by decide) rfl).1

/-- C6: the similarity handler responds 400, and then without any backend call,
exactly when the title parameter is missing, empty or not a string; for a valid
title it responds 404 when `searchMedia` returns null, and 500 when `searchMedia`
returns a value and `getMediaDetails` returns null. -/
theorem similar_handler_status {σ : Type} (b : Backends σ) (production : Bool) (s : σ) :
    (∀ q : QueryValue, (Similar.handler b production q s).response.status = 400 ↔ q.Invalid) ∧
    (∀ q : QueryValue, q.Invalid →
      (Similar.handler b production q s).calls = [] ∧
      (Similar.handler b production q s).response =
        ⟨400, .message "Title query parameter is required and must be a string."⟩) ∧
    (∀ (t : String) (s1 : σ), t ≠ "" → b.searchMedia t s = (.ok none, s1) →
      (Similar.handler b production (.str t) s).response.status = 404 ∧
      (Similar.handler b production (.str t) s).calls = [.searchMedia t]) ∧
    (∀ (t : String) (s1 s2 : σ) (initialMedia : Media), t ≠ "" →
      b.searchMedia t s = (.ok (some initialMedia), s1) →
      b.getMediaDetails initialMedia.id initialMedia.media_type s1 = (.ok none, s2) →
      (Similar.handler b production (.str t) s).response.status = 500) := by
  refine ⟨?_, ?_, ?_, ?_⟩
  · intro q
    cases q with
    | absent => simp [Similar.handler, QueryValue.Invalid]
    | structured => simp [Similar.handler, QueryValue.Invalid]
    | str t =>
      by_cases ht : t = ""
      · simp [Similar.handler, QueryValue.Invalid, ht]
      · have hinv : ¬ (QueryValue.str t).Invalid := by simp [QueryValue.Invalid, ht]
        simp only [hinv, iff_false]
        simp only [Similar.handler, ht, if_false]
        repeat' split
        all_goals simp [serverError]
  · rintro q (rfl | rfl | rfl) <;> simp [Similar.handler]
  · intro t s1 ht h1
    simp [Similar.handler, ht, h1]
  · intro t s1 s2 initialMedia ht h1 h2
    simp [Similar.handler, ht, h1, h2]

/-- C6 at concrete requests: an empty title gives 400, an unresolvable title
gives 404. -/
theorem similar_handler_status_witness :
    (Similar.handler sampleBackends false (.str "") ()).response.status = 400 ∧
    (Similar.handler sampleBackends false (.str "zzz") ()).response.status = 404 :=
  ⟨(((similar_handler_status sampleBackends false ()).1 (.str "")).2 (Or.inr (Or.inr rfl))),
    ((similar_handler_status sampleBackends false ()).2.2.1 "zzz" () (by decide) rfl).1⟩

/-- C7: the genre handler responds 400, and then without calling the candidate
generator, exactly when the genre parameter is missing, empty or not a string;
for a valid genre its first call asks the generator for 20 candidates, and when
the generator returns a non-empty list and the batch fetcher returns `detailed`
(nothing throws), the response is 200 with exactly `detailed`, the output of
`getRecommendationsDetails` on those titles. -/
theorem genre_handler_contract {σ : Type} (b : Backends σ) (production : Bool) (s : σ) :
    (∀ q : QueryValue, (Genre.handler b production q s).response.status = 400 ↔ q.Invalid) ∧
    (∀ q : QueryValue, q.Invalid →
      (Genre.handler b production q s).calls = [] ∧
      (Genre.handler b production q s).response =
        ⟨400, .message "Genre query parameter is required and must be a string."⟩) ∧
    (∀ g : String, g ≠ "" →
      (Genre.handler b production (.str g) s).calls.head? =
        some (.getGenreRecommendations g 20)) ∧
    (∀ (g : String) (s1 s2 : σ) (recommendedTitles : List String)
      (detailed : List DisplayRecord), g ≠ "" →
      b.getGenreRecommendations g 20 s = (.ok (some recommendedTitles), s1) →
      recommendedTitles ≠ [] →
      b.getRecommendationsDetails recommendedTitles s1 = (.ok detailed, s2) →
      (Genre.handler b production (.str g) s).response = ⟨200, .records detailed⟩ ∧
      (Genre.handler b production (.str g) s).calls =
        [.getGenreRecommendations g 20, .getRecommendationsDetails recommendedTitles]) := by
  refine ⟨?_, ?_, ?_, ?_⟩
  · intro q
    cases q with
    | absent => simp [Genre.handler, QueryValue.Invalid]
    | structured => simp [Genre.handler, QueryValue.Invalid]
    | str g =>
      by_cases hg : g = ""
      · simp [Genre.handler, QueryValue.Invalid, hg]
      · have hinv : ¬ (QueryValue.str g).Invalid := by simp [QueryValue.Invalid, hg]
        simp only [hinv, iff_false]
        simp only [Genre.handler, hg, if_false]
        repeat' split
        all_goals simp [serverError]
  · rintro q (rfl | rfl | rfl) <;> simp [Genre.handler]
  · intro g hg
    simp only [Genre.handler, hg, if_false]
    repeat' split
    all_goals simp
  · intro g s1 s2 recommendedTitles detailed hg h1 hne h2
    have hlen : recommendedTitles.length ≠ 0 := fun h => hne (List.length_eq_zero.1 h)
    simp [Genre.handler, hg, h1, hlen, h2]

/-- C7 at a concrete request: the genre "Horror" yields the batch fetcher's
output for the five titles of the horror bucket. -/
theorem genre_handler_contract_witness :
    (Genre.handler sampleBackends false (.str "Horror") ()).response =
      ⟨200, .records (getRecommendationsDetails
        (fun _ t => .fulfilled (some (mediaOf t.length t "movie")))
        (some ["The Shining", "Hereditary", "A Quiet Place", "Get Out", "The Exorcist"]))⟩ :=
  ((genre_handler_contract sampleBackends false ()).2.2.2 "Horror" () ()
    ["The Shining", "Hereditary", "A Quiet Place", "Get Out", "The Exorcist"]
    (getRecommendationsDetails (fun _ t => .fulfilled (some (mediaOf t.length t "movie")))
      (some ["The Shining", "Hereditary", "A Quiet Place", "Get Out", "The Exorcist"]))
    (by decide) rfl (by decide) rfl).1

/-- C8: in both handlers, when the candidate generator returns an empty or
absent list of titles, the response is 200 with the empty array and the batch
fetcher is not called. -/
theorem handlers_empty_candidates {σ : Type} (b : Backends σ) (production : Bool) (s : σ) :
    (∀ (g : String) (s1 : σ) (titles : Option (List String)), g ≠ "" →
      b.getGenreRecommendations g 20 s = (.ok titles, s1) →
      titles = none ∨ titles = some [] →
      (Genre.handler b production (.str g) s).response = ⟨200, .records []⟩ ∧
      ∀ c ∈ (Genre.handler b production (.str g) s).calls,
        ∀ ts, c ≠ .getRecommendationsDetails ts) ∧
    (∀ (t : String) (s1 s2 s3 : σ) (initialMedia mediaDetails : Media)
      (titles : Option (List String)), t ≠ "" →
      b.searchMedia t s = (.ok (some initialMedia), s1) →
      b.getMediaDetails initialMedia.id initialMedia.media_type s1 =
        (.ok (some mediaDetails), s2) →
      b.getSimilarityRecommendations mediaDetails.title mediaDetails.genres
        mediaDetails.overview 20 s2 = (.ok titles, s3) →
      titles = none ∨ titles = some [] →
      (Similar.handler b production (.str t) s).response = ⟨200, .records []⟩ ∧
      ∀ c ∈ (Similar.handler b production (.str t) s).calls,
        ∀ ts, c ≠ .getRecommendationsDetails ts) := by
  refine ⟨?_, ?_⟩
  · intro g s1 titles hg h1 hempty
    rcases hempty with rfl | rfl <;> simp [Genre.handler, hg, h1]
  · intro t s1 s2 s3 initialMedia mediaDetails titles ht h1 h2 h3 hempty
    rcases hempty with rfl | rfl <;> simp [Similar.handler, ht, h1, h2, h3]

/-- C8 at concrete requests: with generators that return no title, both
handlers answer 200 with the empty array. -/
theorem handlers_empty_candidates_witness :
    (Genre.handler emptyGeneratorBackends false (.str "Horror") ()).response =
        ⟨200, .records []⟩ ∧
      (Similar.handler emptyGeneratorBackends false (.str "Get Out") ()).response =
        ⟨200, .records []⟩ :=
  ⟨((handlers_empty_candidates emptyGeneratorBackends false ()).1 "Horror" () (some [])
      (by decide) rfl (Or.inr rfl)).1,
    ((handlers_empty_candidates emptyGeneratorBackends false ()).2 "Get Out" () () ()
      (mediaOf 10 "Get Out" "movie")
      { mediaOf 10 "Get Out" "movie" with genres := some ["Horror"] } (some [])
      (by decide) rfl rfl rfl (Or.inr rfl)).1⟩

/-- C9: without a model, `getGenreRecommendations` returns the bucket of the
first table key, in the order action, comedy, drama, horror, romance, sci-fi,
thriller, default, that is a substring of the lowercased genre or contains it as
a substring, and the default bucket when no key qualifies; the result depends
only on the lowercased genre, whatever the count and the media-kind hint.
"Horror" gives the horror bucket and "zzz-unknown" the default bucket. -/
theorem getGenreRecommendations_fallback (toLowerCase : String → String) :
    (∀ (genre : String) (count : Nat) (mediaType : String),
      BucketRule
        (fun name =>
          IsSubstring name (toLowerCase genre) ∨ IsSubstring (toLowerCase genre) name)
        (getGenreRecommendations toLowerCase none genre count mediaType)) ∧
    mockKeys =
      ["action", "comedy", "drama", "horror", "romance", "sci-fi", "thriller", "default"] ∧
    (∀ (g1 g2 : String) (c1 c2 : Nat) (m1 m2 : String), toLowerCase g1 = toLowerCase g2 →
      getGenreRecommendations toLowerCase none g1 c1 m1 =
        getGenreRecommendations toLowerCase none g2 c2 m2) ∧
    (toLowerCase "Horror" = "horror" → ∀ mediaType : String,
      getGenreRecommendations toLowerCase none "Horror" 20 mediaType =
        some ["The Shining", "Hereditary", "A Quiet Place", "Get Out", "The Exorcist"]) ∧
    (toLowerCase "zzz-unknown" = "zzz-unknown" → ∀ mediaType : String,
      getGenreRecommendations toLowerCase none "zzz-unknown" 20 mediaType =
        some defaultBucket) := by
  refine ⟨?_, by decide, ?_, ?_, ?_⟩
  · intro genre count mediaType
    exact genreFallback_bucketRule toLowerCase genre
  · intro g1 g2 c1 c2 m1 m2 h
    simp only [getGenreRecommendations, genreFallback, h]
  · intro h mediaType
    simp only [getGenreRecommendations, genreFallback, h]
    decide
  · intro h mediaType
    simp only [getGenreRecommendations, genreFallback, h]
    decide

/-- C9 with ASCII lower-casing: "Horror" with count 20 yields the five titles of
the horror bucket. -/
theorem getGenreRecommendations_fallback_witness :
    asciiLower "Horror" = "horror" ∧
      getGenreRecommendations asciiLower none "Horror" 20 "movies and TV shows" =
        some ["The Shining", "Hereditary", "A Quiet Place", "Get Out", "The Exorcist"] :=
  ⟨by decide,
    (getGenreRecommendations_fallback asciiLower).2.2.2.1 (by decide) "movies and TV shows"⟩

/-- C10 (as stated, refuted): for the empty list of genre names the query is the
empty string, which every bucket name contains, so the rule of the genre entry
point selects the action bucket; for the list with the one name "Sci" the query
is "sci", which the name "sci-fi" contains. In both cases
`getSimilarityRecommendations` returns the default bucket, which the two-way
rule does not allow. -/
theorem getSimilarityRecommendations_two_way_refuted :
    (String.intercalate " " (([] : List String).map asciiLower) = "" ∧
      getSimilarityRecommendations asciiLower none none (some []) none 20 =
        some defaultBucket ∧
      ¬ BucketRule (fun name => IsSubstring name "" ∨ IsSubstring "" name)
        (getSimilarityRecommendations asciiLower none none (some []) none 20)) ∧
    (String.intercalate " " (["Sci"].map asciiLower) = "sci" ∧
      getSimilarityRecommendations asciiLower none none (some ["Sci"]) none 20 =
        some defaultBucket ∧
      ¬ BucketRule (fun name => IsSubstring name "sci" ∨ IsSubstring "sci" name)
        (getSimilarityRecommendations asciiLower none none (some ["Sci"]) none 20)) := by
  refine ⟨⟨by decide, by decide, ?_⟩, ⟨by decide, by decide, ?_⟩⟩
  · intro h
    have h2 := genreFallback_bucketRule (fun s => s) ""
    have h3 := bucketRule_unique _ _ _ h h2
    revert h3
    decide
  · intro h
    have h2 := genreFallback_bucketRule (fun s => s) "sci"
    have h3 := bucketRule_unique _ _ _ h h2
    revert h3
    decide

/-- C10 (amended): without a model, for every list of genre names
`getSimilarityRecommendations` returns, for the query q made of the lowercased
genre names joined by single spaces, the bucket of the first table key that is a
substring of q, and the default bucket when no key is a substring of q. -/
theorem getSimilarityRecommendations_fallback (toLowerCase : String → String)
    (title : Option String) (genres : List String) (synopsis : Option String) (count : Nat) :
    BucketRule
      (fun name => IsSubstring name (String.intercalate " " (genres.map toLowerCase)))
      (getSimilarityRecommendations toLowerCase none title (some genres) synopsis count) :=
  similarityFallback_bucketRule toLowerCase (some genres)

/-! ## Lemmas on the cleaner -/

theorem rdropWhile_cons {α : Type} (p : α → Bool) (c : α) (cs : List α) :
    (c :: cs).rdropWhile p = if (c :: cs).all p then [] else c :: cs.rdropWhile p := by
  induction cs using List.reverseRecOn with
  | nil =>
    rw [List.rdropWhile_singleton]
    simp
  | append_singleton xs x ih =>
    rw [← List.cons_append, List.rdropWhile_concat, List.rdropWhile_concat, ih]
    by_cases hx : p x = true
    · simp [hx]
    · simp [hx]

theorem replaceAfterStart_eq (l : List Char) :
    replaceAfterStart l = l.rdropWhile isQuoteChar := by
  induction l with
  | nil => simp [replaceAfterStart]
  | cons c cs ih =>
    rw [rdropWhile_cons, replaceAfterStart, ih]
    simp [matchesTrailingQuotes]

theorem replaceCleaningRegex_eq (l : List Char) :
    replaceCleaningRegex l = (l.dropWhile isLeadingStripChar).rdropWhile isQuoteChar := by
  cases l with
  | nil => simp [replaceCleaningRegex]
  | cons c cs =>
    by_cases hc : isLeadingStripChar c = true
    · simp [replaceCleaningRegex, hc, replaceAfterStart_eq]
    · simp [replaceCleaningRegex, hc, replaceAfterStart_eq, List.dropWhile_cons]

theorem trimChars_eq (l : List Char) :
    trimChars l = (l.dropWhile isJsWhitespace).rdropWhile isJsWhitespace := rfl

theorem cleanLine_eq (l : List Char) :
    trimChars (replaceCleaningRegex l) = referenceCleanLine l := by
  rw [trimChars_eq, replaceCleaningRegex_eq]
  rfl

theorem cleanTitles_some (t : String) :
    cleanTitles (some t) =
      (((splitLines t.data).map fun title => trimChars (replaceCleaningRegex title)).filter
        fun title => !title.isEmpty).map String.mk := by
  by_cases ht : t = ""
  · subst ht
    decide
  · simp [cleanTitles, ht]

/-! ## Lemmas on the cache -/

theorem mapGet_eq_none_iff {K V : Type} [DecidableEq K] (m : List (K × V)) (k : K) :
    mapGet m k = none ↔ k ∉ m.map Prod.fst := by
  induction m with
  | nil => simp [mapGet]
  | cons e m ih =>
    obtain ⟨k0, v0⟩ := e
    by_cases h : k0 = k
    · simp [mapGet, h]
    · have h2 : ¬ k = k0 := fun h3 => h h3.symm
      simp [mapGet, h, h2, ih]

theorem mapDelete_of_absent {K V : Type} [DecidableEq K] (m : List (K × V)) (k : K)
    (h : mapGet m k = none) : mapDelete m k = m := by
  induction m with
  | nil => rfl
  | cons e m ih =>
    obtain ⟨k0, v0⟩ := e
    by_cases hk : k0 = k
    · simp [mapGet, hk] at h
    · simp only [mapGet, hk, if_false] at h
      simp [mapDelete, hk, ih h]

theorem keys_mapDelete_sublist {K V : Type} [DecidableEq K] (m : List (K × V)) (k : K) :
    List.Sublist ((mapDelete m k).map Prod.fst) (m.map Prod.fst) := by
  induction m with
  | nil => simp [mapDelete]
  | cons e m ih =>
    obtain ⟨k0, v0⟩ := e
    by_cases hk : k0 = k
    · simp [mapDelete, hk]
    · simp only [mapDelete, hk, if_false, List.map_cons]
      exact ih.cons₂ k0

theorem mapGet_mapDelete_self {K V : Type} [DecidableEq K] (m : List (K × V)) (k : K)
    (hnd : (m.map Prod.fst).Nodup) : mapGet (mapDelete m k) k = none := by
  induction m with
  | nil => rfl
  | cons e m ih =>
    obtain ⟨k0, v0⟩ := e
    simp only [List.map_cons, List.nodup_cons] at hnd
    by_cases hk : k0 = k
    · subst hk
      simp only [mapDelete, if_true]
      exact (mapGet_eq_none_iff m k0).2 hnd.1
    · simp [mapDelete, mapGet, hk, ih hnd.2]

theorem mapGet_mapDelete_ne {K V : Type} [DecidableEq K] (m : List (K × V)) (k key : K)
    (hne : key ≠ k) : mapGet (mapDelete m k) key = mapGet m key := by
  induction m with
  | nil => rfl
  | cons e m ih =>
    obtain ⟨k0, v0⟩ := e
    by_cases hk : k0 = k
    · subst hk
      have : ¬ k0 = key := fun h => hne h.symm
      simp [mapDelete, mapGet, this]
    · by_cases hkey : k0 = key
      · subst hkey
        simp [mapDelete, mapGet, hk]
      · simp [mapDelete, mapGet, hk, hkey, ih]

theorem nodup_keys_mapSet {K V : Type} [DecidableEq K] (m : List (K × V)) (k : K) (v : V)
    (hnd : (m.map Prod.fst).Nodup) : ((mapSet m k v).map Prod.fst).Nodup := by
  rw [keys_mapSet]
  by_cases h : k ∈ m.map Prod.fst
  · simpa [h] using hnd
  · simp only [h, if_false]
    exact List.Nodup.append hnd (List.nodup_singleton k) (by simpa using h)

theorem nodup_keys_mapDelete {K V : Type} [DecidableEq K] (m : List (K × V)) (k : K)
    (hnd : (m.map Prod.fst).Nodup) : ((mapDelete m k).map Prod.fst).Nodup :=
  hnd.sublist (keys_mapDelete_sublist m k)

theorem getFromCache_requests (s : State) (key : String) :
    (getFromCache s key).2.requests = s.requests := by
  unfold getFromCache
  split
  · split <;> rfl
  · rfl

theorem getFromCache_now (s : State) (key : String) :
    (getFromCache s key).2.now = s.now := by
  unfold getFromCache
  split
  · split <;> rfl
  · rfl

theorem getFromCache_wellFormed (s : State) (key : String) (h : s.WellFormed) :
    (getFromCache s key).2.WellFormed := by
  unfold getFromCache
  split
  · split
    · exact h
    · exact nodup_keys_mapDelete _ _ h
  · exact nodup_keys_mapDelete _ _ h

theorem setInCache_wellFormed (s : State) (key : String) (value : Option Media)
    (h : s.WellFormed) : (setInCache s key value).WellFormed :=
  nodup_keys_mapSet _ _ _ h

/-- The distinctness of the cache keys is an invariant of `searchMedia`. -/
theorem searchMedia_wellFormed (toLowerCase : String → String) (w : World) (s : State)
    (query : String) (h : s.WellFormed) : (searchMedia toLowerCase w s query).2.WellFormed := by
  have h1 := getFromCache_wellFormed s (getCacheKey toLowerCase "search" query) h
  rcases hg : getFromCache s (getCacheKey toLowerCase "search" query) with ⟨c, s1⟩
  rw [hg] at h1
  simp only [searchMedia, hg]
  cases c with
  | some cached => exact h1
  | none =>
    simp only
    cases w.search s1.requests.length query with
    | rejected m => exact h1
    | notOk st tx => exact h1
    | bodyThrows m => exact h1
    | ok data =>
      simp only
      cases data.results.bind fun rs => rs.find? isMovieOrTv with
      | none => exact nodup_keys_mapSet _ _ _ h1
      | some r => exact nodup_keys_mapSet _ _ _ h1

/-- After a lookup that yielded `null`, the key has no entry or an entry that
stores `null`. -/
theorem getFromCache_null_entry (s : State) (key : String) (hwf : s.WellFormed)
    (h : (getFromCache s key).1 = none) :
    ∀ e, mapGet (getFromCache s key).2.cache key = some e → e.value = none := by
  intro e he
  unfold getFromCache at h he
  cases hget : mapGet s.cache key with
  | none =>
    rw [hget] at he
    simp only at he
    rw [mapDelete_of_absent _ _ hget, hget] at he
    cases he
  | some entry =>
    rw [hget] at h he
    by_cases hexp : s.now < entry.expiry
    · simp only [hexp, if_true] at h he
      rw [hget] at he
      cases he
      exact h
    · simp only [hexp, if_false] at he
      rw [mapGet_mapDelete_self _ _ hwf] at he
      cases he

/-- A key with no entry or with an entry that stores `null` is looked up as
`null` at every time. -/
theorem getFromCache_of_null_entry (s : State) (key : String)
    (h : ∀ e, mapGet s.cache key = some e → e.value = none) :
    (getFromCache s key).1 = none := by
  unfold getFromCache
  cases hget : mapGet s.cache key with
  | none => rfl
  | some entry =>
    by_cases hexp : s.now < entry.expiry
    · simpa [hexp] using h entry hget
    · simp [hexp]

/-! ## Lemmas on the double arithmetic -/

theorem roundHalfEven_spec (x : Rat) :
    |x - roundHalfEven x| < 1 / 2 ∨
      (|x - roundHalfEven x| = 1 / 2 ∧ roundHalfEven x % 2 = 0) := by
  have h0 : (0 : Rat) ≤ x - ⌊x⌋ := sub_nonneg.2 (Int.floor_le x)
  have h1 : x - ⌊x⌋ < 1 := by
    have := Int.lt_floor_add_one x
    linarith
  unfold roundHalfEven
  by_cases hlt : x - ⌊x⌋ < 1 / 2
  · left
    rw [if_pos hlt, abs_of_nonneg h0]
    exact hlt
  · rw [if_neg hlt]
    by_cases hgt : 1 / 2 < x - ⌊x⌋
    · left
      rw [if_pos hgt, abs_lt]
      push_cast
      constructor <;> linarith
    · rw [if_neg hgt]
      have heq : x - ⌊x⌋ = 1 / 2 := le_antisymm (not_lt.1 hgt) (not_lt.1 hlt)
      right
      by_cases hev : ⌊x⌋ % 2 = 0
      · rw [if_pos hev, abs_of_nonneg h0]
        exact ⟨heq, hev⟩
      · rw [if_neg hev]
        constructor
        · push_cast
          have : x - (⌊x⌋ + 1) = -(1 / 2) := by linarith
          rw [this, abs_neg, abs_of_pos (by norm_num)]
        · omega

theorem roundHalfEven_eq (x : Rat) (m : Int)
    (h : |x - m| < 1 / 2 ∨ (|x - m| = 1 / 2 ∧ m % 2 = 0)) : roundHalfEven x = m := by
  have hs := roundHalfEven_spec x
  have htri : |((roundHalfEven x : Int) : Rat) - m| ≤ |x - roundHalfEven x| + |x - m| := by
    have : ((roundHalfEven x : Int) : Rat) - m = -(x - roundHalfEven x) + (x - m) := by ring
    rw [this]
    exact (abs_add _ _).trans (by rw [abs_neg])
  have hcast : |((roundHalfEven x : Int) : Rat) - m| = ((|roundHalfEven x - m| : Int) : Rat) := by
    push_cast
    rfl
  rcases h with h | ⟨h, hev⟩
  · have hlt : ((|roundHalfEven x - m| : Int) : Rat) < 1 := by
      rw [← hcast]
      rcases hs with hs | ⟨hs, _⟩ <;> linarith
    have : |roundHalfEven x - m| < 1 := by exact_mod_cast hlt
    have := abs_lt.1 this
    omega
  · rcases hs with hs | ⟨hs, hev2⟩
    · have hlt : ((|roundHalfEven x - m| : Int) : Rat) < 1 := by
        rw [← hcast]
        linarith
      have : |roundHalfEven x - m| < 1 := by exact_mod_cast hlt
      have := abs_lt.1 this
      omega
    · have hle : ((|roundHalfEven x - m| : Int) : Rat) ≤ 1 := by
        rw [← hcast]
        linarith
      have : |roundHalfEven x - m| ≤ 1 := by exact_mod_cast hle
      have := abs_le.1 this
      omega

theorem roundHalfEven_intCast (n : Int) : roundHalfEven (n : Rat) = n :=
  roundHalfEven_eq _ _ (Or.inl (by simp))

theorem roundHalfEven_neg (x : Rat) : roundHalfEven (-x) = -roundHalfEven x := by
  apply roundHalfEven_eq
  have hrw : -x - ((-roundHalfEven x : Int) : Rat) = -(x - roundHalfEven x) := by
    push_cast
    ring
  rw [hrw, abs_neg]
  rcases roundHalfEven_spec x with h | ⟨h, hev⟩
  · exact Or.inl h
  · exact Or.inr ⟨h, by omega⟩

theorem abs_sub_roundHalfEven_le (x : Rat) : |x - roundHalfEven x| ≤ 1 / 2 := by
  rcases roundHalfEven_spec x with h | ⟨h, _⟩
  · exact le_of_lt h
  · exact le_of_eq h

theorem roundHalfEven_mono {x y : Rat} (h : x ≤ y) : roundHalfEven x ≤ roundHalfEven y := by
  by_contra hlt
  have hlt2 : roundHalfEven y + 1 ≤ roundHalfEven x := by omega
  have hlt3 : ((roundHalfEven y : Int) : Rat) + 1 ≤ roundHalfEven x := by exact_mod_cast hlt2
  have hx := abs_le.1 (abs_sub_roundHalfEven_le x)
  have hy := abs_le.1 (abs_sub_roundHalfEven_le y)
  have hxy : x = y := by linarith
  rw [hxy] at hlt
  exact hlt (le_refl _)

theorem ulpExponent_neg (x : Rat) : ulpExponent (-x) = ulpExponent x := by
  simp [ulpExponent]

theorem roundToDouble_neg (x : Rat) : roundToDouble (-x) = -roundToDouble x := by
  simp [roundToDouble, ulpExponent_neg, neg_div, roundHalfEven_neg]

theorem roundToDouble_zero : roundToDouble 0 = 0 := by
  have : roundHalfEven 0 = 0 := by simpa using roundHalfEven_intCast 0
  simp [roundToDouble, this]

theorem two_zpow_pos (k : Int) : (0 : Rat) < 2 ^ k := zpow_pos (by norm_num) k

theorem roundToDouble_nonneg {x : Rat} (h : 0 ≤ x) : 0 ≤ roundToDouble x := by
  unfold roundToDouble
  have h1 : roundHalfEven 0 ≤ roundHalfEven (x / 2 ^ ulpExponent x) :=
    roundHalfEven_mono (div_nonneg h (le_of_lt (two_zpow_pos _)))
  have h0 : roundHalfEven 0 = 0 := by simpa using roundHalfEven_intCast 0
  rw [h0] at h1
  have h2 : (0 : Rat) ≤ roundHalfEven (x / 2 ^ ulpExponent x) := by exact_mod_cast h1
  exact mul_nonneg h2 (le_of_lt (two_zpow_pos _))

theorem ulpExponent_mono {x y : Rat} (hx : 0 < x) (h : x ≤ y) : ulpExponent x ≤ ulpExponent y := by
  unfold ulpExponent
  have hy : 0 < y := lt_of_lt_of_le hx h
  rw [abs_of_pos hx, abs_of_pos hy]
  have := Int.log_mono_right (b := 2) hx h
  exact max_le_max (by omega) (le_refl _)

/-- Below the next power of two the rounded value stays. -/
theorem roundToDouble_le_pow {x : Rat} (hx : 0 < x) :
    roundToDouble x ≤ 2 ^ (ulpExponent x + 53) := by
  have hlt : x < 2 ^ (ulpExponent x + 53) := by
    have h1 := Int.lt_zpow_succ_log_self (R := Rat) (b := 2) (by norm_num) x
    have h2 : Int.log 2 x + 1 ≤ ulpExponent x + 53 := by
      unfold ulpExponent
      rw [abs_of_pos hx]
      have := le_max_left (Int.log 2 x - 52) (-1074)
      omega
    have h3 : ((2 : ℕ) : Rat) ^ (Int.log 2 x + 1) ≤ 2 ^ (ulpExponent x + 53) := by
      rw [Nat.cast_ofNat]
      exact zpow_le_zpow_right₀ (by norm_num) h2
    exact lt_of_lt_of_le h1 h3
  unfold roundToDouble
  have hdiv : x / 2 ^ ulpExponent x ≤ ((2 ^ 53 : Int) : Rat) := by
    rw [div_le_iff₀ (two_zpow_pos _)]
    have : ((2 ^ 53 : Int) : Rat) * 2 ^ ulpExponent x = 2 ^ (ulpExponent x + 53) := by
      rw [zpow_add₀ (by norm_num)]
      push_cast
      norm_num
      ring
    rw [this]
    exact le_of_lt hlt
  have h1 := roundHalfEven_mono hdiv
  rw [roundHalfEven_intCast] at h1
  have h2 : ((roundHalfEven (x / 2 ^ ulpExponent x) : Int) : Rat) ≤ ((2 ^ 53 : Int) : Rat) := by
    exact_mod_cast h1
  calc (roundHalfEven (x / 2 ^ ulpExponent x) : Rat) * 2 ^ ulpExponent x
      ≤ ((2 ^ 53 : Int) : Rat) * 2 ^ ulpExponent x :=
        mul_le_mul_of_nonneg_right h2 (le_of_lt (two_zpow_pos _))
    _ = 2 ^ (ulpExponent x + 53) := by
        rw [zpow_add₀ (by norm_num)]
        push_cast
        norm_num
        ring

/-- In the normal range the rounded value is at least the power of two below. -/
theorem pow_le_roundToDouble {y : Rat} (hy : 0 < y) (hk : -1074 < ulpExponent y) :
    (2 : Rat) ^ (ulpExponent y + 52) ≤ roundToDouble y := by
  have hk2 : ulpExponent y = Int.log 2 y - 52 := by
    unfold ulpExponent at hk ⊢
    rw [abs_of_pos hy] at hk ⊢
    rcases max_cases (Int.log 2 y - 52) (-1074) with ⟨h, _⟩ | ⟨h, _⟩
    · exact h
    · rw [h] at hk
      exact absurd hk (lt_irrefl _)
  have hle : (2 : Rat) ^ (ulpExponent y + 52) ≤ y := by
    have h1 := Int.zpow_log_le_self (R := Rat) (b := 2) (by norm_num) hy
    rw [Nat.cast_ofNat] at h1
    have : ulpExponent y + 52 = Int.log 2 y := by omega
    rw [this]
    exact h1
  unfold roundToDouble
  have hdiv : ((2 ^ 52 : Int) : Rat) ≤ y / 2 ^ ulpExponent y := by
    rw [le_div_iff₀ (two_zpow_pos _)]
    have : ((2 ^ 52 : Int) : Rat) * 2 ^ ulpExponent y = 2 ^ (ulpExponent y + 52) := by
      rw [zpow_add₀ (by norm_num)]
      push_cast
      norm_num
      ring
    rw [this]
    exact hle
  have h1 := roundHalfEven_mono hdiv
  rw [roundHalfEven_intCast] at h1
  have h2 : ((2 ^ 52 : Int) : Rat) ≤ ((roundHalfEven (y / 2 ^ ulpExponent y) : Int) : Rat) := by
    exact_mod_cast h1
  calc (2 : Rat) ^ (ulpExponent y + 52) = ((2 ^ 52 : Int) : Rat) * 2 ^ ulpExponent y := by
        rw [zpow_add₀ (by norm_num)]
        push_cast
        norm_num
        ring
    _ ≤ (roundHalfEven (y / 2 ^ ulpExponent y) : Rat) * 2 ^ ulpExponent y :=
        mul_le_mul_of_nonneg_right h2 (le_of_lt (two_zpow_pos _))

theorem roundToDouble_mono_pos {x y : Rat} (hx : 0 < x) (h : x ≤ y) :
    roundToDouble x ≤ roundToDouble y := by
  have hy : 0 < y := lt_of_lt_of_le hx h
  rcases lt_or_eq_of_le (ulpExponent_mono hx h) with hk | hk
  · have hlow : -1074 < ulpExponent y := lt_of_le_of_lt (le_max_right _ _) hk
    calc roundToDouble x ≤ 2 ^ (ulpExponent x + 53) := roundToDouble_le_pow hx
      _ ≤ 2 ^ (ulpExponent y + 52) := zpow_le_zpow_right₀ (by norm_num) (by omega)
      _ ≤ roundToDouble y := pow_le_roundToDouble hy hlow
  · unfold roundToDouble
    rw [hk]
    have h1 : roundHalfEven (x / 2 ^ ulpExponent y) ≤ roundHalfEven (y / 2 ^ ulpExponent y) :=
      roundHalfEven_mono (div_le_div_of_nonneg_right h (le_of_lt (two_zpow_pos _)))
    have h2 : ((roundHalfEven (x / 2 ^ ulpExponent y) : Int) : Rat) ≤
        ((roundHalfEven (y / 2 ^ ulpExponent y) : Int) : Rat) := by exact_mod_cast h1
    exact mul_le_mul_of_nonneg_right h2 (le_of_lt (two_zpow_pos _))

theorem roundToDouble_mono {x y : Rat} (h : x ≤ y) : roundToDouble x ≤ roundToDouble y := by
  rcases lt_trichotomy 0 x with hx | hx | hx
  · exact roundToDouble_mono_pos hx h
  · rw [← hx, roundToDouble_zero]
    exact roundToDouble_nonneg (hx ▸ h)
  · rcases le_or_lt 0 y with hy | hy
    · have h1 : roundToDouble x ≤ 0 := by
        have := roundToDouble_nonneg (x := -x) (by linarith)
        rw [roundToDouble_neg] at this
        linarith
      exact le_trans h1 (roundToDouble_nonneg hy)
    · have := roundToDouble_mono_pos (x := -y) (y := -x) (by linarith) (by linarith)
      rw [roundToDouble_neg, roundToDouble_neg] at this
      linarith

theorem log_two_eq {x : Rat} {e : Int} (hlo : (2 : Rat) ^ e ≤ x) (hhi : x < 2 ^ (e + 1)) :
    Int.log 2 x = e := by
  have hx : 0 < x := lt_of_lt_of_le (two_zpow_pos e) hlo
  have h1 : e ≤ Int.log 2 x := by
    rw [← Int.zpow_le_iff_le_log (by norm_num) hx, Nat.cast_ofNat]
    exact hlo
  have h2 : Int.log 2 x < e + 1 := by
    rw [← Int.lt_zpow_iff_log_lt (by norm_num) hx, Nat.cast_ofNat]
    exact hhi
  omega

/-- The rounding of a positive number of the normal range, from its binade and
the multiple of the unit in the last place next to it. -/
theorem roundToDouble_eq_of (x v : Rat) (e m : Int) (he : -1022 ≤ e)
    (hlo : (2 : Rat) ^ e ≤ x) (hhi : x < 2 ^ (e + 1)) (hv : v = m * 2 ^ (e - 52))
    (h1 : v - 2 ^ (e - 52) / 2 < x) (h2 : x < v + 2 ^ (e - 52) / 2) :
    roundToDouble x = v := by
  have hx : 0 < x := lt_of_lt_of_le (two_zpow_pos e) hlo
  have hk : ulpExponent x = e - 52 := by
    unfold ulpExponent
    rw [abs_of_pos hx, log_two_eq hlo hhi]
    exact max_eq_left (by omega)
  unfold roundToDouble
  rw [hk, hv]
  congr 1
  have hp := two_zpow_pos (e - 52)
  have hm : roundHalfEven (x / 2 ^ (e - 52)) = m := by
    apply roundHalfEven_eq
    left
    rw [abs_lt]
    constructor
    · rw [lt_sub_iff_add_lt, lt_div_iff₀ hp]
      rw [hv] at h1
      linarith
    · rw [sub_lt_iff_lt_add, div_lt_iff₀ hp]
      rw [hv] at h2
      linarith
  rw [hm]

theorem toNumber_eq_of (x v : Rat) (e m : Int) (he : -1022 ≤ e) (he2 : e ≤ 1022)
    (hlo : (2 : Rat) ^ e ≤ x) (hhi : x < 2 ^ (e + 1)) (hv : v = m * 2 ^ (e - 52))
    (h1 : v - 2 ^ (e - 52) / 2 < x) (h2 : x < v + 2 ^ (e - 52) / 2) :
    toNumber x = .finite v := by
  have hr := roundToDouble_eq_of x v e m he hlo hhi hv h1 h2
  have hp := two_zpow_pos (e - 52)
  have hx : 0 < x := lt_of_lt_of_le (two_zpow_pos e) hlo
  have hnn : 0 ≤ v := by
    rw [← hr]
    exact roundToDouble_nonneg (le_of_lt hx)
  have hle : v ≤ 2 ^ (e + 1) := by
    have := roundToDouble_le_pow hx
    rw [hr] at this
    have hk : ulpExponent x = e - 52 := by
      unfold ulpExponent
      rw [abs_of_pos hx, log_two_eq hlo hhi]
      exact max_eq_left (by omega)
    rw [hk] at this
    have h53 : e - 52 + 53 = e + 1 := by ring
    rwa [h53] at this
  have hlt : v < 2 ^ 1024 := by
    have h3 : (2 : Rat) ^ (e + 1) ≤ 2 ^ (1023 : Int) := zpow_le_zpow_right₀ (by norm_num) (by omega)
    have h4 : (2 : Rat) ^ (1023 : Int) < 2 ^ 1024 := by norm_num
    linarith
  unfold toNumber
  rw [hr, if_neg (not_le.2 hlt), if_neg]
  have : (0 : Rat) < 2 ^ 1024 := by positivity
  intro h
  linarith

theorem toNumber_zero : toNumber 0 = .finite 0 := by
  unfold toNumber
  rw [roundToDouble_zero, if_neg (by norm_num), if_neg (by norm_num)]

theorem toNumber_eq_finite {q s : Rat} (h : toNumber q = .finite s) : s = roundToDouble q := by
  unfold toNumber at h
  split_ifs at h
  exact (JsNumber.finite.inj h).symm

theorem toNumber_finite_mono {p q s t : Rat} (hp : toNumber p = .finite s)
    (hq : toNumber q = .finite t) (h : p ≤ q) : s ≤ t := by
  rw [toNumber_eq_finite hp, toNumber_eq_finite hq]
  exact roundToDouble_mono h

theorem add_eq_finite {a b : JsNumber} {s : Rat} (h : a.add b = .finite s) :
    ∃ x y, a = .finite x ∧ b = .finite y ∧ toNumber (x + y) = .finite s := by
  cases a <;> cases b <;> simp [JsNumber.add] at h
  exact ⟨_, _, rfl, rfl, h⟩

theorem sub_eq_finite {a b : JsNumber} {s : Rat} (h : a.sub b = .finite s) :
    ∃ x y, a = .finite x ∧ b = .finite y ∧ toNumber (x - y) = .finite s := by
  obtain ⟨x, y, hx, hy, hs⟩ := add_eq_finite h
  cases b <;> simp [JsNumber.neg] at hy
  refine ⟨x, _, hx, rfl, ?_⟩
  rw [sub_eq_add_neg, hy]
  exact hs

/-- Every rounded value is a multiple of the least positive double. -/
theorem roundToDouble_grid (x : Rat) : ∃ n : Int, roundToDouble x = n * 2 ^ (-1074 : Int) := by
  have hk : -1074 ≤ ulpExponent x := le_max_right _ _
  refine ⟨roundHalfEven (x / 2 ^ ulpExponent x) * 2 ^ (ulpExponent x + 1074).toNat, ?_⟩
  unfold roundToDouble
  have hsplit : ulpExponent x = ((ulpExponent x + 1074).toNat : Int) + (-1074) := by
    rw [Int.toNat_of_nonneg (by omega)]
    ring
  have : (2 : Rat) ^ ulpExponent x =
      2 ^ (ulpExponent x + 1074).toNat * 2 ^ (-1074 : Int) := by
    conv_lhs => rw [hsplit]
    rw [zpow_add₀ (by norm_num), zpow_natCast]
  rw [this]
  push_cast
  ring

theorem roundToDouble_least : roundToDouble (2 ^ (-1074 : Int)) = 2 ^ (-1074 : Int) := by
  have hlog : Int.log 2 ((2 : Rat) ^ (-1074 : Int)) = -1074 := by
    have := Int.log_zpow (R := Rat) (b := 2) (by norm_num) (-1074)
    rwa [Nat.cast_ofNat] at this
  have hk : ulpExponent (2 ^ (-1074 : Int)) = -1074 := by
    unfold ulpExponent
    rw [abs_of_pos (two_zpow_pos _), hlog]
    norm_num
  unfold roundToDouble
  rw [hk, div_self (ne_of_gt (two_zpow_pos _))]
  have : roundHalfEven 1 = 1 := by simpa using roundHalfEven_intCast 1
  rw [this]
  simp

/-- The difference of two doubles rounds to a number of the same sign. -/
theorem roundToDouble_pos_of_grid {x : Rat} (n : Int) (hx : x = n * 2 ^ (-1074 : Int))
    (hpos : 0 < x) : 0 < roundToDouble x := by
  have hp := two_zpow_pos (-1074)
  have hn : 0 < n := by
    by_contra hle
    have hn0 : (n : Rat) ≤ 0 := by exact_mod_cast not_lt.1 hle
    have : x ≤ 0 := by
      rw [hx]
      exact mul_nonpos_of_nonpos_of_nonneg hn0 (le_of_lt hp)
    linarith
  have hn1 : (1 : Rat) ≤ n := by exact_mod_cast hn
  have hge : (2 : Rat) ^ (-1074 : Int) ≤ x := by
    rw [hx]
    calc (2 : Rat) ^ (-1074 : Int) = 1 * 2 ^ (-1074 : Int) := (one_mul _).symm
      _ ≤ n * 2 ^ (-1074 : Int) := mul_le_mul_of_nonneg_right hn1 (le_of_lt hp)
  have := roundToDouble_mono hge
  rw [roundToDouble_least] at this
  linarith

theorem comparatorValue_toNumber_le (q : Rat) :
    comparatorValue (toNumber q) ≤ 0 ↔ roundToDouble q ≤ 0 := by
  have h1024 : (0 : Rat) < 2 ^ 1024 := by positivity
  unfold toNumber
  split_ifs with h1 h2
  · simp only [comparatorValue]
    constructor
    · intro h
      norm_num at h
    · intro h
      linarith
  · simp only [comparatorValue]
    constructor
    · intro _
      linarith
    · intro _
      norm_num
  · simp only [comparatorValue]

theorem score_grid (env : DateEnv) (a : RelatedItem) (s : Rat) (h : score env a = .finite s) :
    ∃ n : Int, s = n * 2 ^ (-1074 : Int) := by
  unfold score at h
  obtain ⟨x, y, _, _, hs⟩ := sub_eq_finite h
  rw [toNumber_eq_finite hs]
  exact roundToDouble_grid _

theorem compareFn_le_iff (env : DateEnv) (a b : RelatedItem) (sa sb : Rat)
    (ha : score env a = .finite sa) (hb : score env b = .finite sb) :
    compareFn env a b ≤ 0 ↔ sb ≤ sa := by
  obtain ⟨na, hna⟩ := score_grid env a sa ha
  obtain ⟨nb, hnb⟩ := score_grid env b sb hb
  unfold compareFn
  rw [ha, hb]
  have hsub : (JsNumber.finite sb).sub (.finite sa) = toNumber (sb - sa) := by
    simp [JsNumber.sub, JsNumber.neg, JsNumber.add, sub_eq_add_neg]
  rw [hsub, comparatorValue_toNumber_le]
  constructor
  · intro h
    by_contra hlt
    have hpos : 0 < sb - sa := by linarith
    have hgrid : sb - sa = ((nb - na : Int) : Rat) * 2 ^ (-1074 : Int) := by
      rw [hna, hnb]
      push_cast
      ring
    have := roundToDouble_pos_of_grid _ hgrid hpos
    linarith
  · intro h
    have := roundToDouble_mono (x := sb - sa) (y := 0) (by linarith)
    rwa [roundToDouble_zero] at this

/-- The rounding of a positive number of the normal range that lies halfway
between two doubles: the one with the even significand. -/
theorem roundToDouble_eq_of_tie (x v : Rat) (e m : Int) (he : -1022 ≤ e)
    (hlo : (2 : Rat) ^ e ≤ x) (hhi : x < 2 ^ (e + 1)) (hv : v = m * 2 ^ (e - 52))
    (ht : x - v = 2 ^ (e - 52) / 2 ∨ v - x = 2 ^ (e - 52) / 2) (hev : m % 2 = 0) :
    roundToDouble x = v := by
  have hx : 0 < x := lt_of_lt_of_le (two_zpow_pos e) hlo
  have hk : ulpExponent x = e - 52 := by
    unfold ulpExponent
    rw [abs_of_pos hx, log_two_eq hlo hhi]
    exact max_eq_left (by omega)
  unfold roundToDouble
  rw [hk, hv]
  congr 1
  have hp := two_zpow_pos (e - 52)
  have hm : roundHalfEven (x / 2 ^ (e - 52)) = m := by
    apply roundHalfEven_eq
    right
    refine ⟨?_, hev⟩
    have hdiv : x / 2 ^ (e - 52) - m = (x - v) / 2 ^ (e - 52) := by
      rw [hv]
      field_simp
      ring
    rw [hdiv]
    rcases ht with ht | ht
    · rw [ht, abs_of_pos (by positivity)]
      field_simp
      ring
    · have : x - v = -(2 ^ (e - 52) / 2) := by linarith
      rw [this, neg_div, abs_neg, abs_of_pos (by positivity)]
      field_simp
      ring
  rw [hm]

theorem toNumber_eq_of_tie (x v : Rat) (e m : Int) (he : -1022 ≤ e) (he2 : e ≤ 1022)
    (hlo : (2 : Rat) ^ e ≤ x) (hhi : x < 2 ^ (e + 1)) (hv : v = m * 2 ^ (e - 52))
    (ht : x - v = 2 ^ (e - 52) / 2 ∨ v - x = 2 ^ (e - 52) / 2) (hev : m % 2 = 0) :
    toNumber x = .finite v := by
  have hr := roundToDouble_eq_of_tie x v e m he hlo hhi hv ht hev
  have hx : 0 < x := lt_of_lt_of_le (two_zpow_pos e) hlo
  have hle : v ≤ 2 ^ (e + 1) := by
    have := roundToDouble_le_pow hx
    rw [hr] at this
    have hk : ulpExponent x = e - 52 := by
      unfold ulpExponent
      rw [abs_of_pos hx, log_two_eq hlo hhi]
      exact max_eq_left (by omega)
    rw [hk] at this
    have h53 : e - 52 + 53 = e + 1 := by ring
    rwa [h53] at this
  have hnn : 0 ≤ v := by
    rw [← hr]
    exact roundToDouble_nonneg (le_of_lt hx)
  have hlt : v < 2 ^ 1024 := by
    have h3 : (2 : Rat) ^ (e + 1) ≤ 2 ^ (1023 : Int) := zpow_le_zpow_right₀ (by norm_num) (by omega)
    have h4 : (2 : Rat) ^ (1023 : Int) < 2 ^ 1024 := by norm_num
    linarith
  unfold toNumber
  rw [hr, if_neg (not_le.2 hlt), if_neg]
  have : (0 : Rat) < 2 ^ 1024 := by positivity
  intro h
  linarith

/-- The score of an item from the results of the single operations. -/
theorem score_of_steps (env : DateEnv) (a : RelatedItem) (year : Int)
    (hy : releaseYear env a = some year)
    (t1 t2 f t3 yrs c03 c005 t4 s1 s2 s : Rat)
    (h1 : toNumber (orZero a.vote_average * 5) = .finite t1)
    (hc : toNumber (3 / 10) = .finite c03)
    (h2 : toNumber (orZero a.popularity * c03) = .finite t2)
    (hf : toNumber (min (orZero a.vote_count) 1000 / 1000) = .finite f)
    (h3 : toNumber (f * (3 / 2)) = .finite t3)
    (hyrs : toNumber ((max 0 (env.currentYear - year) : Int) : Rat) = .finite yrs)
    (hc2 : toNumber (1 / 20) = .finite c005)
    (h4 : toNumber (yrs * c005) = .finite t4)
    (hs1 : toNumber (t1 + t2) = .finite s1)
    (hs2 : toNumber (s1 + t3) = .finite s2)
    (hs : toNumber (s2 + -t4) = .finite s) :
    score env a = .finite s := by
  simp only [score, hy, divide, JsNumber.mul, JsNumber.add, JsNumber.sub, JsNumber.neg,
    h1, hc, h2, hf, h3, hyrs, hc2, h4, hs1, hs2, hs]

theorem toNumber_three_tenths : toNumber (3 / 10) = .finite (5404319552844595 / 18014398509481984) :=
  (by
      refine toNumber_eq_of _ (5404319552844595 / 18014398509481984) (-2) 5404319552844595 ?_ ?_ ?_ ?_ ?_ ?_ ?_ <;> norm_num)

theorem toNumber_one_twentieth : toNumber (1 / 20) = .finite (3602879701896397 / 72057594037927936) :=
  (by
      refine toNumber_eq_of _ (3602879701896397 / 72057594037927936) (-5) 7205759403792794 ?_ ?_ ?_ ?_ ?_ ?_ ?_ <;> norm_num)

theorem toNumber_five : toNumber (((max 0 (env2025.currentYear - 2020) : Int) : Rat)) = .finite 5 := by
  show toNumber (5 : Rat) = _
  exact (by
      refine toNumber_eq_of _ (5) (2) 5629499534213120 ?_ ?_ ?_ ?_ ?_ ?_ ?_ <;> norm_num)

theorem toNumber_quarter : toNumber (5 * (3602879701896397 / 72057594037927936)) = .finite (1 / 4) :=
  (by
      refine toNumber_eq_of _ (1 / 4) (-2) 4503599627370496 ?_ ?_ ?_ ?_ ?_ ?_ ?_ <;> norm_num)

/-- The computed score of a candidate rated 5 with popularity 0.5000000000000001 (the double 1/2 + 2^-53) and 100 votes. -/
theorem score_near_half (id : Int) :
    score env2025 (candidate id (5) (4503599627370497 / 9007199254740992) (100)) = .finite (1762737041650483 / 70368744177664) := by
  refine score_of_steps env2025 (candidate id (5) (4503599627370497 / 9007199254740992) (100)) 2020 rfl (25) (1351079888211149 / 9007199254740992) (3602879701896397 / 36028797018963968) (1351079888211149 / 9007199254740992) 5
    (5404319552844595 / 18014398509481984) (3602879701896397 / 72057594037927936) (1 / 4) (3539547832136499 / 140737488355328) (1780329227694899 / 70368744177664) _
    ?_ toNumber_three_tenths ?_ ?_ ?_ toNumber_five toNumber_one_twentieth toNumber_quarter
    ?_ ?_ ?_
  · show toNumber ((5 : Rat) * 5) = _
    exact (by
      refine toNumber_eq_of _ (25) (4) 7036874417766400 ?_ ?_ ?_ ?_ ?_ ?_ ?_ <;> norm_num)
  · show toNumber ((4503599627370497 / 9007199254740992 : Rat) * (5404319552844595 / 18014398509481984)) = _
    exact (by
      refine toNumber_eq_of _ (1351079888211149 / 9007199254740992) (-3) 5404319552844596 ?_ ?_ ?_ ?_ ?_ ?_ ?_ <;> norm_num)
  · show toNumber (min (100 : Rat) 1000 / 1000) = _
    exact (by
      refine toNumber_eq_of _ (3602879701896397 / 36028797018963968) (-4) 7205759403792794 ?_ ?_ ?_ ?_ ?_ ?_ ?_ <;> norm_num)
  · exact (by
      refine toNumber_eq_of_tie _ (1351079888211149 / 9007199254740992) (-3) 5404319552844596 ?_ ?_ ?_ ?_ ?_ (Or.inr ?_) ?_ <;> norm_num)
  · exact (by
      refine toNumber_eq_of _ (3539547832136499 / 140737488355328) (4) 7079095664272998 ?_ ?_ ?_ ?_ ?_ ?_ ?_ <;> norm_num)
  · exact (by
      refine toNumber_eq_of _ (1780329227694899 / 70368744177664) (4) 7121316910779596 ?_ ?_ ?_ ?_ ?_ ?_ ?_ <;> norm_num)
  · exact (by
      refine toNumber_eq_of _ (1762737041650483 / 70368744177664) (4) 7050948166601932 ?_ ?_ ?_ ?_ ?_ ?_ ?_ <;> norm_num)

/-- The computed score of a candidate rated 5 with popularity 0 and 200 votes. -/
theorem score_no_popularity (id : Int) :
    score env2025 (candidate id (5) (0) (200)) = .finite (7050948166601933 / 281474976710656) := by
  refine score_of_steps env2025 (candidate id (5) (0) (200)) 2020 rfl (25) (0) (3602879701896397 / 18014398509481984) (1351079888211149 / 4503599627370496) 5
    (5404319552844595 / 18014398509481984) (3602879701896397 / 72057594037927936) (1 / 4) (25) (7121316910779597 / 281474976710656) _
    ?_ toNumber_three_tenths ?_ ?_ ?_ toNumber_five toNumber_one_twentieth toNumber_quarter
    ?_ ?_ ?_
  · show toNumber ((5 : Rat) * 5) = _
    exact (by
      refine toNumber_eq_of _ (25) (4) 7036874417766400 ?_ ?_ ?_ ?_ ?_ ?_ ?_ <;> norm_num)
  · show toNumber ((0 : Rat) * (5404319552844595 / 18014398509481984)) = _
    exact (by norm_num [toNumber_zero])
  · show toNumber (min (200 : Rat) 1000 / 1000) = _
    exact (by
      refine toNumber_eq_of _ (3602879701896397 / 18014398509481984) (-3) 7205759403792794 ?_ ?_ ?_ ?_ ?_ ?_ ?_ <;> norm_num)
  · exact (by
      refine toNumber_eq_of_tie _ (1351079888211149 / 4503599627370496) (-2) 5404319552844596 ?_ ?_ ?_ ?_ ?_ (Or.inr ?_) ?_ <;> norm_num)
  · exact (by
      refine toNumber_eq_of _ (25) (4) 7036874417766400 ?_ ?_ ?_ ?_ ?_ ?_ ?_ <;> norm_num)
  · exact (by
      refine toNumber_eq_of _ (7121316910779597 / 281474976710656) (4) 7121316910779597 ?_ ?_ ?_ ?_ ?_ ?_ ?_ <;> norm_num)
  · exact (by
      refine toNumber_eq_of _ (7050948166601933 / 281474976710656) (4) 7050948166601933 ?_ ?_ ?_ ?_ ?_ ?_ ?_ <;> norm_num)

/-- The computed score of a candidate rated 8 with popularity 1e20. -/
theorem score_eight_huge (id : Int) :
    score env2025 (candidate id (8) (100000000000000000000) (500)) = .finite (30000000000000000000) := by
  refine score_of_steps env2025 (candidate id (8) (100000000000000000000) (500)) 2020 rfl (40) (30000000000000000000) (1 / 2) (3 / 4) 5
    (5404319552844595 / 18014398509481984) (3602879701896397 / 72057594037927936) (1 / 4) (30000000000000000000) (30000000000000000000) _
    ?_ toNumber_three_tenths ?_ ?_ ?_ toNumber_five toNumber_one_twentieth toNumber_quarter
    ?_ ?_ ?_
  · show toNumber ((8 : Rat) * 5) = _
    exact (by
      refine toNumber_eq_of _ (40) (5) 5629499534213120 ?_ ?_ ?_ ?_ ?_ ?_ ?_ <;> norm_num)
  · show toNumber ((100000000000000000000 : Rat) * (5404319552844595 / 18014398509481984)) = _
    exact (by
      refine toNumber_eq_of _ (30000000000000000000) (64) 7324218750000000 ?_ ?_ ?_ ?_ ?_ ?_ ?_ <;> norm_num)
  · show toNumber (min (500 : Rat) 1000 / 1000) = _
    exact (by
      refine toNumber_eq_of _ (1 / 2) (-1) 4503599627370496 ?_ ?_ ?_ ?_ ?_ ?_ ?_ <;> norm_num)
  · exact (by
      refine toNumber_eq_of _ (3 / 4) (-1) 6755399441055744 ?_ ?_ ?_ ?_ ?_ ?_ ?_ <;> norm_num)
  · exact (by
      refine toNumber_eq_of _ (30000000000000000000) (64) 7324218750000000 ?_ ?_ ?_ ?_ ?_ ?_ ?_ <;> norm_num)
  · exact (by
      refine toNumber_eq_of _ (30000000000000000000) (64) 7324218750000000 ?_ ?_ ?_ ?_ ?_ ?_ ?_ <;> norm_num)
  · exact (by
      refine toNumber_eq_of _ (30000000000000000000) (64) 7324218750000000 ?_ ?_ ?_ ?_ ?_ ?_ ?_ <;> norm_num)

/-- The computed score of a candidate rated 4 with popularity 1e20. -/
theorem score_four_huge (id : Int) :
    score env2025 (candidate id (4) (100000000000000000000) (500)) = .finite (30000000000000000000) := by
  refine score_of_steps env2025 (candidate id (4) (100000000000000000000) (500)) 2020 rfl (20) (30000000000000000000) (1 / 2) (3 / 4) 5
    (5404319552844595 / 18014398509481984) (3602879701896397 / 72057594037927936) (1 / 4) (30000000000000000000) (30000000000000000000) _
    ?_ toNumber_three_tenths ?_ ?_ ?_ toNumber_five toNumber_one_twentieth toNumber_quarter
    ?_ ?_ ?_
  · show toNumber ((4 : Rat) * 5) = _
    exact (by
      refine toNumber_eq_of _ (20) (4) 5629499534213120 ?_ ?_ ?_ ?_ ?_ ?_ ?_ <;> norm_num)
  · show toNumber ((100000000000000000000 : Rat) * (5404319552844595 / 18014398509481984)) = _
    exact (by
      refine toNumber_eq_of _ (30000000000000000000) (64) 7324218750000000 ?_ ?_ ?_ ?_ ?_ ?_ ?_ <;> norm_num)
  · show toNumber (min (500 : Rat) 1000 / 1000) = _
    exact (by
      refine toNumber_eq_of _ (1 / 2) (-1) 4503599627370496 ?_ ?_ ?_ ?_ ?_ ?_ ?_ <;> norm_num)
  · exact (by
      refine toNumber_eq_of _ (3 / 4) (-1) 6755399441055744 ?_ ?_ ?_ ?_ ?_ ?_ ?_ <;> norm_num)
  · exact (by
      refine toNumber_eq_of _ (30000000000000000000) (64) 7324218750000000 ?_ ?_ ?_ ?_ ?_ ?_ ?_ <;> norm_num)
  · exact (by
      refine toNumber_eq_of _ (30000000000000000000) (64) 7324218750000000 ?_ ?_ ?_ ?_ ?_ ?_ ?_ <;> norm_num)
  · exact (by
      refine toNumber_eq_of _ (30000000000000000000) (64) 7324218750000000 ?_ ?_ ?_ ?_ ?_ ?_ ?_ <;> norm_num)

/-- The computed score of a candidate rated 8 with popularity 10 and 500 votes. -/
theorem score_eight (id : Int) :
    score env2025 (candidate id (8) (10) (500)) = .finite (87 / 2) := by
  refine score_of_steps env2025 (candidate id (8) (10) (500)) 2020 rfl (40) (3) (1 / 2) (3 / 4) 5
    (5404319552844595 / 18014398509481984) (3602879701896397 / 72057594037927936) (1 / 4) (43) (175 / 4) _
    ?_ toNumber_three_tenths ?_ ?_ ?_ toNumber_five toNumber_one_twentieth toNumber_quarter
    ?_ ?_ ?_
  · show toNumber ((8 : Rat) * 5) = _
    exact (by
      refine toNumber_eq_of _ (40) (5) 5629499534213120 ?_ ?_ ?_ ?_ ?_ ?_ ?_ <;> norm_num)
  · show toNumber ((10 : Rat) * (5404319552844595 / 18014398509481984)) = _
    exact (by
      refine toNumber_eq_of _ (3) (1) 6755399441055744 ?_ ?_ ?_ ?_ ?_ ?_ ?_ <;> norm_num)
  · show toNumber (min (500 : Rat) 1000 / 1000) = _
    exact (by
      refine toNumber_eq_of _ (1 / 2) (-1) 4503599627370496 ?_ ?_ ?_ ?_ ?_ ?_ ?_ <;> norm_num)
  · exact (by
      refine toNumber_eq_of _ (3 / 4) (-1) 6755399441055744 ?_ ?_ ?_ ?_ ?_ ?_ ?_ <;> norm_num)
  · exact (by
      refine toNumber_eq_of _ (43) (5) 6051711999279104 ?_ ?_ ?_ ?_ ?_ ?_ ?_ <;> norm_num)
  · exact (by
      refine toNumber_eq_of _ (175 / 4) (5) 6157265115545600 ?_ ?_ ?_ ?_ ?_ ?_ ?_ <;> norm_num)
  · exact (by
      refine toNumber_eq_of _ (87 / 2) (5) 6122080743456768 ?_ ?_ ?_ ?_ ?_ ?_ ?_ <;> norm_num)

/-- The computed score of a candidate rated 4 with popularity 10 and 500 votes. -/
theorem score_four (id : Int) :
    score env2025 (candidate id (4) (10) (500)) = .finite (47 / 2) := by
  refine score_of_steps env2025 (candidate id (4) (10) (500)) 2020 rfl (20) (3) (1 / 2) (3 / 4) 5
    (5404319552844595 / 18014398509481984) (3602879701896397 / 72057594037927936) (1 / 4) (23) (95 / 4) _
    ?_ toNumber_three_tenths ?_ ?_ ?_ toNumber_five toNumber_one_twentieth toNumber_quarter
    ?_ ?_ ?_
  · show toNumber ((4 : Rat) * 5) = _
    exact (by
      refine toNumber_eq_of _ (20) (4) 5629499534213120 ?_ ?_ ?_ ?_ ?_ ?_ ?_ <;> norm_num)
  · show toNumber ((10 : Rat) * (5404319552844595 / 18014398509481984)) = _
    exact (by
      refine toNumber_eq_of _ (3) (1) 6755399441055744 ?_ ?_ ?_ ?_ ?_ ?_ ?_ <;> norm_num)
  · show toNumber (min (500 : Rat) 1000 / 1000) = _
    exact (by
      refine toNumber_eq_of _ (1 / 2) (-1) 4503599627370496 ?_ ?_ ?_ ?_ ?_ ?_ ?_ <;> norm_num)
  · exact (by
      refine toNumber_eq_of _ (3 / 4) (-1) 6755399441055744 ?_ ?_ ?_ ?_ ?_ ?_ ?_ <;> norm_num)
  · exact (by
      refine toNumber_eq_of _ (23) (4) 6473924464345088 ?_ ?_ ?_ ?_ ?_ ?_ ?_ <;> norm_num)
  · exact (by
      refine toNumber_eq_of _ (95 / 4) (4) 6685030696878080 ?_ ?_ ?_ ?_ ?_ ?_ ?_ <;> norm_num)
  · exact (by
      refine toNumber_eq_of _ (47 / 2) (4) 6614661952700416 ?_ ?_ ?_ ?_ ?_ ?_ ?_ <;> norm_num)

/-- The computed score of a candidate rated 9 with popularity 1 and one vote. -/
theorem score_nine (id : Int) :
    score env2025 (candidate id (9) (1) (1)) = .finite (6340434956640059 / 140737488355328) := by
  refine score_of_steps env2025 (candidate id (9) (1) (1)) 2020 rfl (45) (5404319552844595 / 18014398509481984) (1152921504606847 / 1152921504606846976) (3458764513820541 / 2305843009213693952) 5
    (5404319552844595 / 18014398509481984) (3602879701896397 / 72057594037927936) (1 / 4) (3187704111248179 / 70368744177664) (6375619328728891 / 140737488355328) _
    ?_ toNumber_three_tenths ?_ ?_ ?_ toNumber_five toNumber_one_twentieth toNumber_quarter
    ?_ ?_ ?_
  · show toNumber ((9 : Rat) * 5) = _
    exact (by
      refine toNumber_eq_of _ (45) (5) 6333186975989760 ?_ ?_ ?_ ?_ ?_ ?_ ?_ <;> norm_num)
  · show toNumber ((1 : Rat) * (5404319552844595 / 18014398509481984)) = _
    exact (by
      refine toNumber_eq_of _ (5404319552844595 / 18014398509481984) (-2) 5404319552844595 ?_ ?_ ?_ ?_ ?_ ?_ ?_ <;> norm_num)
  · show toNumber (min (1 : Rat) 1000 / 1000) = _
    exact (by
      refine toNumber_eq_of _ (1152921504606847 / 1152921504606846976) (-10) 4611686018427388 ?_ ?_ ?_ ?_ ?_ ?_ ?_ <;> norm_num)
  · exact (by
      refine toNumber_eq_of _ (3458764513820541 / 2305843009213693952) (-10) 6917529027641082 ?_ ?_ ?_ ?_ ?_ ?_ ?_ <;> norm_num)
  · exact (by
      refine toNumber_eq_of _ (3187704111248179 / 70368744177664) (5) 6375408222496358 ?_ ?_ ?_ ?_ ?_ ?_ ?_ <;> norm_num)
  · exact (by
      refine toNumber_eq_of _ (6375619328728891 / 140737488355328) (5) 6375619328728891 ?_ ?_ ?_ ?_ ?_ ?_ ?_ <;> norm_num)
  · exact (by
      refine toNumber_eq_of _ (6340434956640059 / 140737488355328) (5) 6340434956640059 ?_ ?_ ?_ ?_ ?_ ?_ ?_ <;> norm_num)

/-- A sum, a further sum and a difference of doubles never decrease when the
first operand grows, as long as the results are finite. -/
theorem score_chain_mono (A A' B C D : JsNumber) (x x' sa sb : Rat)
    (hA : A = .finite x) (hA' : A' = .finite x') (hle : x' ≤ x)
    (h : ((A.add B).add C).sub D = .finite sa)
    (h' : ((A'.add B).add C).sub D = .finite sb) : sb ≤ sa := by
  obtain ⟨x2, d, h2, hd, hs⟩ := sub_eq_finite h
  obtain ⟨x1, c, h1, hc, hs2⟩ := add_eq_finite h2
  obtain ⟨x0, b0, h0, hb, hs1⟩ := add_eq_finite h1
  obtain ⟨y2, d', k2, hd', ks⟩ := sub_eq_finite h'
  obtain ⟨y1, c', k1, hc', ks2⟩ := add_eq_finite k2
  obtain ⟨y0, b0', k0, hb', ks1⟩ := add_eq_finite k1
  have e1 : d' = d := JsNumber.finite.inj (hd'.symm.trans hd)
  have e2 : c' = c := JsNumber.finite.inj (hc'.symm.trans hc)
  have e3 : b0' = b0 := JsNumber.finite.inj (hb'.symm.trans hb)
  have e4 : x0 = x := JsNumber.finite.inj (h0.symm.trans hA)
  have e5 : y0 = x' := JsNumber.finite.inj (k0.symm.trans hA')
  subst e1 e2 e3 e4 e5
  have m1 : y1 ≤ x1 := toNumber_finite_mono ks1 hs1 (by linarith)
  have m2 : y2 ≤ x2 := toNumber_finite_mono ks2 hs2 (by linarith)
  exact toNumber_finite_mono ks hs (by linarith)

theorem score_mono_vote_average (env : DateEnv) (a b : RelatedItem) (va vb sa sb : Rat)
    (hsame : b = { a with vote_average := some vb })
    (ha : a.vote_average = some va) (hle : vb ≤ va)
    (hsa : score env a = .finite sa) (hsb : score env b = .finite sb) : sb ≤ sa := by
  subst hsame
  have hya : ∃ x, toNumber (va * 5) = .finite x := by
    unfold score at hsa
    obtain ⟨x2, d, h2, hd, hs⟩ := sub_eq_finite hsa
    obtain ⟨x1, c, h1, hc, hs2⟩ := add_eq_finite h2
    obtain ⟨x0, b0, h0, hb, hs1⟩ := add_eq_finite h1
    refine ⟨x0, ?_⟩
    rw [← h0, ha]
    rfl
  have hyb : ∃ x, toNumber (vb * 5) = .finite x := by
    unfold score at hsb
    obtain ⟨x2, d, h2, hd, hs⟩ := sub_eq_finite hsb
    obtain ⟨x1, c, h1, hc, hs2⟩ := add_eq_finite h2
    obtain ⟨x0, b0, h0, hb, hs1⟩ := add_eq_finite h1
    refine ⟨x0, ?_⟩
    rw [← h0]
    rfl
  obtain ⟨x, hx⟩ := hya
  obtain ⟨x', hx'⟩ := hyb
  have hxx : x' ≤ x := toNumber_finite_mono hx' hx (by linarith)
  refine score_chain_mono _ _ _ _ _ x x' sa sb ?_ ?_ hxx hsa hsb
  · rw [ha]
    exact hx
  · exact hx'

/-! ## Lemmas on the ranker -/

theorem insertSorted_perm {α : Type} (cmp : α → α → Rat) (x : α) (l : List α) :
    (insertSorted cmp x l).Perm (x :: l) := by
  induction l with
  | nil => exact List.Perm.refl _
  | cons y ys ih =>
    by_cases h : cmp x y ≤ 0
    · simp [insertSorted, h]
    · simp only [insertSorted, h, if_false]
      exact (ih.cons y).trans (List.Perm.swap x y ys)

theorem jsSort_perm {α : Type} (cmp : α → α → Rat) (l : List α) : (jsSort cmp l).Perm l := by
  induction l with
  | nil => exact List.Perm.refl _
  | cons x xs ih => exact (insertSorted_perm cmp x _).trans (ih.cons x)

theorem insertSorted_pairwise {α : Type} (cmp : α → α → Rat) (key : α → Rat) (x : α)
    (l : List α) (hcmp : ∀ y ∈ l, (cmp x y ≤ 0 ↔ key y ≤ key x))
    (hl : l.Pairwise fun a b => key b ≤ key a) :
    (insertSorted cmp x l).Pairwise fun a b => key b ≤ key a := by
  induction l with
  | nil => simp [insertSorted]
  | cons y ys ih =>
    rw [List.pairwise_cons] at hl
    by_cases h : cmp x y ≤ 0
    · simp only [insertSorted, h, if_true]
      have hy : key y ≤ key x := (hcmp y (List.mem_cons_self _ _)).1 h
      refine List.pairwise_cons.2 ⟨?_, List.pairwise_cons.2 hl⟩
      intro z hz
      rcases List.mem_cons.1 hz with hz | hz
      · rw [hz]; exact hy
      · exact le_trans (hl.1 z hz) hy
    · simp only [insertSorted, h, if_false]
      have hy : ¬ key y ≤ key x := fun h2 => h ((hcmp y (List.mem_cons_self _ _)).2 h2)
      refine List.pairwise_cons.2 ⟨?_, ih (fun z hz => hcmp z (List.mem_cons_of_mem _ hz)) hl.2⟩
      intro z hz
      rcases List.mem_cons.1 ((insertSorted_perm cmp x ys).mem_iff.1 hz) with hz | hz
      · rw [hz]; exact le_of_lt (not_le.1 hy)
      · exact hl.1 z hz

theorem jsSort_pairwise {α : Type} (cmp : α → α → Rat) (key : α → Rat) (l : List α)
    (hcmp : ∀ x ∈ l, ∀ y ∈ l, (cmp x y ≤ 0 ↔ key y ≤ key x)) :
    (jsSort cmp l).Pairwise fun a b => key b ≤ key a := by
  induction l with
  | nil => simp [jsSort]
  | cons x xs ih =>
    apply insertSorted_pairwise
    · intro y hy
      exact hcmp x (List.mem_cons_self _ _) y
        (List.mem_cons_of_mem _ ((jsSort_perm cmp xs).mem_iff.1 hy))
    · exact ih fun a ha b hb =>
        hcmp a (List.mem_cons_of_mem _ ha) b (List.mem_cons_of_mem _ hb)

theorem scoreOf_finite {env : DateEnv} {a : RelatedItem} {s : Rat}
    (h : score env a = .finite s) : scoreOf env a = s := by
  unfold scoreOf
  rw [h]

theorem sorted_pairwise (env : DateEnv) (merged : List RelatedItem)
    (hfinite : ∀ a ∈ merged, ∃ s, score env a = .finite s) :
    (jsSort (compareFn env) merged).Pairwise fun a b => scoreOf env b ≤ scoreOf env a := by
  apply jsSort_pairwise (compareFn env) (scoreOf env) merged
  intro a ha b hb
  obtain ⟨sa, hsa⟩ := hfinite a ha
  obtain ⟨sb, hsb⟩ := hfinite b hb
  rw [compareFn_le_iff env a b sa sb hsa hsb, scoreOf_finite hsa, scoreOf_finite hsb]

theorem rankedItems_pair (env : DateEnv) (a b : RelatedItem) (sa sb : Rat)
    (hsa : score env a = .finite sa) (hsb : score env b = .finite sb) :
    rankedItems env [a, b] = if sb ≤ sa then [a, b] else [b, a] := by
  have h := compareFn_le_iff env a b sa sb hsa hsb
  by_cases hle : sb ≤ sa
  · simp [rankedItems, jsSort, insertSorted, h.2 hle, hle]
  · have hc : ¬ compareFn env a b ≤ 0 := fun hc => hle (h.1 hc)
    simp [rankedItems, jsSort, insertSorted, hc, hle]

theorem fetchSimilarMedia_of_merged (env : DateEnv) (media : MediaRef)
    (similar recommendations : FetchOutcome RelatedData) (merged : List RelatedItem)
    (h : mergedResults similar recommendations = some merged) :
    fetchSimilarMedia env media similar recommendations =
      (rankedItems env merged).map
        (toSimilarRecord env ((orElseStr media.media_type none).getD "movie")) := by
  cases merged with
  | nil => simp [fetchSimilarMedia, h, rankedItems, jsSort]
  | cons a l => simp [fetchSimilarMedia, h]

/-! ## The claims C11 to C20 -/

/-- C11: when a model is configured and the generation call fails (the request
rejects, the backend errors, or reading the response text throws: `generate`
ends in an error), `getGenreRecommendations` and `getSimilarityRecommendations`
return a list (the embedding has no error result) and it is exactly the list
they return for the same input without a model. -/
theorem generation_failure_falls_back (toLowerCase : String → String) (generate : GenModel) :
    (∀ (genre : String) (count : Nat) (mediaType : String) (e : JsError),
      generate (genrePrompt genre count mediaType) = .error e →
      getGenreRecommendations toLowerCase (some generate) genre count mediaType =
        getGenreRecommendations toLowerCase none genre count mediaType) ∧
    (∀ (title : Option String) (genres : Option (List String)) (synopsis : Option String)
      (count : Nat) (e : JsError),
      generate (similarityPrompt title genres synopsis count) = .error e →
      getSimilarityRecommendations toLowerCase (some generate) title genres synopsis count =
        getSimilarityRecommendations toLowerCase none title genres synopsis count) := by
  refine ⟨?_, ?_⟩
  · intro genre count mediaType e h
    simp [getGenreRecommendations, h]
  · intro title genres synopsis count e h
    simp [getSimilarityRecommendations, h]

/-- C11 with a backend whose every call fails: the genre "Horror" still yields
the horror bucket and the genres of a horror film the same bucket. -/
theorem generation_failure_falls_back_witness :
    getGenreRecommendations asciiLower (some failingModel) "Horror" 20 "movies and TV shows" =
        getGenreRecommendations asciiLower none "Horror" 20 "movies and TV shows" ∧
      getSimilarityRecommendations asciiLower (some failingModel) (some "Get Out")
          (some ["Horror"]) none 20 =
        getSimilarityRecommendations asciiLower none (some "Get Out") (some ["Horror"]) none 20 :=
  ⟨(generation_failure_falls_back asciiLower failingModel).1 "Horror" 20 "movies and TV shows"
      { message := some "fetch failed", stack := none } rfl,
    (generation_failure_falls_back asciiLower failingModel).2 (some "Get Out") (some ["Horror"])
      none 20 { message := some "fetch failed", stack := none } rfl⟩

/-- C12 (the code at the failing input): a text with CRLF line ends, whose first
line is a quoted title followed by a carriage return, is cleaned to a title that
still ends in a quote; cleaning the cleaned titles, joined one per line, removes
that quote, so the second cleaning does not return the first result. -/
theorem cleanTitles_not_idempotent :
    cleanTitles (some "\"The Matrix\"\r\n\"Alien\"") = ["The Matrix\"", "Alien"] ∧
    cleanTitles (some (joinLines (cleanTitles (some "\"The Matrix\"\r\n\"Alien\"")))) =
      ["The Matrix", "Alien"] ∧
    cleanTitles (some (joinLines (cleanTitles (some "\"The Matrix\"\r\n\"Alien\"")))) ≠
      cleanTitles (some "\"The Matrix\"\r\n\"Alien\"") := by
  decide

/-- C13: `cleanTitles` equals the reference: split on line breaks, remove from
each line the maximal leading run of digits, `*`, `-`, `.`, whitespace and
quotes and the maximal trailing run of quotes, trim, drop the lines that became
empty. The line `3. "The Matrix"` yields `The Matrix`, a line of three spaces is
dropped, and the empty and the absent text yield the empty list. -/
theorem cleanTitles_eq_reference :
    (∀ text : Option String, cleanTitles text = referenceCleanTitles text) ∧
    cleanTitles (some "3. \"The Matrix\"") = ["The Matrix"] ∧
    cleanTitles (some "   ") = [] ∧
    cleanTitles (some "Alien\n   \nSe7en") = ["Alien", "Se7en"] ∧
    cleanTitles (some "") = [] ∧
    cleanTitles none = [] := by
  refine ⟨?_, by decide, by decide, by decide, by decide, by decide⟩
  intro text
  cases text with
  | none => rfl
  | some t =>
    rw [cleanTitles_some, referenceCleanTitles, List.map_congr_left (fun l _ => cleanLine_eq l)]
    congr 1
    apply List.filter_congr
    intro l _
    cases l <;> simp

theorem trimChars_head_not_whitespace (x : List Char) (c : Char)
    (h : (trimChars x).head? = some c) : isJsWhitespace c = false := by
  rw [trimChars_eq] at h
  obtain ⟨r, hr⟩ : (x.dropWhile isJsWhitespace).rdropWhile isJsWhitespace <+:
      x.dropWhile isJsWhitespace := List.rdropWhile_prefix _ _
  obtain ⟨l, hl⟩ := List.head?_eq_some_iff.1 h
  have hd := List.head?_dropWhile_not isJsWhitespace x
  rw [← hr, hl] at hd
  simpa using hd

theorem trimChars_last_not_whitespace (x : List Char) (c : Char)
    (h : (trimChars x).getLast? = some c) : isJsWhitespace c = false := by
  rw [trimChars_eq] at h
  have hne : (x.dropWhile isJsWhitespace).rdropWhile isJsWhitespace ≠ [] := by
    intro h0
    rw [h0] at h
    simp at h
  have hlast := List.rdropWhile_last_not isJsWhitespace (x.dropWhile isJsWhitespace) hne
  rw [List.getLast?_eq_getLast _ hne] at h
  cases h
  simpa using hlast

/-- C14: every string returned by `cleanTitles` is non-empty and neither starts
nor ends with whitespace; there are at most as many of them as the text has
lines, and they are, in order, a sublist of the cleaned lines of the text. An
absent text yields no string. -/
theorem cleanTitles_invariants (text : Option String) :
    (∀ s ∈ cleanTitles text,
      s ≠ "" ∧
      (∀ c, s.data.head? = some c → isJsWhitespace c = false) ∧
      (∀ c, s.data.getLast? = some c → isJsWhitespace c = false)) ∧
    (∀ t : String, text = some t →
      (cleanTitles text).length ≤ (splitLines t.data).length ∧
      List.Sublist (cleanTitles text)
        ((splitLines t.data).map fun l => String.mk (trimChars (replaceCleaningRegex l)))) ∧
    (text = none → cleanTitles text = []) := by
  refine ⟨?_, ?_, ?_⟩
  · intro s hs
    cases text with
    | none => simp [cleanTitles] at hs
    | some t =>
      rw [cleanTitles_some] at hs
      obtain ⟨l, hl, rfl⟩ := List.mem_map.1 hs
      obtain ⟨hmem, hne⟩ := List.mem_filter.1 hl
      obtain ⟨x, _, rfl⟩ := List.mem_map.1 hmem
      refine ⟨?_, ?_, ?_⟩
      · intro h0
        have h1 : (String.mk (trimChars (replaceCleaningRegex x))).data = "".data := by rw [h0]
        have h2 : trimChars (replaceCleaningRegex x) = [] := h1
        rw [h2] at hne
        simp at hne
      · intro c hc
        exact trimChars_head_not_whitespace _ c hc
      · intro c hc
        exact trimChars_last_not_whitespace _ c hc
  · intro t ht
    subst ht
    have hsub : List.Sublist (cleanTitles (some t))
        ((splitLines t.data).map fun l => String.mk (trimChars (replaceCleaningRegex l))) := by
      have hmap : ((splitLines t.data).map fun l =>
          String.mk (trimChars (replaceCleaningRegex l))) =
          ((splitLines t.data).map fun l => trimChars (replaceCleaningRegex l)).map String.mk := by
        rw [List.map_map]
        rfl
      rw [cleanTitles_some, hmap]
      exact (List.filter_sublist _).map _
    refine ⟨?_, hsub⟩
    have := hsub.length_le
    simpa using this
  · intro h
    subst h
    rfl

/-- C14 at a concrete text of six lines: four titles are returned, none empty,
none with whitespace at either end. -/
theorem cleanTitles_invariants_witness :
    cleanTitles (some "1. Alien \n\n - Se7en\n   \n\"Heat\"\n* Up") =
        ["Alien", "Se7en", "Heat", "Up"] ∧
      (splitLines "1. Alien \n\n - Se7en\n   \n\"Heat\"\n* Up".data).length = 6 ∧
      (cleanTitles (some "1. Alien \n\n - Se7en\n   \n\"Heat\"\n* Up")).length ≤
        (splitLines "1. Alien \n\n - Se7en\n   \n\"Heat\"\n* Up".data).length ∧
      "Alien" ≠ "" :=
  ⟨by decide, by decide,
    ((cleanTitles_invariants (some "1. Alien \n\n - Se7en\n   \n\"Heat\"\n* Up")).2.1
      "1. Alien \n\n - Se7en\n   \n\"Heat\"\n* Up" rfl).1,
    ((cleanTitles_invariants (some "1. Alien \n\n - Se7en\n   \n\"Heat\"\n* Up")).1
      "Alien" (by decide)).1⟩

theorem isMovieOrTv_iff (r : RawResult) :
    isMovieOrTv r = true ↔ r.media_type = "movie" ∨ r.media_type = "tv" := by
  simp [isMovieOrTv]

/-- The result and the state of `searchMedia` when the lookup yields `null` and
the request succeeds with the body `data`. -/
theorem searchMedia_of_miss_ok (toLowerCase : String → String) (w : World) (s : State)
    (query : String) (data : SearchData)
    (hmiss : (getFromCache s (getCacheKey toLowerCase "search" query)).1 = none)
    (hok : w.search s.requests.length query = .ok data) :
    searchMedia toLowerCase w s query =
      ((data.results.bind fun rs => rs.find? isMovieOrTv).map simplifiedResult,
        setInCache
          { (getFromCache s (getCacheKey toLowerCase "search" query)).2 with
            requests := s.requests ++ [Request.search query]
            now := s.now + w.latency s.requests.length }
          (getCacheKey toLowerCase "search" query)
          ((data.results.bind fun rs => rs.find? isMovieOrTv).map simplifiedResult)) := by
  have hreq := getFromCache_requests s (getCacheKey toLowerCase "search" query)
  have hnow := getFromCache_now s (getCacheKey toLowerCase "search" query)
  rcases hg : getFromCache s (getCacheKey toLowerCase "search" query) with ⟨c, s1⟩
  rw [hg] at hmiss hreq hnow
  simp only at hmiss hreq hnow
  subst hmiss
  simp only [searchMedia, hg, hreq, hnow, hok]
  cases hfind : data.results.bind fun rs => rs.find? isMovieOrTv <;> simp

/-- The result and the state of `searchMedia` when the lookup yields `null` and
the request fails. -/
theorem searchMedia_of_miss_failure (toLowerCase : String → String) (w : World) (s : State)
    (query : String)
    (hmiss : (getFromCache s (getCacheKey toLowerCase "search" query)).1 = none)
    (hfail : ∀ data, w.search s.requests.length query ≠ .ok data) :
    searchMedia toLowerCase w s query =
      (none,
        { (getFromCache s (getCacheKey toLowerCase "search" query)).2 with
          requests := s.requests ++ [Request.search query]
          now := s.now + w.latency s.requests.length }) := by
  have hreq := getFromCache_requests s (getCacheKey toLowerCase "search" query)
  have hnow := getFromCache_now s (getCacheKey toLowerCase "search" query)
  rcases hg : getFromCache s (getCacheKey toLowerCase "search" query) with ⟨c, s1⟩
  rw [hg] at hmiss hreq hnow
  simp only at hmiss hreq hnow
  subst hmiss
  simp only [searchMedia, hg, hreq, hnow]
  cases hw : w.search s.requests.length query with
  | rejected m => rfl
  | notOk st tx => rfl
  | bodyThrows m => rfl
  | ok data => exact absurd hw (hfail data)

/-- C15: on a cache miss with a successful search response, `searchMedia`
returns the normalized form of the first entry of `results` whose media_type is
movie or tv, whatever entries of other types precede it: id, media_type,
poster_path, overview and vote_average are the entry's, title is its title
unless that is absent or empty and then its name, release_date likewise its
release_date or else its first_air_date; the record is stored under the
title's key with the full TTL. The result is null exactly when `results` has no
movie or tv entry. -/
theorem searchMedia_miss_success (toLowerCase : String → String) (w : World) (s : State)
    (query : String) (data : SearchData)
    (hmiss : (getFromCache s (getCacheKey toLowerCase "search" query)).1 = none)
    (hok : w.search s.requests.length query = .ok data) :
    (∀ (before after : List RawResult) (r : RawResult),
      data.results = some (before ++ r :: after) →
      (∀ x ∈ before, x.media_type ≠ "movie" ∧ x.media_type ≠ "tv") →
      (r.media_type = "movie" ∨ r.media_type = "tv") →
      ∃ m : Media,
        (searchMedia toLowerCase w s query).1 = some m ∧
        m.id = r.id ∧ m.media_type = r.media_type ∧ m.poster_path = r.poster_path ∧
        m.overview = r.overview ∧ m.vote_average = r.vote_average ∧
        (∀ t, r.title = some t → t ≠ "" → m.title = some t) ∧
        (r.title = none ∨ r.title = some "" → m.title = r.name) ∧
        (∀ d, r.release_date = some d → d ≠ "" → m.release_date = some d) ∧
        (r.release_date = none ∨ r.release_date = some "" → m.release_date = r.first_air_date) ∧
        mapGet (searchMedia toLowerCase w s query).2.cache
            (getCacheKey toLowerCase "search" query) =
          some { value := some m, expiry := s.now + w.latency s.requests.length + CACHE_TTL }) ∧
    ((searchMedia toLowerCase w s query).1 = none ↔
      ∀ rs, data.results = some rs → ∀ x ∈ rs, x.media_type ≠ "movie" ∧ x.media_type ≠ "tv") := by
  rw [searchMedia_of_miss_ok toLowerCase w s query data hmiss hok]
  refine ⟨?_, ?_⟩
  · intro before after r hres hbefore hr
    have hfind : (before ++ r :: after).find? isMovieOrTv = some r := by
      rw [List.find?_eq_some]
      refine ⟨(isMovieOrTv_iff r).2 hr, before, after, rfl, ?_⟩
      intro a ha
      have := hbefore a ha
      simp [isMovieOrTv, this.1, this.2]
    refine ⟨simplifiedResult r, ?_, rfl, rfl, rfl, rfl, rfl, ?_, ?_, ?_, ?_, ?_⟩
    · simp [hres, hfind]
    · intro t ht hne
      simp [simplifiedResult, orElseStr, ht, hne]
    · rintro (h | h) <;> simp [simplifiedResult, orElseStr, h]
    · intro d hd hne
      simp [simplifiedResult, orElseStr, hd, hne]
    · rintro (h | h) <;> simp [simplifiedResult, orElseStr, h]
    · simp [hres, hfind, setInCache, mapGet_mapSet]
  · simp only [Option.map_eq_none']
    cases hres : data.results with
    | none => simp
    | some rs =>
      simp only [Option.some_bind, List.find?_eq_none, Option.some.injEq, forall_eq']
      constructor
      · intro h x hx
        have := h x hx
        simpa [isMovieOrTv] using this
      · intro h x hx
        have := h x hx
        simp [isMovieOrTv, this.1, this.2]

/-- C15 at a response that lists a person, then the film of id 603, then a show:
the film is returned. -/
theorem searchMedia_miss_success_witness :
    ∃ m : Media,
      (searchMedia asciiLower matrixWorld freshState "The Matrix").1 = some m ∧
      m.id = matrixResult.id ∧ m.media_type = matrixResult.media_type ∧
      m.poster_path = matrixResult.poster_path ∧
      m.overview = matrixResult.overview ∧ m.vote_average = matrixResult.vote_average ∧
      (∀ t, matrixResult.title = some t → t ≠ "" → m.title = some t) ∧
      (matrixResult.title = none ∨ matrixResult.title = some "" → m.title = matrixResult.name) ∧
      (∀ d, matrixResult.release_date = some d → d ≠ "" → m.release_date = some d) ∧
      (matrixResult.release_date = none ∨ matrixResult.release_date = some "" →
        m.release_date = matrixResult.first_air_date) ∧
      mapGet (searchMedia asciiLower matrixWorld freshState "The Matrix").2.cache
          (getCacheKey asciiLower "search" "The Matrix") =
        some { value := some m,
               expiry := freshState.now + matrixWorld.latency freshState.requests.length +
                 CACHE_TTL } :=
  (searchMedia_miss_success asciiLower matrixWorld freshState "The Matrix"
    { results := some [personResult, matrixResult, showResult] } (by decide) rfl).1
    [personResult] [showResult] matrixResult rfl (by decide) (by decide)

/-- C16: when the search request fails (the request rejects, the status is not
OK, or the body cannot be read), `searchMedia` returns null and writes nothing
to the cache: the cache is the one the lookup left, in which the title's key has
no entry that stores a record; so the next `searchMedia` for the same title, at
whatever time, issues a new request. -/
theorem searchMedia_failure_not_cached (toLowerCase : String → String) (w : World) (s : State)
    (query : String) (hwf : s.WellFormed)
    (hmiss : (getFromCache s (getCacheKey toLowerCase "search" query)).1 = none)
    (hfail : (∃ m, w.search s.requests.length query = .rejected m) ∨
      (∃ st tx, w.search s.requests.length query = .notOk st tx) ∨
      (∃ m, w.search s.requests.length query = .bodyThrows m)) :
    (searchMedia toLowerCase w s query).1 = none ∧
    (searchMedia toLowerCase w s query).2.cache =
      (getFromCache s (getCacheKey toLowerCase "search" query)).2.cache ∧
    (∀ e, mapGet (searchMedia toLowerCase w s query).2.cache
        (getCacheKey toLowerCase "search" query) = some e → e.value = none) ∧
    (∀ t : Nat,
      (searchMedia toLowerCase w
        { (searchMedia toLowerCase w s query).2 with now := t } query).2.requests =
        s.requests ++ [Request.search query, Request.search query]) := by
  have hne : ∀ data, w.search s.requests.length query ≠ .ok data := by
    intro data h
    rcases hfail with ⟨m, hm⟩ | ⟨st, tx, hm⟩ | ⟨m, hm⟩ <;> rw [hm] at h <;> cases h
  have hentry := getFromCache_null_entry s _ hwf hmiss
  rw [searchMedia_of_miss_failure toLowerCase w s query hmiss hne]
  refine ⟨rfl, rfl, hentry, ?_⟩
  intro t
  rw [searchMedia_requests_of_null_lookup]
  · simp
  · exact getFromCache_of_null_entry _ _ hentry

/-- C16 at a service that answers 503: two calls in a row issue two requests and
the cache stays empty. -/
theorem searchMedia_failure_not_cached_witness :
    (searchMedia asciiLower unavailableWorld freshState "Alien").1 = none ∧
      (searchMedia asciiLower unavailableWorld freshState "Alien").2.cache = [] ∧
      (searchMedia asciiLower unavailableWorld
        { (searchMedia asciiLower unavailableWorld freshState "Alien").2 with now := 1000 }
        "Alien").2.requests = [Request.search "Alien", Request.search "Alien"] :=
  ⟨(searchMedia_failure_not_cached asciiLower unavailableWorld freshState "Alien"
      (by decide) (by decide) (Or.inr (Or.inl ⟨503, "Service Unavailable", rfl⟩))).1,
    (searchMedia_failure_not_cached asciiLower unavailableWorld freshState "Alien"
      (by decide) (by decide) (Or.inr (Or.inl ⟨503, "Service Unavailable", rfl⟩))).2.1,
    (searchMedia_failure_not_cached asciiLower unavailableWorld freshState "Alien"
      (by decide) (by decide) (Or.inr (Or.inl ⟨503, "Service Unavailable", rfl⟩))).2.2.2 1000⟩

/-- C17: `getMediaDetails` returns null with the state untouched (no request, the
cache as it was) exactly when the id is absent or zero or the media type is not
exactly movie or tv; for a present id and one of the two types it looks the key
up in the cache, returns a cached record, and on a miss issues the detail
request. -/
theorem getMediaDetails_validation (toLowerCase : String → String) (w : World) (s : State)
    (id : Option Int) (media_type : Option String) :
    (getMediaDetails toLowerCase w s id media_type = (none, s) ↔
      InvalidDetailsArgs id media_type) ∧
    (∀ (i : Int) (mt : String), id = some i → i ≠ 0 → media_type = some mt →
      (mt = "movie" ∨ mt = "tv") →
      (∀ cached : Media,
        (getFromCache s (getCacheKey toLowerCase ("details_" ++ mt) (toString i))).1 =
          some cached →
        getMediaDetails toLowerCase w s id media_type =
          (some cached,
            (getFromCache s (getCacheKey toLowerCase ("details_" ++ mt) (toString i))).2)) ∧
      ((getFromCache s (getCacheKey toLowerCase ("details_" ++ mt) (toString i))).1 = none →
        (getMediaDetails toLowerCase w s id media_type).2.requests =
          s.requests ++ [Request.details mt i])) := by
  have hvalid : ∀ (i : Int) (mt : String), id = some i → i ≠ 0 → media_type = some mt →
      (mt = "movie" ∨ mt = "tv") →
      (∀ cached : Media,
        (getFromCache s (getCacheKey toLowerCase ("details_" ++ mt) (toString i))).1 =
          some cached →
        getMediaDetails toLowerCase w s id media_type =
          (some cached,
            (getFromCache s (getCacheKey toLowerCase ("details_" ++ mt) (toString i))).2)) ∧
      ((getFromCache s (getCacheKey toLowerCase ("details_" ++ mt) (toString i))).1 = none →
        (getMediaDetails toLowerCase w s id media_type).2.requests =
          s.requests ++ [Request.details mt i]) := by
    intro i mt hid hi hmt hty
    subst hid hmt
    have hcond : ¬ (i = 0 ∨ mt = "" ∨ (mt ≠ "movie" ∧ mt ≠ "tv")) := by
      rintro (h | h | ⟨h1, h2⟩)
      · exact hi h
      · rcases hty with h3 | h3 <;> rw [h3] at h <;> exact absurd h (by decide)
      · rcases hty with h3 | h3
        · exact h1 h3
        · exact h2 h3
    have hreq := getFromCache_requests s (getCacheKey toLowerCase ("details_" ++ mt) (toString i))
    rcases hg : getFromCache s (getCacheKey toLowerCase ("details_" ++ mt) (toString i))
      with ⟨c, s1⟩
    rw [hg] at hreq
    simp only at hreq
    refine ⟨?_, ?_⟩
    · intro cached hc
      simp only at hc
      subst hc
      simp only [getMediaDetails, hcond, if_false, hg]
    · intro hc
      simp only at hc
      subst hc
      simp only [getMediaDetails, hcond, if_false, hg]
      cases hw : w.details s1.requests.length mt i <;> simp [setInCache, hreq]
  refine ⟨?_, hvalid⟩
  constructor
  · intro h
    by_contra hinv
    simp only [InvalidDetailsArgs, not_or, not_and_or, not_not] at hinv
    obtain ⟨h1, h2, h3⟩ := hinv
    cases id with
    | none => exact h1 rfl
    | some i =>
      have hi : i ≠ 0 := fun h0 => h2 (by rw [h0])
      have hmt : ∃ mt, media_type = some mt ∧ (mt = "movie" ∨ mt = "tv") := by
        rcases h3 with h3 | h3
        · exact ⟨"movie", h3, Or.inl rfl⟩
        · exact ⟨"tv", h3, Or.inr rfl⟩
      obtain ⟨mt, hmt, hty⟩ := hmt
      obtain ⟨hhit, hmissreq⟩ := hvalid i mt rfl hi hmt hty
      cases hc : (getFromCache s (getCacheKey toLowerCase ("details_" ++ mt) (toString i))).1 with
      | some cached =>
        rw [hhit cached hc] at h
        cases h
      | none =>
        have := hmissreq hc
        rw [h] at this
        simp at this
  · rintro (h | h | ⟨h1, h2⟩)
    · subst h
      rfl
    · subst h
      cases media_type <;> simp [getMediaDetails]
    · cases id with
      | none => rfl
      | some i =>
        cases media_type with
        | none => rfl
        | some mt =>
          have h1' : mt ≠ "movie" := fun h => h1 (by rw [h])
          have h2' : mt ≠ "tv" := fun h => h2 (by rw [h])
          simp [getMediaDetails, h1', h2']

/-- C17 at concrete arguments: the id 0 short-circuits; the id 603 of a movie on
a fresh cache issues the detail request. -/
theorem getMediaDetails_validation_witness :
    getMediaDetails asciiLower unavailableWorld freshState (some 0) (some "movie") =
        (none, freshState) ∧
      (getMediaDetails asciiLower unavailableWorld freshState (some 603)
        (some "movie")).2.requests = freshState.requests ++ [Request.details "movie" 603] :=
  ⟨((getMediaDetails_validation asciiLower unavailableWorld freshState (some 0)
      (some "movie")).1).2 (Or.inr (Or.inl rfl)),
    ((getMediaDetails_validation asciiLower unavailableWorld freshState (some 603)
      (some "movie")).2 603 "movie" rfl (by decide) rfl (Or.inl rfl)).2 (by decide)⟩

/-- C18: after `setInCache(k, v)` at time t, in every later state whose entry for
k is still the one written, `getFromCache(k)` returns v and leaves the state as
it is when the clock is before t + 600000; from t + 600000 on it returns null
and deletes the entry for k, leaving the other keys as they were. -/
theorem cache_entry_lifetime (s s2 : State) (k : String) (v : Media)
    (hwf : s2.WellFormed)
    (hkeep : mapGet s2.cache k = mapGet (setInCache s k (some v)).cache k) :
    (s2.now < s.now + 600000 → getFromCache s2 k = (some v, s2)) ∧
    (s.now + 600000 ≤ s2.now →
      (getFromCache s2 k).1 = none ∧
      mapGet (getFromCache s2 k).2.cache k = none ∧
      ∀ key, key ≠ k → mapGet (getFromCache s2 k).2.cache key = mapGet s2.cache key) := by
  have hentry : mapGet s2.cache k = some { value := some v, expiry := s.now + 600000 } := by
    rw [hkeep]
    simp [setInCache, mapGet_mapSet, CACHE_TTL]
  refine ⟨?_, ?_⟩
  · intro hlt
    simp [getFromCache, hentry, hlt]
  · intro hge
    have hnot : ¬ s2.now < s.now + 600000 := Nat.not_lt.2 hge
    simp only [getFromCache, hentry, hnot, if_false]
    refine ⟨trivial, mapGet_mapDelete_self _ _ hwf, ?_⟩
    intro key hne
    exact mapGet_mapDelete_ne _ _ _ hne

/-- C18 for a record written at time 0: at 599999 ms it is returned, at 600000 ms
the lookup yields null and the entry is gone. -/
theorem cache_entry_lifetime_witness :
    getFromCache
        { setInCache freshState "search_alien" (some (mediaOf 348 "Alien" "movie")) with
          now := 599999 } "search_alien" =
      (some (mediaOf 348 "Alien" "movie"),
        { setInCache freshState "search_alien" (some (mediaOf 348 "Alien" "movie")) with
          now := 599999 }) ∧
    ((getFromCache
        { setInCache freshState "search_alien" (some (mediaOf 348 "Alien" "movie")) with
          now := 600000 } "search_alien").1 = none ∧
      mapGet (getFromCache
        { setInCache freshState "search_alien" (some (mediaOf 348 "Alien" "movie")) with
          now := 600000 } "search_alien").2.cache "search_alien" = none) :=
  ⟨(cache_entry_lifetime freshState
      { setInCache freshState "search_alien" (some (mediaOf 348 "Alien" "movie")) with
        now := 599999 } "search_alien" (mediaOf 348 "Alien" "movie") (by decide) rfl).1
      (by decide),
    ⟨((cache_entry_lifetime freshState
      { setInCache freshState "search_alien" (some (mediaOf 348 "Alien" "movie")) with
        now := 600000 } "search_alien" (mediaOf 348 "Alien" "movie") (by decide) rfl).2
      (by decide)).1,
     ((cache_entry_lifetime freshState
      { setInCache freshState "search_alien" (some (mediaOf 348 "Alien" "movie")) with
        now := 600000 } "search_alien" (mediaOf 348 "Alien" "movie") (by decide) rfl).2
      (by decide)).2.1⟩⟩

theorem pairwise_getElem?_lt {α : Type} (R : α → α → Prop) (l : List α) (h : l.Pairwise R)
    (i j : Nat) (a b : α) (hi : l[i]? = some a) (hj : l[j]? = some b) (hij : i < j) :
    R a b := by
  obtain ⟨hi1, hi2⟩ := List.getElem?_eq_some.1 hi
  obtain ⟨hj1, hj2⟩ := List.getElem?_eq_some.1 hj
  have := List.pairwise_iff_getElem.1 h i j hi1 hj1 hij
  rwa [hi2, hj2] at this

/-- C19, refuted as stated: the output is not always in non-increasing order of
the exact value of the formula. Two candidates rated 5 and released in 2020, one
with popularity 0.5000000000000001 (the double 1/2 + 2^-53) and 100 votes, the
other with popularity 0 and 200 votes: the exact value of the formula is
strictly higher for the first, the rounding of the double arithmetic makes its
computed score the lower one, and `fetchSimilarMedia` returns it after the
second. -/
theorem fetchSimilarMedia_exact_order_refuted :
    referenceScore 2025 2020 (candidate 2 5 0 200) <
      referenceScore 2025 2020
        (candidate 1 5 (4503599627370497 / 9007199254740992) 100) ∧
    releaseYear env2025 (candidate 1 5 (4503599627370497 / 9007199254740992) 100) =
      some 2020 ∧
    releaseYear env2025 (candidate 2 5 0 200) = some 2020 ∧
    rankedItems env2025
        [candidate 1 5 (4503599627370497 / 9007199254740992) 100, candidate 2 5 0 200] =
      [candidate 2 5 0 200, candidate 1 5 (4503599627370497 / 9007199254740992) 100] ∧
    (fetchSimilarMedia env2025 { id := 7, title := none, media_type := none }
        (.ok { results := some [] })
        (.ok { results := some [candidate 1 5 (4503599627370497 / 9007199254740992) 100,
          candidate 2 5 0 200] })).map (fun r => r.id) = [2, 1] := by
  have hranked : rankedItems env2025
      [candidate 1 5 (4503599627370497 / 9007199254740992) 100, candidate 2 5 0 200] =
      [candidate 2 5 0 200, candidate 1 5 (4503599627370497 / 9007199254740992) 100] := by
    rw [rankedItems_pair env2025 _ _ _ _ (score_near_half 1) (score_no_popularity 2),
      if_neg (by norm_num)]
  refine ⟨?_, rfl, rfl, hranked, ?_⟩
  · simp only [referenceScore, candidate, Option.getD_some]
    norm_num
  · rw [fetchSimilarMedia_of_merged env2025 { id := 7, title := none, media_type := none }
      (.ok { results := some [] })
      (.ok { results := some [candidate 1 5 (4503599627370497 / 9007199254740992) 100,
        candidate 2 5 0 200] })
      [candidate 1 5 (4503599627370497 / 9007199254740992) 100, candidate 2 5 0 200] rfl,
      hranked]
    rfl

/-- C19: for every merged list whose items all have a finite computed score
(their dates parse and no operation overflows), `fetchSimilarMedia` returns the
records of min(30, n) of its n items in non-increasing order of the score as the
comparator computes it; the items left out make up the merged list together with
the returned ones and none of them has a higher computed score than a returned
one. The computed score of an item of release year y is vote_average*5 +
popularity*0.3 + min(vote_count, 1000)/1000*1.5 - max(0, currentYear - y)*0.05
evaluated from left to right in double arithmetic, each operation and the
literals 0.3 and 0.05 rounded to the nearest double, with missing numbers
counted as 0; y is the year of release_date, else of first_air_date, else the
current year. For a candidate rated 8 with popularity 10 and 500 votes, released
five years ago, the computed score is the exact value 43.5 of the formula. An
empty merged list yields the empty list. -/
theorem fetchSimilarMedia_ranking (env : DateEnv) (media : MediaRef)
    (similar recommendations : FetchOutcome RelatedData) (merged : List RelatedItem)
    (hmerged : mergedResults similar recommendations = some merged)
    (hfinite : ∀ a ∈ merged, ∃ s, score env a = .finite s) :
    fetchSimilarMedia env media similar recommendations =
        (rankedItems env merged).map
          (toSimilarRecord env ((orElseStr media.media_type none).getD "movie")) ∧
    (fetchSimilarMedia env media similar recommendations).length = min 30 merged.length ∧
    (rankedItems env merged).Pairwise (fun a b => scoreOf env b ≤ scoreOf env a) ∧
    (∃ omitted : List RelatedItem,
      (rankedItems env merged ++ omitted).Perm merged ∧
      ∀ c ∈ rankedItems env merged, ∀ o ∈ omitted, scoreOf env o ≤ scoreOf env c) ∧
    (∀ a ∈ merged, ∀ year, releaseYear env a = some year →
      score env a =
        ((((JsNumber.finite (a.vote_average.getD 0)).mul (.finite 5)).add
            ((JsNumber.finite (a.popularity.getD 0)).mul (toNumber (3 / 10)))).add
            ((toNumber (min (a.vote_count.getD 0) 1000 / 1000)).mul (.finite (3 / 2)))).sub
          ((toNumber ((max 0 (env.currentYear - year) : Int) : Rat)).mul
            (toNumber (1 / 20)))) ∧
    (∀ a : RelatedItem,
      (∀ d, a.release_date = some d → d ≠ "" → releaseYear env a = env.yearOf d) ∧
      (∀ d, (a.release_date = none ∨ a.release_date = some "") →
        a.first_air_date = some d → d ≠ "" → releaseYear env a = env.yearOf d) ∧
      ((a.release_date = none ∨ a.release_date = some "") →
        (a.first_air_date = none ∨ a.first_air_date = some "") →
        releaseYear env a = some env.currentYear)) ∧
    score env2025 (candidate 4 8 10 500) =
      .finite (referenceScore 2025 2020 (candidate 4 8 10 500)) ∧
    (merged = [] → fetchSimilarMedia env media similar recommendations = []) := by
  have hout := fetchSimilarMedia_of_merged env media similar recommendations merged hmerged
  have hsorted := sorted_pairwise env merged hfinite
  refine ⟨hout, ?_, hsorted.take, ?_, ?_, ?_, ?_, ?_⟩
  · rw [hout, List.length_map, rankedItems, List.length_take, (jsSort_perm _ merged).length_eq]
  · refine ⟨(jsSort (compareFn env) merged).drop 30, ?_, ?_⟩
    · rw [rankedItems, List.take_append_drop]
      exact jsSort_perm _ merged
    · intro c hc o ho
      have hsplit := hsorted
      rw [← List.take_append_drop 30 (jsSort (compareFn env) merged), List.pairwise_append]
        at hsplit
      exact hsplit.2.2 c hc o ho
  · intro a _ year hyear
    simp only [score, hyear, orZero, divide]
  · intro a
    refine ⟨?_, ?_, ?_⟩
    · intro d hd hne
      simp [releaseYear, orElseStr, hd, hne]
    · rintro d (h | h) hf hne <;> simp [releaseYear, orElseStr, h, hf, hne]
    · rintro (h | h) (hf | hf) <;> simp [releaseYear, orElseStr, h, hf]
  · rw [score_eight 4]
    congr 1
    simp only [referenceScore, candidate, Option.getD_some]
    norm_num
  · intro hnil
    rw [hout, hnil]
    rfl

/-- C19 at two responses that share the item of id 2: the three merged items
have finite scores, all are returned, and they stand in non-increasing order of
computed score. -/
theorem fetchSimilarMedia_ranking_witness :
    (fetchSimilarMedia env2025 { id := 1, title := none, media_type := none }
        (.ok { results := some [candidate 2 4 10 500, candidate 3 9 1 1] })
        (.ok { results := some [candidate 2 4 10 500, candidate 4 8 10 500] })).length =
      min 30 [candidate 2 4 10 500, candidate 4 8 10 500, candidate 3 9 1 1].length ∧
    (rankedItems env2025 [candidate 2 4 10 500, candidate 4 8 10 500,
        candidate 3 9 1 1]).Pairwise (fun a b => scoreOf env2025 b ≤ scoreOf env2025 a) :=
  ⟨(fetchSimilarMedia_ranking env2025 { id := 1, title := none, media_type := none }
      (.ok { results := some [candidate 2 4 10 500, candidate 3 9 1 1] })
      (.ok { results := some [candidate 2 4 10 500, candidate 4 8 10 500] })
      [candidate 2 4 10 500, candidate 4 8 10 500, candidate 3 9 1 1]
      (by decide) (by
        intro a ha
        simp only [List.mem_cons, List.mem_singleton, List.not_mem_nil, or_false] at ha
        rcases ha with rfl | rfl | rfl
        · exact ⟨_, score_four 2⟩
        · exact ⟨_, score_eight 4⟩
        · exact ⟨_, score_nine 3⟩)).2.1,
    (fetchSimilarMedia_ranking env2025 { id := 1, title := none, media_type := none }
      (.ok { results := some [candidate 2 4 10 500, candidate 3 9 1 1] })
      (.ok { results := some [candidate 2 4 10 500, candidate 4 8 10 500] })
      [candidate 2 4 10 500, candidate 4 8 10 500, candidate 3 9 1 1]
      (by decide) (by
        intro a ha
        simp only [List.mem_cons, List.mem_singleton, List.not_mem_nil, or_false] at ha
        rcases ha with rfl | rfl | rfl
        · exact ⟨_, score_four 2⟩
        · exact ⟨_, score_eight 4⟩
        · exact ⟨_, score_nine 3⟩)).2.2.1⟩

/-- C20, refuted as stated: two candidates that are identical except for
vote_average, 8 against 4, both with popularity 1e20, have the same computed
score (the sum absorbs the term of the rating), and `fetchSimilarMedia` returns
them in the order of the merged list: the one rated 4 before the one rated 8. -/
theorem vote_average_absorbed_refuted :
    score env2025 (candidate 1 8 100000000000000000000 500) =
      score env2025 (candidate 1 4 100000000000000000000 500) ∧
    rankedItems env2025
        [candidate 1 4 100000000000000000000 500, candidate 1 8 100000000000000000000 500] =
      [candidate 1 4 100000000000000000000 500, candidate 1 8 100000000000000000000 500] ∧
    (fetchSimilarMedia env2025 { id := 7, title := none, media_type := none }
        (.ok { results := some [] })
        (.ok { results := some [candidate 1 4 100000000000000000000 500,
          candidate 1 8 100000000000000000000 500] })).map (fun r => r.rating) =
      [some 4, some 8] := by
  have hranked : rankedItems env2025
      [candidate 1 4 100000000000000000000 500, candidate 1 8 100000000000000000000 500] =
      [candidate 1 4 100000000000000000000 500,
        candidate 1 8 100000000000000000000 500] := by
    rw [rankedItems_pair env2025 _ _ _ _ (score_four_huge 1) (score_eight_huge 1),
      if_pos (le_refl _)]
  refine ⟨?_, hranked, ?_⟩
  · rw [score_eight_huge 1, score_four_huge 1]
  · rw [fetchSimilarMedia_of_merged env2025 { id := 7, title := none, media_type := none }
      (.ok { results := some [] })
      (.ok { results := some [candidate 1 4 100000000000000000000 500,
        candidate 1 8 100000000000000000000 500] })
      [candidate 1 4 100000000000000000000 500, candidate 1 8 100000000000000000000 500] rfl,
      hranked]
    rfl

/-- C20: of two candidates with finite computed scores that are identical except
for vote_average, the one with the strictly higher vote_average has a computed
score that is at least as high; when its computed score is strictly higher, then
in the ranked items of every merged list (of finite scores), hence in the output
of `fetchSimilarMedia`, each of its occurrences stands before each occurrence of
the other. With popularity 10 and 500 votes the candidate rated 8 ranks before
the candidate rated 4 also when the merged list has it second. -/
theorem vote_average_ranks_first (env : DateEnv) (a b : RelatedItem) (va vb sa sb : Rat)
    (hsame : b = { a with vote_average := some vb })
    (ha : a.vote_average = some va)
    (hhigher : vb < va)
    (hsa : score env a = .finite sa) (hsb : score env b = .finite sb) :
    sb ≤ sa ∧
    (sb < sa →
      ∀ merged : List RelatedItem,
        (∀ c ∈ merged, ∃ s, score env c = .finite s) →
        ∀ i j : Nat, (rankedItems env merged)[i]? = some b →
          (rankedItems env merged)[j]? = some a → j < i) ∧
    (sb < sa →
      ∀ (media : MediaRef) (similar recommendations : FetchOutcome RelatedData)
        (merged : List RelatedItem),
        mergedResults similar recommendations = some merged →
        (∀ c ∈ merged, ∃ s, score env c = .finite s) →
        ∀ i j : Nat, (rankedItems env merged)[i]? = some b →
          (rankedItems env merged)[j]? = some a →
          j < i ∧
          (fetchSimilarMedia env media similar recommendations)[j]? =
            some (toSimilarRecord env ((orElseStr media.media_type none).getD "movie") a) ∧
          (fetchSimilarMedia env media similar recommendations)[i]? =
            some (toSimilarRecord env ((orElseStr media.media_type none).getD "movie") b)) ∧
    score env2025 (candidate 1 4 10 500) = .finite (47 / 2) ∧
    score env2025 (candidate 1 8 10 500) = .finite (87 / 2) ∧
    rankedItems env2025 [candidate 1 4 10 500, candidate 1 8 10 500] =
      [candidate 1 8 10 500, candidate 1 4 10 500] := by
  have hmono : sb ≤ sa :=
    score_mono_vote_average env a b va vb sa sb hsame ha (le_of_lt hhigher) hsa hsb
  have hpos : sb < sa → ∀ merged : List RelatedItem,
      (∀ c ∈ merged, ∃ s, score env c = .finite s) →
      ∀ i j : Nat, (rankedItems env merged)[i]? = some b →
        (rankedItems env merged)[j]? = some a → j < i := by
    intro hlt merged hfinite i j hi hj
    have hsorted : (rankedItems env merged).Pairwise
        (fun x y => scoreOf env y ≤ scoreOf env x) := (sorted_pairwise env merged hfinite).take
    rcases Nat.lt_trichotomy i j with h | h | h
    · have := pairwise_getElem?_lt _ _ hsorted i j b a hi hj h
      simp only [scoreOf_finite hsa, scoreOf_finite hsb] at this
      exact absurd hlt (not_lt.2 this)
    · subst h
      rw [hi] at hj
      cases hj
      rw [hsa] at hsb
      cases hsb
      exact absurd hlt (lt_irrefl _)
    · exact h
  refine ⟨hmono, hpos, ?_, score_four 1, score_eight 1, ?_⟩
  · intro hlt media similar recommendations merged hmerged hfinite i j hi hj
    rw [fetchSimilarMedia_of_merged env media similar recommendations merged hmerged]
    refine ⟨hpos hlt merged hfinite i j hi hj, ?_, ?_⟩
    · rw [List.getElem?_map, hj]
      rfl
    · rw [List.getElem?_map, hi]
      rfl
  · rw [rankedItems_pair env2025 _ _ _ _ (score_four 1) (score_eight 1), if_neg (by norm_num)]

/-- C20 for the ratings 8 and 4 at popularity 10 and 500 votes: the computed
scores are 43.5 and 23.5, and wherever the two stand in the ranked items of the
list that has the candidate rated 4 first, the candidate rated 8 stands before
it. -/
theorem vote_average_ranks_first_witness :
    ((47 / 2 : Rat) ≤ 87 / 2) ∧
    ∀ i j : Nat,
      (rankedItems env2025 [candidate 1 4 10 500, candidate 1 8 10 500])[i]? =
          some (candidate 1 4 10 500) →
        (rankedItems env2025 [candidate 1 4 10 500, candidate 1 8 10 500])[j]? =
          some (candidate 1 8 10 500) → j < i :=
  ⟨(vote_average_ranks_first env2025 (candidate 1 8 10 500) (candidate 1 4 10 500) 8 4
      (87 / 2) (47 / 2) rfl rfl (by norm_num) (score_eight 1) (score_four 1)).1,
    (vote_average_ranks_first env2025 (candidate 1 8 10 500) (candidate 1 4 10 500) 8 4
      (87 / 2) (47 / 2) rfl rfl (by norm_num) (score_eight 1) (score_four 1)).2.1
      (by norm_num) [candidate 1 4 10 500, candidate 1 8 10 500]
      (by
        intro c hc
        simp only [List.mem_cons, List.mem_singleton, List.not_mem_nil, or_false] at hc
        rcases hc with rfl | rfl
        · exact ⟨_, score_four 1⟩
        · exact ⟨_, score_eight 1⟩)⟩

/-! ## Lemmas on the merge -/

theorem any_id_iff (l : List RelatedItem) (item : RelatedItem) :
    l.any (fun rec => decide (rec.id = item.id)) = true ↔ item.id ∈ l.map fun r => r.id := by
  simp only [List.any_eq_true, decide_eq_true_eq, List.mem_map]

/-- The fold of the merge, started from any accumulated list, appends the unseen
items. -/
theorem merge_fold_eq (items acc : List RelatedItem) :
    items.foldl
        (fun allResults item =>
          if allResults.any (fun rec => decide (rec.id = item.id)) then allResults
          else allResults ++ [item])
        acc =
      acc ++ appendUnseen (acc.map fun r => r.id) items := by
  induction items generalizing acc with
  | nil => simp [appendUnseen]
  | cons item rest ih =>
    rw [List.foldl_cons, ih]
    by_cases h : item.id ∈ acc.map fun r => r.id
    · have h2 := (any_id_iff acc item).2 h
      simp only [h2, if_true, appendUnseen, h]
    · have h2 : ¬ (acc.any (fun rec => decide (rec.id = item.id)) = true) :=
        fun h3 => h ((any_id_iff acc item).1 h3)
      simp [h2, appendUnseen, h]

theorem mergeResults_eq_reference (recommendations similar : List RelatedItem) :
    mergeResults recommendations (some similar) = referenceMerge recommendations similar :=
  merge_fold_eq similar recommendations

theorem appendUnseen_sublist (seen : List Int) (items : List RelatedItem) :
    List.Sublist (appendUnseen seen items) items := by
  induction items generalizing seen with
  | nil => simp [appendUnseen]
  | cons item rest ih =>
    by_cases h : item.id ∈ seen
    · simp only [appendUnseen, h, if_true]
      exact (ih seen).cons item
    · simp only [appendUnseen, h, if_false]
      exact (ih _).cons₂ item

theorem ids_appendUnseen (seen : List Int) (items : List RelatedItem) (id : Int) :
    id ∈ seen ∨ id ∈ (appendUnseen seen items).map (fun r => r.id) ↔
      id ∈ seen ∨ id ∈ items.map fun r => r.id := by
  induction items generalizing seen with
  | nil => simp [appendUnseen]
  | cons item rest ih =>
    by_cases h : item.id ∈ seen
    · simp only [appendUnseen, h, if_true, ih seen, List.map_cons, List.mem_cons]
      constructor
      · rintro (h1 | h1)
        · exact Or.inl h1
        · exact Or.inr (Or.inr h1)
      · rintro (h1 | h1 | h1)
        · exact Or.inl h1
        · exact Or.inl (h1 ▸ h)
        · exact Or.inr h1
    · have := ih (seen ++ [item.id])
      simp only [List.mem_append, List.mem_singleton] at this
      simp only [appendUnseen, h, if_false, List.map_cons, List.mem_cons]
      constructor
      · rintro (h1 | h1 | h1)
        · exact Or.inl h1
        · exact Or.inr (Or.inl h1)
        · rcases this.1 (Or.inr h1) with (h2 | h2) | h2
          · exact Or.inl h2
          · exact Or.inr (Or.inl h2)
          · exact Or.inr (Or.inr h2)
      · rintro (h1 | h1 | h1)
        · exact Or.inl h1
        · exact Or.inr (Or.inl h1)
        · rcases this.2 (Or.inr h1) with (h2 | h2) | h2
          · exact Or.inl h2
          · exact Or.inr (Or.inl h2)
          · exact Or.inr (Or.inr h2)

theorem appendUnseen_nodup (seen : List Int) (items : List RelatedItem) :
    ((appendUnseen seen items).map fun r => r.id).Nodup ∧
      ∀ id ∈ (appendUnseen seen items).map (fun r => r.id), id ∉ seen := by
  induction items generalizing seen with
  | nil => simp [appendUnseen]
  | cons item rest ih =>
    by_cases h : item.id ∈ seen
    · simp only [appendUnseen, h, if_true]
      exact ih seen
    · simp only [appendUnseen, h, if_false, List.map_cons, List.nodup_cons, List.mem_cons]
      obtain ⟨hnd, hdisj⟩ := ih (seen ++ [item.id])
      refine ⟨⟨?_, hnd⟩, ?_⟩
      · intro hmem
        exact hdisj _ hmem (by simp)
      · rintro id (rfl | hid)
        · exact h
        · intro hs
          exact hdisj id hid (List.mem_append_left _ hs)

theorem mergeResults_nodup (recommendations : List RelatedItem)
    (similar : Option (List RelatedItem))
    (h : (recommendations.map fun r => r.id).Nodup) :
    ((mergeResults recommendations similar).map fun r => r.id).Nodup := by
  cases similar with
  | none => exact h
  | some items =>
    rw [mergeResults_eq_reference, referenceMerge, List.map_append]
    obtain ⟨hnd, hdisj⟩ := appendUnseen_nodup (recommendations.map fun r => r.id) items
    refine List.Nodup.append h hnd ?_
    intro id h1 h2
    exact hdisj id h2 h1

/-! ## The claims C21 to C30 -/

theorem mergedResults_some (similar recommendations : FetchOutcome RelatedData)
    (merged : List RelatedItem) (h : mergedResults similar recommendations = some merged) :
    ∃ sd rd, relatedBody similar = some sd ∧ relatedBody recommendations = some rd ∧
      merged = mergeResults (rd.results.getD []) sd.results := by
  cases similar <;> cases recommendations <;> simp [mergedResults, relatedBody] at h ⊢ <;>
    exact h.symm

theorem ids_toSimilarRecord (env : DateEnv) (mediaType : String) (l : List RelatedItem) :
    (l.map (toSimilarRecord env mediaType)).map (fun r => r.id) = l.map fun r => r.id := by
  rw [List.map_map]
  rfl

theorem rankedItems_ids_nodup (env : DateEnv) (merged : List RelatedItem)
    (h : (merged.map fun r => r.id).Nodup) :
    ((rankedItems env merged).map fun r => r.id).Nodup := by
  have hperm : ((jsSort (compareFn env) merged).map fun r => r.id).Perm
      (merged.map fun r => r.id) := (jsSort_perm _ merged).map _
  have hnd := hperm.nodup_iff.2 h
  exact hnd.sublist ((List.take_sublist 30 _).map _)

/-- C21: the merged list built by `fetchSimilarMedia` from the recommendations R
and the similar list S is R in its order followed by the items of S, in the
order of S, whose id is neither the id of an item of R nor that of an item of S
appended earlier: the appended items are a sublist of S with pairwise distinct
ids, none of them an id of R, and every id of R or S occurs in the merged
list. -/
theorem mergeResults_contract (R S : List RelatedItem) :
    mergedResults (.ok { results := some S }) (.ok { results := some R }) =
      some (mergeResults R (some S)) ∧
    mergeResults R (some S) = referenceMerge R S ∧
    (∃ T : List RelatedItem,
      mergeResults R (some S) = R ++ T ∧ List.Sublist T S ∧
      (T.map fun r => r.id).Nodup ∧
      ∀ id ∈ T.map (fun r => r.id), id ∉ R.map fun r => r.id) ∧
    (∀ id : Int, (id ∈ R.map (fun r => r.id) ∨ id ∈ S.map fun r => r.id) ↔
      id ∈ (mergeResults R (some S)).map fun r => r.id) := by
  refine ⟨rfl, mergeResults_eq_reference R S, ?_, ?_⟩
  · refine ⟨appendUnseen (R.map fun r : RelatedItem => r.id) S, ?_, ?_, ?_, ?_⟩
    · exact mergeResults_eq_reference R S
    · exact appendUnseen_sublist _ _
    · exact (appendUnseen_nodup _ _).1
    · exact (appendUnseen_nodup _ _).2
  · intro id
    rw [mergeResults_eq_reference, referenceMerge, List.map_append, List.mem_append]
    exact (ids_appendUnseen (R.map fun r => r.id) S id).symm

/-- C22 (as stated, refuted): when the `similar` request is rejected while the
`recommendations` call succeeds with one item, the output is empty, whereas with
an empty `similar` result set the one item is returned. -/
theorem fetchSimilarMedia_rejection_aborts :
    fetchSimilarMedia env2025 { id := 1, title := none, media_type := none }
        (.rejected "network error") (.ok { results := some [candidate 2 4 10 500] }) = [] ∧
    fetchSimilarMedia env2025 { id := 1, title := none, media_type := none }
        (.ok { results := some [] }) (.ok { results := some [candidate 2 4 10 500] }) =
      [toSimilarRecord env2025 "movie" (candidate 2 4 10 500)] ∧
    fetchSimilarMedia env2025 { id := 1, title := none, media_type := none }
        (.rejected "network error") (.ok { results := some [candidate 2 4 10 500] }) ≠
      fetchSimilarMedia env2025 { id := 1, title := none, media_type := none }
        (.ok { results := some [] }) (.ok { results := some [candidate 2 4 10 500] }) := by
  have h1 : fetchSimilarMedia env2025 { id := 1, title := none, media_type := none }
      (.rejected "network error") (.ok { results := some [candidate 2 4 10 500] }) = [] := rfl
  have h2 : fetchSimilarMedia env2025 { id := 1, title := none, media_type := none }
      (.ok { results := some [] }) (.ok { results := some [candidate 2 4 10 500] }) =
      [toSimilarRecord env2025 "movie" (candidate 2 4 10 500)] := rfl
  refine ⟨h1, h2, ?_⟩
  rw [h1, h2]
  simp

/-- C22 (amended): when exactly one of the two calls gets a non-OK response while
the other succeeds, the output of `fetchSimilarMedia` is the output it produces
when that call had instead succeeded with an empty result set. -/
theorem fetchSimilarMedia_notOk_independent (env : DateEnv) (media : MediaRef)
    (status : Nat) (statusText : String) (data : RelatedData) :
    fetchSimilarMedia env media (.notOk status statusText) (.ok data) =
        fetchSimilarMedia env media (.ok { results := some [] }) (.ok data) ∧
      fetchSimilarMedia env media (.ok data) (.notOk status statusText) =
        fetchSimilarMedia env media (.ok data) (.ok { results := some [] }) :=
  ⟨rfl, rfl⟩

/-- C28: when the recommendations have pairwise distinct ids, the merged list has
pairwise distinct ids whatever the similar list is, and so has the list that
`fetchSimilarMedia` returns. -/
theorem fetchSimilarMedia_distinct_ids :
    (∀ (R : List RelatedItem) (S : Option (List RelatedItem)),
      (R.map fun r => r.id).Nodup → ((mergeResults R S).map fun r => r.id).Nodup) ∧
    (∀ (env : DateEnv) (media : MediaRef) (similar recommendations : FetchOutcome RelatedData)
      (rd : RelatedData),
      relatedBody recommendations = some rd →
      ((rd.results.getD []).map fun r => r.id).Nodup →
      ((fetchSimilarMedia env media similar recommendations).map fun r => r.id).Nodup) := by
  refine ⟨mergeResults_nodup, ?_⟩
  intro env media similar recommendations rd hrd hnd
  cases hm : mergedResults similar recommendations with
  | none => simp [fetchSimilarMedia, hm]
  | some merged =>
    obtain ⟨sd, rd2, _, hrd2, hmerged⟩ := mergedResults_some _ _ _ hm
    rw [hrd] at hrd2
    cases hrd2
    rw [fetchSimilarMedia_of_merged env media similar recommendations merged hm,
      ids_toSimilarRecord]
    apply rankedItems_ids_nodup
    rw [hmerged]
    exact mergeResults_nodup _ _ hnd

/-- C28 at a similar list that repeats the id 3 and shares the id 2 with the
recommendations: the returned ids are pairwise distinct. -/
theorem fetchSimilarMedia_distinct_ids_witness :
    ((fetchSimilarMedia env2025 { id := 1, title := none, media_type := none }
      (.ok { results := some [candidate 3 9 1 1, candidate 2 4 10 500, candidate 3 7 1 1] })
      (.ok { results := some [candidate 2 4 10 500, candidate 4 8 10 500] })).map
        fun r => r.id).Nodup :=
  fetchSimilarMedia_distinct_ids.2 env2025 { id := 1, title := none, media_type := none }
    (.ok { results := some [candidate 3 9 1 1, candidate 2 4 10 500, candidate 3 7 1 1] })
    (.ok { results := some [candidate 2 4 10 500, candidate 4 8 10 500] })
    { results := some [candidate 2 4 10 500, candidate 4 8 10 500] } rfl (by decide)

theorem mem_collectResults (searchResults : List Settled) (r : DisplayRecord) :
    r ∈ collectResults searchResults ↔
      ∃ v, Settled.fulfilled (some v) ∈ searchResults ∧ r = displayRecord v := by
  unfold collectResults
  rw [List.mem_filterMap]
  constructor
  · rintro ⟨x, hx, h⟩
    cases x with
    | fulfilled value =>
      cases value with
      | none => simp at h
      | some media =>
        simp only [Option.some.injEq] at h
        exact ⟨media, hx, h.symm⟩
    | rejected reason => simp at h
  · rintro ⟨v, hv, rfl⟩
    exact ⟨_, hv, rfl⟩

/-- Every record returned is the display record of a surviving lookup. -/
theorem mem_getRecommendationsDetails (searchMedia : Nat → String → Settled)
    (titles : List String) (r : DisplayRecord)
    (h : r ∈ getRecommendationsDetails searchMedia (some titles)) :
    ∃ (i : Nat) (t : String) (v : Media),
      titles[i]? = some t ∧ searchMedia i t = .fulfilled (some v) ∧ r = displayRecord v := by
  rw [getRecommendationsDetails_eq] at h
  obtain ⟨e, he, rfl⟩ := List.mem_map.1 h
  rcases mem_foldl_mapSet _ _ _ he with h2 | h2
  · simp at h2
  · obtain ⟨item, hitem, rfl⟩ := List.mem_map.1 h2
    obtain ⟨v, hv, rfl⟩ := (mem_collectResults _ _).1 hitem
    obtain ⟨p, hp, hpv⟩ := List.mem_map.1 hv
    exact ⟨p.1, p.2, v, List.mem_enum_iff_getElem?.1 hp, hpv, rfl⟩

/-- C23: `getPosterUrl` returns null exactly when the poster path is absent or
empty, and otherwise the base URL followed by the size (`w500` by default) and
the path; every record of `getRecommendationsDetails` carries `getPosterUrl` of
the poster path of the lookup it comes from, so an absent path gives a null
posterUrl. -/
theorem getPosterUrl_contract :
    (∀ (posterPath : Option String) (size : String),
      getPosterUrl posterPath size = none ↔ posterPath = none ∨ posterPath = some "") ∧
    (∀ (path size : String), path ≠ "" →
      getPosterUrl (some path) size = some ("https://image.tmdb.org/t/p/" ++ size ++ path)) ∧
    (∀ path : String, path ≠ "" →
      getPosterUrl (some path) = some ("https://image.tmdb.org/t/p/" ++ "w500" ++ path)) ∧
    (∀ (searchMedia : Nat → String → Settled) (titles : List String) (r : DisplayRecord),
      r ∈ getRecommendationsDetails searchMedia (some titles) →
      ∃ (i : Nat) (t : String) (v : Media),
        titles[i]? = some t ∧ searchMedia i t = .fulfilled (some v) ∧
        r.posterUrl = getPosterUrl v.poster_path ∧
        (v.poster_path = none → r.posterUrl = none)) := by
  refine ⟨?_, ?_, ?_, ?_⟩
  · intro posterPath size
    cases posterPath with
    | none => simp [getPosterUrl]
    | some p =>
      by_cases hp : p = "" <;> simp [getPosterUrl, hp]
  · intro path size hp
    simp [getPosterUrl, hp, POSTER_BASE_URL]
  · intro path hp
    simp [getPosterUrl, hp, POSTER_BASE_URL]
  · intro searchMedia titles r hr
    obtain ⟨i, t, v, hi, hv, rfl⟩ := mem_getRecommendationsDetails searchMedia titles r hr
    refine ⟨i, t, v, hi, hv, rfl, ?_⟩
    intro hnone
    simp [displayRecord, hnone, getPosterUrl]

/-- C23 at a lookup that resolves a film with a poster path: the record carries
the templated URL. -/
theorem getPosterUrl_contract_witness :
    getPosterUrl (some "/matrix.jpg") "w500" =
        some ("https://image.tmdb.org/t/p/" ++ "w500" ++ "/matrix.jpg") ∧
      ∃ (i : Nat) (t : String) (v : Media),
        ["The Matrix"][i]? = some t ∧
        (fun (_ : Nat) (_ : String) =>
          Settled.fulfilled (some (simplifiedResult showResult))) i t = .fulfilled (some v) ∧
        (displayRecord (simplifiedResult showResult)).posterUrl = getPosterUrl v.poster_path ∧
        (v.poster_path = none → (displayRecord (simplifiedResult showResult)).posterUrl = none) :=
  ⟨getPosterUrl_contract.2.1 "/matrix.jpg" "w500" (by decide),
    getPosterUrl_contract.2.2.2
      (fun _ _ => Settled.fulfilled (some (simplifiedResult showResult))) ["The Matrix"]
      (displayRecord (simplifiedResult showResult)) (by decide)⟩

/-- C24: for an argument that is an empty list, or absent or not a list,
`getRecommendationsDetails` returns the empty list (the embedding has no error
result) and starts no lookup; in general the titles it looks up are all the
titles of a non-empty list. -/
theorem getRecommendationsDetails_empty_input (searchMedia : Nat → String → Settled) :
    (∀ titles : Option (List String), titles = none ∨ titles = some [] →
      getRecommendationsDetails searchMedia titles = [] ∧ lookupsStarted titles = []) ∧
    (∀ titles : Option (List String),
      getRecommendationsDetails searchMedia titles =
        mapValues (mapOfEntries
          ((collectResults (settleAll searchMedia (lookupsStarted titles))).map
            fun item => (item.id, item)))) ∧
    (∀ ts : List String, ts ≠ [] → lookupsStarted (some ts) = ts) := by
  refine ⟨?_, ?_, ?_⟩
  · rintro titles (rfl | rfl) <;> exact ⟨rfl, rfl⟩
  · intro titles
    cases titles with
    | none => rfl
    | some ts =>
      cases ts with
      | nil => rfl
      | cons t ts => simp [getRecommendationsDetails, lookupsStarted]
  · intro ts hts
    cases ts with
    | nil => exact absurd rfl hts
    | cons t ts => simp [lookupsStarted]

/-- C24 at the empty list and at an absent argument, with lookups that would
all resolve. -/
theorem getRecommendationsDetails_empty_input_witness :
    getRecommendationsDetails (fun _ t => .fulfilled (some (mediaOf 1 t "movie"))) (some []) = [] ∧
      getRecommendationsDetails (fun _ t => .fulfilled (some (mediaOf 1 t "movie"))) none = [] :=
  ⟨((getRecommendationsDetails_empty_input
      (fun _ t => .fulfilled (some (mediaOf 1 t "movie")))).1 (some []) (Or.inr rfl)).1,
    ((getRecommendationsDetails_empty_input
      (fun _ t => .fulfilled (some (mediaOf 1 t "movie")))).1 none (Or.inl rfl)).1⟩

/-- No string returned by the cleaner begins with a quote, nor with any other
character of the leading class. -/
theorem cleanTitles_head_not_quote (text : Option String) (s : String) (c : Char)
    (hs : s ∈ cleanTitles text) (hc : s.data.head? = some c) : isLeadingStripChar c = false := by
  cases text with
  | none => simp [cleanTitles] at hs
  | some t =>
    rw [cleanTitles_some] at hs
    obtain ⟨l, hl, rfl⟩ := List.mem_map.1 hs
    obtain ⟨hmem, _⟩ := List.mem_filter.1 hl
    obtain ⟨x, _, rfl⟩ := List.mem_map.1 hmem
    rw [cleanLine_eq, referenceCleanLine] at hc
    have hp1 : List.rdropWhile isJsWhitespace
        (List.dropWhile isJsWhitespace
          (List.rdropWhile isQuoteChar (List.dropWhile isLeadingStripChar x))) <+:
        List.dropWhile isJsWhitespace
          (List.rdropWhile isQuoteChar (List.dropWhile isLeadingStripChar x)) :=
      List.rdropWhile_prefix _ _
    have hp2 : List.dropWhile isJsWhitespace
          (List.rdropWhile isQuoteChar (List.dropWhile isLeadingStripChar x)) <:+
        List.rdropWhile isQuoteChar (List.dropWhile isLeadingStripChar x) :=
      List.dropWhile_suffix _
    have hp3 : List.rdropWhile isQuoteChar (List.dropWhile isLeadingStripChar x) <+:
        List.dropWhile isLeadingStripChar x := List.rdropWhile_prefix _ _
    obtain ⟨l', hl'⟩ := List.head?_eq_some_iff.1 hc
    obtain ⟨r1, hr1⟩ := hp1
    obtain ⟨r3, hr3⟩ := hp3
    -- the middle `dropWhile` removes nothing: the head of its argument is not whitespace
    have hhead := List.head?_dropWhile_not isLeadingStripChar x
    cases hq : List.rdropWhile isQuoteChar (List.dropWhile isLeadingStripChar x) with
    | nil =>
      rw [hq] at hl'
      simp at hl'
    | cons a as =>
      rw [hq] at hr3 hl'
      rw [← hr3] at hhead
      simp only [List.cons_append, List.head?_cons] at hhead
      have hws : isJsWhitespace a = false := by
        cases hw : isJsWhitespace a with
        | false => rfl
        | true =>
          have : isLeadingStripChar a = true := by simp [isLeadingStripChar, hw]
          rw [this] at hhead
          cases hhead
      have hdrop : List.dropWhile isJsWhitespace (a :: as) = a :: as := by
        simp [List.dropWhile_cons, hws]
      rw [hdrop] at hl'
      have hpre : List.rdropWhile isJsWhitespace (a :: as) <+: a :: as :=
        List.rdropWhile_prefix _ _
      obtain ⟨r, hr⟩ := hpre
      have hl2 : List.rdropWhile isJsWhitespace (a :: as) = c :: l' := hl'
      rw [hl2] at hr
      simp only [List.cons_append, List.cons.injEq] at hr
      rw [hr.1]
      exact hhead

/-- C27 (the code at the failing input): a quoted title followed by a space is
cleaned to a title that still ends in the closing quote. -/
theorem cleanTitles_keeps_trailing_quote :
    cleanTitles (some "\"The Matrix\" ") = ["The Matrix\""] ∧
    "The Matrix\"".data.getLast? = some (Char.ofNat 34) ∧
    isQuoteChar (Char.ofNat 34) = true ∧
    cleanTitles (some "\"The Matrix\"\r\n\"Alien\"") = ["The Matrix\"", "Alien"] := by
  decide

/-! ## Lemmas on the cache key and the sweep -/

theorem replaceWhitespaceRuns_eq_collapse (l : List Char) :
    replaceWhitespaceRuns false l = collapseRuns l := by
  induction l with
  | nil => rfl
  | cons c cs ih =>
    cases cs with
    | nil =>
      by_cases hc : isJsWhitespace c = true <;> simp [replaceWhitespaceRuns, collapseRuns, hc]
    | cons d rest =>
      by_cases hc : isJsWhitespace c = true
      · by_cases hd : isJsWhitespace d = true
        · simp only [collapseRuns, hc, hd, if_true, ← ih]
          simp [replaceWhitespaceRuns, hc, hd]
        · simp only [collapseRuns, hc, hd, if_true, if_false, ← ih]
          simp [replaceWhitespaceRuns, hc, hd]
      · simp only [collapseRuns, hc, if_false, ← ih]
        simp [replaceWhitespaceRuns, hc]

theorem replaceWhitespaceRuns_run_true (r l : List Char)
    (hr : ∀ c ∈ r, isJsWhitespace c = true) :
    replaceWhitespaceRuns true (r ++ l) = replaceWhitespaceRuns true l := by
  induction r with
  | nil => rfl
  | cons c cs ih =>
    have hc := hr c (List.mem_cons_self _ _)
    simp only [List.cons_append, replaceWhitespaceRuns, hc, if_true]
    exact ih fun x hx => hr x (List.mem_cons_of_mem _ hx)

theorem replaceWhitespaceRuns_run_false (r l : List Char) (hne : r ≠ [])
    (hr : ∀ c ∈ r, isJsWhitespace c = true) :
    replaceWhitespaceRuns false (r ++ l) = '_' :: replaceWhitespaceRuns true l := by
  cases r with
  | nil => exact absurd rfl hne
  | cons c cs =>
    have hc := hr c (List.mem_cons_self _ _)
    simp only [List.cons_append, replaceWhitespaceRuns, hc, if_true]
    simp only [Bool.false_eq_true, if_false, List.cons.injEq, true_and]
    exact replaceWhitespaceRuns_run_true cs l fun x hx => hr x (List.mem_cons_of_mem _ hx)

theorem replaceWhitespaceRuns_congr (l1 l2 : List Char) (h : SameUpToWhitespaceRuns l1 l2) :
    ∀ inRun : Bool, replaceWhitespaceRuns inRun l1 = replaceWhitespaceRuns inRun l2 := by
  induction h with
  | nil => intro inRun; rfl
  | char c l1 l2 hc _ ih =>
    intro inRun
    simp [replaceWhitespaceRuns, hc, ih false]
  | run r1 r2 l1 l2 h1 h2 hr1 hr2 _ ih =>
    intro inRun
    cases inRun with
    | true =>
      rw [replaceWhitespaceRuns_run_true r1 l1 hr1, replaceWhitespaceRuns_run_true r2 l2 hr2]
      exact ih true
    | false =>
      rw [replaceWhitespaceRuns_run_false r1 l1 h1 hr1,
        replaceWhitespaceRuns_run_false r2 l2 h2 hr2, ih true]

/-- C25: the search cache key of a title is `search_` followed by the lowercased
title in which every maximal run of whitespace is replaced by one underscore;
titles with the same lowercased form, and titles whose lowercased forms differ
only in their whitespace runs, get the same key. -/
theorem getCacheKey_contract (toLowerCase : String → String) :
    (∀ t : String,
      getCacheKey toLowerCase "search" t =
        "search_" ++ String.mk (collapseRuns (toLowerCase t).data)) ∧
    (∀ t1 t2 : String, toLowerCase t1 = toLowerCase t2 →
      getCacheKey toLowerCase "search" t1 = getCacheKey toLowerCase "search" t2) ∧
    (∀ t1 t2 : String,
      SameUpToWhitespaceRuns (toLowerCase t1).data (toLowerCase t2).data →
      getCacheKey toLowerCase "search" t1 = getCacheKey toLowerCase "search" t2) := by
  refine ⟨?_, ?_, ?_⟩
  · intro t
    simp only [getCacheKey, replaceWhitespaceRuns_eq_collapse]
    rw [String.append_assoc]
    rfl
  · intro t1 t2 h
    simp only [getCacheKey, h]
  · intro t1 t2 h
    simp only [getCacheKey, replaceWhitespaceRuns_congr _ _ h false]

/-- C25 for the titles `The  Matrix` (two spaces) and `the matrix`: both get the
key `search_the_matrix`. -/
theorem getCacheKey_contract_witness :
    getCacheKey asciiLower "search" "The  Matrix" = "search_the_matrix" ∧
      getCacheKey asciiLower "search" "The  Matrix" =
        getCacheKey asciiLower "search" "the matrix" :=
  ⟨by decide,
    (getCacheKey_contract asciiLower).2.2 "The  Matrix" "the matrix" (by
      show SameUpToWhitespaceRuns
        ['t', 'h', 'e', ' ', ' ', 'm', 'a', 't', 'r', 'i', 'x']
        ['t', 'h', 'e', ' ', 'm', 'a', 't', 'r', 'i', 'x']
      refine .char _ _ _ (by decide) (.char _ _ _ (by decide) (.char _ _ _ (by decide) ?_))
      refine .run [' ', ' '] [' '] _ _ (by decide) (by decide) (by decide) (by decide) ?_
      exact .char _ _ _ (by decide) (.char _ _ _ (by decide) (.char _ _ _ (by decide)
        (.char _ _ _ (by decide) (.char _ _ _ (by decide) (.char _ _ _ (by decide) .nil))))))⟩

theorem mapDelete_eq_filter {K V : Type} [DecidableEq K] (m : List (K × V)) (k : K)
    (hnd : (m.map Prod.fst).Nodup) : mapDelete m k = m.filter fun e => decide (e.1 ≠ k) := by
  induction m with
  | nil => rfl
  | cons e m ih =>
    obtain ⟨k0, v0⟩ := e
    simp only [List.map_cons, List.nodup_cons] at hnd
    by_cases hk : k0 = k
    · subst hk
      simp only [mapDelete, if_true, List.filter_cons, ne_eq, not_true_eq_false, decide_False,
        Bool.false_eq_true, if_false]
      symm
      rw [List.filter_eq_self]
      intro a ha
      have : a.1 ≠ k0 := fun h => hnd.1 (h ▸ List.mem_map_of_mem Prod.fst ha)
      simp [this]
    · simp [mapDelete, hk, List.filter_cons, ih hnd.2]

theorem nodup_keys_filter {K V : Type} (m : List (K × V)) (p : K × V → Bool)
    (hnd : (m.map Prod.fst).Nodup) : ((m.filter p).map Prod.fst).Nodup :=
  hnd.sublist ((List.filter_sublist m).map _)

theorem mem_of_mapGet {K V : Type} [DecidableEq K] (m : List (K × V)) (k : K) (v : V)
    (h : mapGet m k = some v) : (k, v) ∈ m := by
  induction m with
  | nil => simp [mapGet] at h
  | cons e m ih =>
    obtain ⟨k0, v0⟩ := e
    by_cases hk : k0 = k
    · simp only [mapGet, hk, if_true, Option.some.injEq] at h
      rw [hk, h]
      exact List.mem_cons_self _ _
    · simp only [mapGet, hk, if_false] at h
      exact List.mem_cons_of_mem _ (ih h)

/-- The fold of the sweep over the entries `es`, on a cache `c` with distinct
keys, keeps the entries of `c` whose key is not that of an expired entry of
`es`. -/
theorem sweep_fold_eq (now : Nat) (es c : List (String × CacheEntry))
    (hnd : (c.map Prod.fst).Nodup) :
    es.foldl (fun cache e => if now ≥ e.2.expiry then mapDelete cache e.1 else cache) c =
      c.filter fun x => decide (∀ y ∈ es, now ≥ y.2.expiry → y.1 ≠ x.1) := by
  induction es generalizing c with
  | nil => simp
  | cons e es ih =>
    rw [List.foldl_cons]
    by_cases hexp : now ≥ e.2.expiry
    · simp only [hexp, if_true]
      rw [ih _ (nodup_keys_mapDelete _ _ hnd), mapDelete_eq_filter _ _ hnd, List.filter_filter]
      apply List.filter_congr
      intro x _
      rw [Bool.eq_iff_iff]
      simp only [Bool.and_eq_true, decide_eq_true_eq, List.mem_cons, forall_eq_or_imp]
      constructor
      · rintro ⟨h1, h2⟩
        exact ⟨fun _ h => h2 h.symm, h1⟩
      · rintro ⟨h1, h2⟩
        exact ⟨h2, fun h => h1 hexp h.symm⟩
    · simp only [hexp, if_false]
      rw [ih _ hnd]
      apply List.filter_congr
      intro x _
      rw [Bool.eq_iff_iff]
      simp only [decide_eq_true_eq, List.mem_cons, forall_eq_or_imp]
      constructor
      · intro h
        exact ⟨fun h2 => absurd h2 hexp, h⟩
      · rintro ⟨_, h⟩
        exact h

/-- C26: the periodic sweep run at time `now` removes exactly the entries with
`now >= expiry`: the cache it leaves is the old one without them, in the same
order, so every other entry keeps its key, value and expiry (no lifetime is
extended); clock and requests are untouched. -/
theorem sweepExpired_contract (s : State) (hwf : s.WellFormed) :
    (sweepExpired s).cache = s.cache.filter (fun e => decide (s.now < e.2.expiry)) ∧
    (∀ (k : String) (e : CacheEntry),
      mapGet (sweepExpired s).cache k = some e ↔ (mapGet s.cache k = some e ∧ s.now < e.expiry)) ∧
    (sweepExpired s).now = s.now ∧ (sweepExpired s).requests = s.requests := by
  have hcache : (sweepExpired s).cache =
      s.cache.filter (fun e => decide (s.now < e.2.expiry)) := by
    simp only [sweepExpired]
    rw [sweep_fold_eq s.now s.cache s.cache hwf]
    apply List.filter_congr
    intro x hx
    rw [Bool.eq_iff_iff]
    simp only [decide_eq_true_eq]
    constructor
    · intro h
      by_contra hexp
      exact h x hx (Nat.not_lt.1 hexp) rfl
    · intro hexp y hy hyexp hkey
      have hyx : mapGet s.cache y.1 = some y.2 := mapGet_of_mem _ _ _ hwf hy
      have hxx : mapGet s.cache x.1 = some x.2 := mapGet_of_mem _ _ _ hwf hx
      rw [hkey, hxx] at hyx
      have heq : x.2 = y.2 := Option.some.inj hyx
      rw [heq] at hexp
      exact absurd hexp (Nat.not_lt.2 hyexp)
  refine ⟨hcache, ?_, rfl, rfl⟩
  intro k e
  rw [hcache]
  have hnd2 := nodup_keys_filter s.cache (fun e => decide (s.now < e.2.expiry)) hwf
  constructor
  · intro h
    have hmem := mem_of_mapGet _ _ _ h
    rw [List.mem_filter] at hmem
    exact ⟨mapGet_of_mem _ _ _ hwf hmem.1, by simpa using hmem.2⟩
  · rintro ⟨h1, h2⟩
    apply mapGet_of_mem _ _ _ hnd2
    rw [List.mem_filter]
    exact ⟨mem_of_mapGet _ _ _ h1, by simpa using h2⟩

/-- C26 at a cache with an entry that expires at the time of the sweep and one
that expires a millisecond later: only the second is left, as it was. -/
theorem sweepExpired_contract_witness :
    (sweepExpired mixedCacheState).cache =
      [("search_new", { value := some (mediaOf 348 "Alien" "movie"), expiry := 1001 })] :=
  (sweepExpired_contract mixedCacheState (by decide)).1

/-- A cached record under the key of a title is returned by `searchMedia` before
its expiry, with the state untouched. -/
theorem searchMedia_of_hit (toLowerCase : String → String) (w : World) (s : State)
    (query : String) (m : Media) (expiry : Nat)
    (hentry : mapGet s.cache (getCacheKey toLowerCase "search" query) =
      some { value := some m, expiry := expiry })
    (hnow : s.now < expiry) :
    searchMedia toLowerCase w s query = (some m, s) := by
  simp [searchMedia, getFromCache, hentry, hnow]

/-- C29: in the similarity handler run on `searchMedia` of `tmdbClient.js`, a
valid title whose search request fails (rejected, not OK, or an unreadable
body) gets the 404 response "Could not find ...", not a 500; it is the very
response given when the search succeeds without a movie or tv entry. -/
theorem similar_handler_search_failure (toLowerCase : String → String) (w : World)
    (b : Backends State) (production : Bool) (t : String) (s : State)
    (ht : t ≠ "")
    (hmiss : (getFromCache s (getCacheKey toLowerCase "search" t)).1 = none)
    (hfail : (∃ m, w.search s.requests.length t = .rejected m) ∨
      (∃ st tx, w.search s.requests.length t = .notOk st tx) ∨
      (∃ m, w.search s.requests.length t = .bodyThrows m)) :
    (Similar.handler (tmdbBackends toLowerCase w b) production (.str t) s).response =
      ⟨404, .message ("Could not find movie/show titled \"" ++ t ++ "\" on TMDB.")⟩ ∧
    (Similar.handler (tmdbBackends toLowerCase w b) production (.str t) s).response.status ≠ 500 ∧
    (Similar.handler (tmdbBackends toLowerCase w b) production (.str t) s).calls =
      [.searchMedia t] ∧
    (∀ (w2 : World) (data : SearchData),
      w2.search s.requests.length t = .ok data →
      (∀ rs, data.results = some rs → ∀ x ∈ rs, x.media_type ≠ "movie" ∧ x.media_type ≠ "tv") →
      (Similar.handler (tmdbBackends toLowerCase w2 b) production (.str t) s).response =
        (Similar.handler (tmdbBackends toLowerCase w b) production (.str t) s).response) := by
  have hne : ∀ data, w.search s.requests.length t ≠ .ok data := by
    intro data h
    rcases hfail with ⟨m, hm⟩ | ⟨st, tx, hm⟩ | ⟨m, hm⟩ <;> rw [hm] at h <;> cases h
  have hnull : (searchMedia toLowerCase w s t).1 = none := by
    rw [searchMedia_of_miss_failure toLowerCase w s t hmiss hne]
  have hresp : (Similar.handler (tmdbBackends toLowerCase w b) production (.str t) s).response =
      ⟨404, .message ("Could not find movie/show titled \"" ++ t ++ "\" on TMDB.")⟩ := by
    simp [Similar.handler, ht, tmdbBackends, hnull]
  refine ⟨hresp, ?_, ?_, ?_⟩
  · rw [hresp]
    show (404 : Nat) ≠ 500
    decide
  · simp [Similar.handler, ht, tmdbBackends, hnull]
  · intro w2 data hok hnone
    have hnull2 : (searchMedia toLowerCase w2 s t).1 = none := by
      rw [searchMedia_of_miss_ok toLowerCase w2 s t data hmiss hok]
      simp only [Option.map_eq_none']
      cases hres : data.results with
      | none => rfl
      | some rs =>
        simp only [Option.some_bind, List.find?_eq_none]
        intro x hx
        have := hnone rs hres x hx
        simp [isMovieOrTv, this.1, this.2]
    rw [hresp]
    simp [Similar.handler, ht, tmdbBackends, hnull2]

/-- C29 at a service that answers 503: the title "Alien" gets the 404 response. -/
theorem similar_handler_search_failure_witness :
    (Similar.handler (tmdbBackends asciiLower unavailableWorld
        { searchMedia := fun _ s => (.ok none, s)
          getMediaDetails := fun _ _ s => (.ok none, s)
          getSimilarityRecommendations := fun _ _ _ _ s => (.ok none, s)
          getGenreRecommendations := fun _ _ s => (.ok none, s)
          getRecommendationsDetails := fun _ s => (.ok [], s) })
      false (.str "Alien") freshState).response =
      ⟨404, .message ("Could not find movie/show titled \"" ++ "Alien" ++ "\" on TMDB.")⟩ :=
  (similar_handler_search_failure asciiLower unavailableWorld
    { searchMedia := fun _ s => (.ok none, s)
      getMediaDetails := fun _ _ s => (.ok none, s)
      getSimilarityRecommendations := fun _ _ _ _ s => (.ok none, s)
      getGenreRecommendations := fun _ _ s => (.ok none, s)
      getRecommendationsDetails := fun _ s => (.ok [], s) }
    false "Alien" freshState (by decide) (by decide)
    (Or.inr (Or.inl ⟨503, "Service Unavailable", rfl⟩))).1

/-- C30: the titles `a b` and `a_b`, which differ in a character that is not
whitespace, get the same search cache key (when lowercasing leaves them as they
are); and whenever two titles have the same key, after `searchMedia` has cached
a record for the first on a miss, `searchMedia` for the second returns that
record at every time before the expiry without issuing a request. -/
theorem getCacheKey_collision (toLowerCase : String → String) :
    ("a b" ≠ "a_b" ∧
      (toLowerCase "a b" = "a b" → toLowerCase "a_b" = "a_b" →
        getCacheKey toLowerCase "search" "a b" = getCacheKey toLowerCase "search" "a_b")) ∧
    (∀ (w : World) (s : State) (q1 q2 : String) (data : SearchData) (m : Media),
      getCacheKey toLowerCase "search" q1 = getCacheKey toLowerCase "search" q2 →
      (getFromCache s (getCacheKey toLowerCase "search" q1)).1 = none →
      w.search s.requests.length q1 = .ok data →
      (searchMedia toLowerCase w s q1).1 = some m →
      ∀ time : Nat, time < s.now + w.latency s.requests.length + CACHE_TTL →
        searchMedia toLowerCase w { (searchMedia toLowerCase w s q1).2 with now := time } q2 =
          (some m, { (searchMedia toLowerCase w s q1).2 with now := time })) := by
  refine ⟨⟨by decide, ?_⟩, ?_⟩
  · intro h1 h2
    simp only [getCacheKey, h1, h2]
    decide
  · intro w s q1 q2 data m hkey hmiss hok hres time htime
    have hfirst := searchMedia_of_miss_ok toLowerCase w s q1 data hmiss hok
    rw [hfirst] at hres ⊢
    simp only at hres
    apply searchMedia_of_hit toLowerCase w _ q2 m
      (s.now + w.latency s.requests.length + CACHE_TTL)
    · rw [← hkey, hres]
      simp [setInCache, mapGet_mapSet]
    · exact htime

/-- C30 with ASCII lower-casing and a service that finds a show: after the
search for `a b`, the search for `a_b` one second later returns the same record
and the only request issued is the first. -/
theorem getCacheKey_collision_witness :
    getCacheKey asciiLower "search" "a b" = getCacheKey asciiLower "search" "a_b" ∧
      searchMedia asciiLower showWorld
          { (searchMedia asciiLower showWorld freshState "a b").2 with now := 1000 } "a_b" =
        (some (simplifiedResult showResult),
          { (searchMedia asciiLower showWorld freshState "a b").2 with now := 1000 }) ∧
      (searchMedia asciiLower showWorld
          { (searchMedia asciiLower showWorld freshState "a b").2 with now := 1000 }
          "a_b").2.requests = [Request.search "a b"] :=
  ⟨(getCacheKey_collision asciiLower).1.2 (by decide) (by decide),
    (getCacheKey_collision asciiLower).2 showWorld freshState "a b" "a_b"
      { results := some [showResult] } (simplifiedResult showResult)
      (by decide) (by decide) rfl (by decide) 1000 (by decide),
    by decide⟩

end CiniSuggest
